import Mathlib

/-!
# Arvados controller federation: a shallow embedding

The development follows `lib/controller/federation.go` and `sdk/go/auth/salt.go`.
Go strings are byte sequences, so a string is a list of bytes and `len` is the
length of that list. Go's `(value, error)` results are `Except` values. The
standard-library primitives the code calls (`crypto/md5`, `crypto/sha1`,
`crypto/hmac`, `strings`, `net/url`, `bufio`) are written out as executable
functions.
-/

set_option autoImplicit false

deriving instance DecidableEq for Except

/-! ## Strings -/

/-- One byte of a Go string. -/
abbrev Byte := Fin 256

/-- A Go `string`: a sequence of bytes. -/
abbrev GoString := List Byte

/-- The byte of an ASCII character literal. -/
def byte (ch : Char) : Byte := Fin.ofNat ch.toNat

/-- The bytes of an ASCII string literal. -/
def ascii (s : String) : GoString := s.toList.map byte

/-- Membership in an inclusive byte range such as `0-9`. -/
def inRange (lo hi : Char) (b : Byte) : Bool :=
  decide (lo.toNat ≤ b.val) && decide (b.val ≤ hi.toNat)

/-- The character class `[0-9a-z]`. -/
def isLowerAlnum (b : Byte) : Bool := inRange '0' '9' b || inRange 'a' 'z' b

/-- The character class `[0-9]`. -/
def isDigit (b : Byte) : Bool := inRange '0' '9' b

/-- The character class `[[:xdigit:]]`, that is `[0-9A-Fa-f]`. -/
def isXDigit (b : Byte) : Bool := inRange '0' '9' b || inRange 'A' 'F' b || inRange 'a' 'f' b

namespace strings

/-- Go `strings.Split(s, sep)` for a one-byte separator: the substrings between
the separators, `[s]` when there is none, never an empty slice. -/
def Split (s : GoString) (sep : Byte) : List GoString := s.splitOn sep

/-- Go `strings.HasPrefix(s, p)`. -/
def HasPrefix (s p : GoString) : Bool := p.isPrefixOf s

end strings

/-- One lowercase hexadecimal digit, as the `%x` verb prints it. -/
def hexDigit (n : Nat) : Byte :=
  if n < 10 then Fin.ofNat (48 + n) else Fin.ofNat (87 + n)

/-- Go `fmt.Sprintf("%x", bs)` on a byte slice: two lowercase hex digits a byte. -/
def hexEncode (bs : List Byte) : GoString :=
  bs.flatMap (fun b => [hexDigit (b.val / 16), hexDigit (b.val % 16)])

/-- Go `fmt.Sprintf("%v", n)` on a non-negative `int`: its decimal digits. -/
def formatInt (n : Nat) : GoString := (Nat.toDigits 10 n).map byte

/-! ## crypto/md5, crypto/sha1, crypto/hmac

Words are natural numbers reduced modulo `2 ^ 32`. -/

/-- Rotate a 32-bit word left by `n` bits. -/
def rotl32 (x n : Nat) : Nat := ((x <<< n) ||| (x >>> (32 - n))) % 2 ^ 32

/-- Bitwise complement of a 32-bit word. -/
def not32 (x : Nat) : Nat := 2 ^ 32 - 1 - x % 2 ^ 32

/-- The first `k` chunks of `n` elements of a list. -/
def chunks (n : Nat) : Nat → List Nat → List (List Nat)
  | 0, _ => []
  | k + 1, l => l.take n :: chunks n k (l.drop n)

/-- A little-endian word from its bytes. -/
def leWord (bs : List Nat) : Nat := bs.foldr (fun b acc => b + 256 * acc) 0

/-- A big-endian word from its bytes. -/
def beWord (bs : List Nat) : Nat := bs.foldl (fun acc b => 256 * acc + b) 0

/-- The `k` low bytes of a word, least significant first. -/
def leBytes : Nat → Nat → List Nat
  | 0, _ => []
  | k + 1, w => w % 256 :: leBytes k (w / 256)

/-- The `k` low bytes of a word, most significant first. -/
def beBytes (k w : Nat) : List Nat := (leBytes k w).reverse

/-- Merkle–Damgård padding shared by MD5 and SHA-1: a `0x80` byte, zeros up to
56 modulo 64, then the bit length on eight bytes. -/
def mdPad (lenBytes : Nat → List Nat) (msg : List Nat) : List Nat :=
  let zeros := (119 - msg.length % 64) % 64
  msg ++ [128] ++ List.replicate zeros 0 ++ lenBytes (8 * msg.length % 2 ^ 64)

/-- The MD5 sine table. -/
def md5K : List Nat := [
  0xd76aa478, 0xe8c7b756, 0x242070db, 0xc1bdceee, 0xf57c0faf, 0x4787c62a, 0xa8304613, 0xfd469501,
  0x698098d8, 0x8b44f7af, 0xffff5bb1, 0x895cd7be, 0x6b901122, 0xfd987193, 0xa679438e, 0x49b40821,
  0xf61e2562, 0xc040b340, 0x265e5a51, 0xe9b6c7aa, 0xd62f105d, 0x02441453, 0xd8a1e681, 0xe7d3fbc8,
  0x21e1cde6, 0xc33707d6, 0xf4d50d87, 0x455a14ed, 0xa9e3e905, 0xfcefa3f8, 0x676f02d9, 0x8d2a4c8a,
  0xfffa3942, 0x8771f681, 0x6d9d6122, 0xfde5380c, 0xa4beea44, 0x4bdecfa9, 0xf6bb4b60, 0xbebfbc70,
  0x289b7ec6, 0xeaa127fa, 0xd4ef3085, 0x04881d05, 0xd9d4d039, 0xe6db99e5, 0x1fa27cf8, 0xc4ac5665,
  0xf4292244, 0x432aff97, 0xab9423a7, 0xfc93a039, 0x655b59c3, 0x8f0ccc92, 0xffeff47d, 0x85845dd1,
  0x6fa87e4f, 0xfe2ce6e0, 0xa3014314, 0x4e0811a1, 0xf7537e82, 0xbd3af235, 0x2ad7d2bb, 0xeb86d391]

/-- The MD5 per-round rotation amounts. -/
def md5S : List Nat := [
  7, 12, 17, 22, 7, 12, 17, 22, 7, 12, 17, 22, 7, 12, 17, 22,
  5, 9, 14, 20, 5, 9, 14, 20, 5, 9, 14, 20, 5, 9, 14, 20,
  4, 11, 16, 23, 4, 11, 16, 23, 4, 11, 16, 23, 4, 11, 16, 23,
  6, 10, 15, 21, 6, 10, 15, 21, 6, 10, 15, 21, 6, 10, 15, 21]

/-- The four chaining words of MD5. -/
structure MD5State where
  a : Nat
  b : Nat
  c : Nat
  d : Nat

/-- One of the 64 MD5 operations on the message words `m`. -/
def md5Step (m : List Nat) (st : MD5State) (i : Nat) : MD5State :=
  let f := if i < 16 then (st.b &&& st.c) ||| (not32 st.b &&& st.d)
    else if i < 32 then (st.d &&& st.b) ||| (not32 st.d &&& st.c)
    else if i < 48 then st.b ^^^ st.c ^^^ st.d
    else st.c ^^^ (st.b ||| not32 st.d)
  let g := if i < 16 then i
    else if i < 32 then (5 * i + 1) % 16
    else if i < 48 then (3 * i + 5) % 16
    else (7 * i) % 16
  let t := (f + st.a + md5K.getD i 0 + m.getD g 0) % 2 ^ 32
  { a := st.d, b := (st.b + rotl32 t (md5S.getD i 0)) % 2 ^ 32, c := st.b, d := st.c }

/-- The MD5 compression of one 64-byte block. -/
def md5Block (st : MD5State) (block : List Nat) : MD5State :=
  let m := (chunks 4 16 block).map leWord
  let r := (List.range 64).foldl (md5Step m) st
  { a := (st.a + r.a) % 2 ^ 32, b := (st.b + r.b) % 2 ^ 32,
    c := (st.c + r.c) % 2 ^ 32, d := (st.d + r.d) % 2 ^ 32 }

/-- Go `md5.Sum`: the 16-byte digest of everything written to the hasher. -/
def md5Sum (msg : GoString) : List Byte :=
  let padded := mdPad (leBytes 8) (msg.map Fin.val)
  let r := (chunks 64 (padded.length / 64) padded).foldl md5Block
    { a := 0x67452301, b := 0xefcdab89, c := 0x98badcfe, d := 0x10325476 }
  ([r.a, r.b, r.c, r.d].flatMap (leBytes 4)).map Fin.ofNat

/-- The five chaining words of SHA-1. -/
structure SHA1State where
  a : Nat
  b : Nat
  c : Nat
  d : Nat
  e : Nat

/-- The SHA-1 message schedule: `k` more words appended to `w`. -/
def sha1Schedule : Nat → List Nat → List Nat
  | 0, w => w
  | k + 1, w =>
    let n := w.length
    sha1Schedule k (w ++ [rotl32 (w.getD (n - 3) 0 ^^^ w.getD (n - 8) 0 ^^^ w.getD (n - 14) 0
      ^^^ w.getD (n - 16) 0) 1])

/-- One of the 80 SHA-1 rounds on the schedule `w`. -/
def sha1Step (w : List Nat) (st : SHA1State) (i : Nat) : SHA1State :=
  let f := if i < 20 then (st.b &&& st.c) ||| (not32 st.b &&& st.d)
    else if i < 40 then st.b ^^^ st.c ^^^ st.d
    else if i < 60 then (st.b &&& st.c) ||| (st.b &&& st.d) ||| (st.c &&& st.d)
    else st.b ^^^ st.c ^^^ st.d
  let k := if i < 20 then 0x5a827999 else if i < 40 then 0x6ed9eba1
    else if i < 60 then 0x8f1bbcdc else 0xca62c1d6
  { a := (rotl32 st.a 5 + f + st.e + k + w.getD i 0) % 2 ^ 32,
    b := st.a, c := rotl32 st.b 30, d := st.c, e := st.d }

/-- The SHA-1 compression of one 64-byte block. -/
def sha1Block (st : SHA1State) (block : List Nat) : SHA1State :=
  let w := sha1Schedule 64 ((chunks 4 16 block).map beWord)
  let r := (List.range 80).foldl (sha1Step w) st
  { a := (st.a + r.a) % 2 ^ 32, b := (st.b + r.b) % 2 ^ 32, c := (st.c + r.c) % 2 ^ 32,
    d := (st.d + r.d) % 2 ^ 32, e := (st.e + r.e) % 2 ^ 32 }

/-- Go `sha1.Sum`: the 20-byte digest. -/
def sha1Sum (msg : GoString) : List Byte :=
  let padded := mdPad (beBytes 8) (msg.map Fin.val)
  let r := (chunks 64 (padded.length / 64) padded).foldl sha1Block
    { a := 0x67452301, b := 0xefcdab89, c := 0x98badcfe, d := 0x10325476, e := 0xc3d2e1f0 }
  ([r.a, r.b, r.c, r.d, r.e].flatMap (beBytes 4)).map Fin.ofNat

/-- Go `hmac.New(sha1.New, key)` fed `msg`, then `Sum(nil)`. -/
def hmacSha1 (key msg : GoString) : List Byte :=
  let k := if key.length > 64 then sha1Sum key else key
  let k := k ++ List.replicate (64 - k.length) 0
  sha1Sum (k.map (fun b => Fin.ofNat (b.val ^^^ 0x5c)) ++
    sha1Sum (k.map (fun b => Fin.ofNat (b.val ^^^ 0x36)) ++ msg))

/-! ## sdk/go/auth/salt.go -/

namespace auth

/-- The three error values of the package. -/
inductive Error
  | ErrObsoleteToken
  | ErrTokenFormat
  | ErrSalted
  deriving DecidableEq, Repr

/-- The tail of `reObsoleteToken`: `[0-9a-z]*$`. -/
def reObsoleteTokenRest : GoString → Bool
  | [] => true
  | b :: rest => isLowerAlnum b && reObsoleteTokenRest rest

/-- The regular expression `^[0-9a-z]{n}[0-9a-z]*$`, read left to right. -/
def reObsoleteTokenFrom : Nat → GoString → Bool
  | 0, s => reObsoleteTokenRest s
  | _ + 1, [] => false
  | n + 1, b :: rest => isLowerAlnum b && reObsoleteTokenFrom n rest

/-- `reObsoleteToken.MatchString`, for the pattern `^[0-9a-z]{41,}$`. -/
def reObsoleteToken (token : GoString) : Bool := reObsoleteTokenFrom 41 token

/-- The function `SaltToken(token, remote)` of salt.go. -/
def SaltToken (token remote : GoString) : Except Error GoString :=
  let parts := strings.Split token (byte '/')
  if parts.length < 3 ∨ parts.getD 0 [] ≠ ascii "v2" then
    if reObsoleteToken token then
      .error Error.ErrObsoleteToken
    else
      .error Error.ErrTokenFormat
  else
    let uuid := parts.getD 1 []
    let secret := parts.getD 2 []
    if secret.length ≠ 40 then
      -- not already salted
      let secret := hexEncode (hmacSha1 secret remote)
      .ok (ascii "v2/" ++ uuid ++ ascii "/" ++ secret)
    else if strings.HasPrefix uuid remote then
      -- already salted for the desired remote
      .ok token
    else
      -- salted for a different remote, can't be used
      .error Error.ErrSalted

end auth

/-! ## keepclient.SignedLocatorRe -/

namespace keepclient

/-- The capture groups of a `SignedLocatorRe` match that `rewriteSignatures` reads:
`m[1]`, `m[2]`, `m[3]`, `m[5]` and `m[8]`. -/
structure SignedLocatorMatch where
  /-- The group `m[1]`: the 32 hex digits of the block hash. -/
  hash : GoString
  /-- The group `m[2]`: `+` and the decimal size. -/
  size : GoString
  /-- The group `m[3]`: the hints before the signature, each with its `+`. -/
  hints : GoString
  /-- The group `m[5]`: the signature hint `+A<signature>@<timestamp>`. -/
  sig : GoString
  /-- The group `m[8]`: the hints after the signature, each with its `+`. -/
  trailing : GoString
  deriving DecidableEq

/-- The character class `[A-Za-z0-9@_-]` of a hint's body. -/
def isHintByte (b : Byte) : Bool :=
  inRange 'A' 'Z' b || inRange 'a' 'z' b || inRange '0' '9' b ||
    b == byte '@' || b == byte '_' || b == byte '-'

/-- An unsigned hint without its `+`: `[B-Z][A-Za-z0-9@_-]*`. -/
def isUnsignedHint : GoString → Bool
  | [] => false
  | b :: rest => inRange 'B' 'Z' b && rest.all isHintByte

/-- The signature hint without its `+`: `A[[:xdigit:]]{40}@[[:xdigit:]]{8}`. -/
def isSignatureHint : GoString → Bool
  | [] => false
  | b :: rest =>
    b == byte 'A' &&
      match strings.Split rest (byte '@') with
      | [signature, timestamp] =>
        decide (signature.length = 40) && signature.all isXDigit &&
          decide (timestamp.length = 8) && timestamp.all isXDigit
      | _ => false

/-- Hints written one after the other, each behind a `+`. -/
def joinHints (hints : List GoString) : GoString := hints.flatMap (fun h => byte '+' :: h)

/-- Modelled from the spec: `keepclient.SignedLocatorRe` is declared outside the
files at hand. A signed block locator is 32 hex digits, `+` and a decimal size,
then `+`-led hints of which exactly one is the signature `+A<signature>@<timestamp>`
and the others start with a letter from `B` to `Z`; the groups are the hash, the
size, the hints before the signature, the signature hint and the hints after it:
`^([[:xdigit:]]{32})(\+[0-9]+)((\+[B-Z][A-Za-z0-9@_-]*)*)(\+A[[:xdigit:]]{40}@[[:xdigit:]]{8})((\+[B-Z][A-Za-z0-9@_-]*)*)$`.
`FindStringSubmatch` gives `none` (Go: `nil`) when the token does not match. -/
def SignedLocatorRe (token : GoString) : Option SignedLocatorMatch :=
  match strings.Split token (byte '+') with
  | hash :: size :: hints =>
    if hash.length = 32 ∧ hash.all isXDigit = true ∧ size ≠ [] ∧ size.all isDigit = true then
      match hints.span isUnsignedHint with
      | (before, signature :: after) =>
        if isSignatureHint signature = true ∧ after.all isUnsignedHint = true then
          some { hash := hash, size := byte '+' :: size, hints := joinHints before,
                 sig := byte '+' :: signature, trailing := joinHints after }
        else none
      | _ => none
    else none
  | _ => none

/-- The shape the pattern gives its groups: hex digits, `+` and digits, `+`-led
hints that start with `B`..`Z`, and `+A<signature>@<timestamp>`. -/
def SignedLocatorMatch.WellFormed (m : SignedLocatorMatch) : Prop :=
  ∃ (size signature : GoString) (before after : List GoString),
    m.size = byte '+' :: size ∧ m.hints = joinHints before ∧
    m.sig = byte '+' :: signature ∧ m.trailing = joinHints after ∧
    m.hash.all isXDigit = true ∧ size ≠ [] ∧ size.all isDigit = true ∧
    before.all isUnsignedHint = true ∧ isSignatureHint signature = true ∧
    after.all isUnsignedHint = true

end keepclient

/-! ## bufio.Scanner -/

namespace bufio

/-- The function `dropCR` of bufio: a final `\r` is dropped. -/
def dropCR (data : GoString) : GoString :=
  if data.getLast? = some (byte '\r') then data.dropLast else data

/-- The lines `for scanner.Scan() { scanner.Text() }` visits with the default
`ScanLines` split over `strings.NewReader(s)`, after
`scanner.Buffer(make([]byte, 1048576), len(s))`: the text between newlines with
a final `\r` dropped, a last line without newline included when it is not empty.
An input of 1 MiB or more without any newline fills the buffer at its maximal
size, `Scan` stops with `ErrTooLong` and no line is visited (the caller does not
read `scanner.Err()`). -/
def scanLines (s : GoString) : List GoString :=
  if byte '\n' ∉ s ∧ 1048576 ≤ s.length then
    []
  else
    let parts := strings.Split s (byte '\n')
    (if parts.getLast? = some [] then parts.dropLast else parts).map dropCR

end bufio

/-! ## lib/controller/federation.go: the signature rewriter -/

/-- The Go `error` values the controller handles. -/
inductive Error
  /-- A transport error handed to a response filter, or any error of a callee. -/
  | other (msg : GoString)
  /-- An error of `json.Decoder.Decode`. -/
  | jsonDecode (msg : GoString)
  /-- The error "Invalid stream (<3 tokens): %q". -/
  | invalidStream (line : GoString)
  /-- The error "portable_data_hash %q on returned record did not match expected hash %q". -/
  | pdhMismatch (expectHash recordHash : GoString)
  /-- The error "Computed manifest_text hash %q did not match expected hash %q". -/
  | computedHashMismatch (computedHash expectHash : GoString)
  /-- A nil response dereferenced: a run-time panic. -/
  | nilDereference
  /-- An error of `auth.SaltToken`. -/
  | salt (e : auth.Error)
  /-- The value `sql.ErrNoRows`. -/
  | sqlErrNoRows
  /-- An error of `url.ParseQuery`. -/
  | parseQuery (msg : GoString)
  deriving DecidableEq

namespace arvados

/-- The fields of `arvados.Collection` the rewriter touches; the others pass
through the decoder and encoder untouched and are left out. -/
structure Collection where
  ManifestText : GoString
  PortableDataHash : GoString
  deriving DecidableEq

end arvados

namespace http

/-- An `*http.Response`; `Body` is what the JSON decoder reads from the body. -/
structure Response (β : Type) where
  StatusCode : Nat
  Status : GoString
  Body : β
  deriving DecidableEq

end http

/-- The body of a collection response: what `json.NewDecoder(resp.Body).Decode(&col)`
yields, a record or a decoding error. -/
abbrev CollectionBody := Except Error arvados.Collection

/-- The pair `(newResponse *http.Response, err error)` a response filter returns;
`(none, none)` suppresses the response. -/
abbrev FilterResult (β : Type) := Option (http.Response β) × Option Error

/-- The struct `rewriteSignaturesClusterId`. -/
structure rewriteSignaturesClusterId where
  clusterID : GoString
  expectHash : GoString
  deriving DecidableEq

/-- The three accumulators of the scan loop: the bytes written to the md5 hasher,
the buffer `updatedManifest`, and the counter `sz`. -/
structure manifestWriter where
  hasher : GoString
  updatedManifest : GoString
  sz : Nat
  deriving DecidableEq

/-- The statement `n, err := mw.Write(p); sz += n`: `mw` is the `io.MultiWriter` of
the hasher and the buffer, neither of which ever returns an error. -/
def manifestWriter.write (w : manifestWriter) (p : GoString) : manifestWriter :=
  { hasher := w.hasher ++ p, updatedManifest := w.updatedManifest ++ p, sz := w.sz + p.length }

/-- The body of `for _, token := range tokens[1:]` (federation.go:383-411). -/
def rewriteToken (re : GoString → Option keepclient.SignedLocatorMatch) (clusterID : GoString)
    (w : manifestWriter) (token : GoString) : manifestWriter :=
  let w := w.write (ascii " ")
  match re token with
  | some m =>
    -- Rewrite the block signature to be a remote signature
    let w := { w with updatedManifest := w.updatedManifest ++
      (m.hash ++ m.size ++ m.hints ++ ascii "+R" ++ clusterID ++ ascii "-" ++ m.sig.drop 2 ++
        m.trailing) }
    -- for hash checking, ignore signatures
    { w with hasher := w.hasher ++ (m.hash ++ m.size), sz := w.sz + (m.hash ++ m.size).length }
  | none => w.write token

/-- The body of `for scanner.Scan()` (federation.go:371-417). -/
def rewriteLine (re : GoString → Option keepclient.SignedLocatorMatch) (clusterID : GoString)
    (w : manifestWriter) (line : GoString) : Except Error manifestWriter :=
  let tokens := strings.Split line (byte ' ')
  if tokens.length < 3 then
    .error (Error.invalidStream line)
  else
    let w := w.write (tokens.getD 0 [])
    let w := (tokens.drop 1).foldl (rewriteToken re clusterID) w
    .ok (w.write (ascii "\n"))

/-- The method `rewriteSignaturesClusterId.rewriteSignatures` (federation.go:343-447),
with the regular expression `keepclient.SignedLocatorRe` as `re`. The new body is
the record with its manifest replaced; the `Content-Length` bookkeeping is left out. -/
def rewriteSignatures (re : GoString → Option keepclient.SignedLocatorMatch)
    (rw : rewriteSignaturesClusterId) (resp : Option (http.Response CollectionBody))
    (requestError : Option Error) : FilterResult CollectionBody :=
  match requestError with
  | some e => (resp, some e)
  | none =>
    match resp with
    | none => (none, some Error.nilDereference)
    | some resp =>
      if resp.StatusCode ≠ 200 then
        (some resp, none)
      else
        match resp.Body with
        | .error e => (none, some e)
        | .ok col =>
          match (bufio.scanLines col.ManifestText).foldlM (rewriteLine re rw.clusterID)
              { hasher := [], updatedManifest := [], sz := 0 } with
          | .error e => (none, some e)
          | .ok w =>
            -- Check that expected hash is consistent with
            -- portable_data_hash field of the returned record
            if rw.expectHash ≠ [] ∧ rw.expectHash ≠ col.PortableDataHash then
              (none, some (Error.pdhMismatch rw.expectHash col.PortableDataHash))
            else
              let expectHash := if rw.expectHash = [] then col.PortableDataHash else rw.expectHash
              -- Certify that the computed hash of the manifest_text matches our expectation
              let computedHash := hexEncode (md5Sum w.hasher) ++ ascii "+" ++ formatInt w.sz
              if computedHash ≠ expectHash then
                (none, some (Error.computedHashMismatch computedHash expectHash))
              else
                (some { resp with Body := .ok { col with ManifestText := w.updatedManifest } },
                  none)

/-! ### The rewritten manifest, token by token -/

/-- The text that stands for a token after the first of a line in the rewritten
manifest: a signed locator with its signature turned into a `+R` hint, any other
token itself. -/
def remoteLocator (re : GoString → Option keepclient.SignedLocatorMatch)
    (clusterID token : GoString) : GoString :=
  match re token with
  | some m =>
    m.hash ++ m.size ++ m.hints ++ ascii "+R" ++ clusterID ++ ascii "-" ++ m.sig.drop 2 ++
      m.trailing
  | none => token

/-- The signature-stripped form of a token after the first of a line: a rewritten
block locator reduced to its hash and size, any other token itself. -/
def strippedLocator (re : GoString → Option keepclient.SignedLocatorMatch)
    (token : GoString) : GoString :=
  match re token with
  | some m => m.hash ++ m.size
  | none => token

/-- A manifest laid out from its lines: the first token of a line as it is, every
other token through `f`, tokens joined by single spaces, every line ended by a
newline. -/
def layoutManifest (f : GoString → GoString) (lines : List GoString) : GoString :=
  lines.flatMap (fun line =>
    match strings.Split line (byte ' ') with
    | [] => ascii "\n"
    | first :: rest => [byte ' '].intercalate (first :: rest.map f) ++ ascii "\n")

/-! ### A signed collection response, for the examples -/

/-- A 200 response of a remote cluster: one stream with one signed block locator
and one file; the hash of the record is that of the manifest without signature. -/
def signedCollectionResponse : http.Response CollectionBody :=
  { StatusCode := 200, Status := ascii "200 OK",
    Body := .ok
      { ManifestText := ascii
          ". d41d8cd98f00b204e9800998ecf8427e+0+A0123456789abcdef0123456789abcdef01234567@5b9c1234 0:0:f\n",
        PortableDataHash := ascii "5a7598c227e3703616c071e553ade2c0+43" } }

/-- The response `signedCollectionResponse` as `rewriteSignatures` returns it for
the remote `zzzzz`. -/
def rewrittenCollectionResponse : http.Response CollectionBody :=
  { StatusCode := 200, Status := ascii "200 OK",
    Body := .ok
      { ManifestText := ascii
          ". d41d8cd98f00b204e9800998ecf8427e+0+Rzzzzz-0123456789abcdef0123456789abcdef01234567@5b9c1234 0:0:f\n",
        PortableDataHash := ascii "5a7598c227e3703616c071e553ade2c0+43" } }

/-! ## net/url -/

namespace url

/-- A `url.Values`, Go's `map[string][]string`: the keys in the order they were
first set, each with its values. -/
abbrev Values := List (GoString × List GoString)

/-- The map read `v[key]`: the values of the key, none when it is absent. -/
def Values.get (v : Values) (key : GoString) : List GoString := (v.lookup key).getD []

/-- The test `_, ok := v[key]`. -/
def Values.has (v : Values) (key : GoString) : Bool := (v.lookup key).isSome

/-- The statement `v[key] = append(v[key], vals...)`. -/
def Values.append : Values → GoString → List GoString → Values
  | [], key, vals => [(key, vals)]
  | (k, vs) :: rest, key, vals =>
    if k = key then (k, vs ++ vals) :: rest else (k, vs) :: Values.append rest key vals

/-- The statement `delete(v, key)`, also `v.Del(key)`. -/
def Values.del (v : Values) (key : GoString) : Values := v.filter (fun kv => kv.1 ≠ key)

/-- The function `ishex` of net/url. -/
def ishex (c : Byte) : Bool := inRange '0' '9' c || inRange 'a' 'f' c || inRange 'A' 'F' c

/-- The function `unhex` of net/url. -/
def unhex (c : Byte) : Nat :=
  if inRange '0' '9' c then c.val - 48
  else if inRange 'a' 'f' c then c.val - 97 + 10
  else if inRange 'A' 'F' c then c.val - 65 + 10
  else 0

/-- The function `shouldEscape(c, encodeQueryComponent)`: everything but letters,
digits and `-`, `_`, `.`, `~` is escaped. -/
def shouldEscape (c : Byte) : Bool :=
  !(inRange 'A' 'Z' c || inRange 'a' 'z' c || inRange '0' '9' c ||
    c == byte '-' || c == byte '_' || c == byte '.' || c == byte '~')

/-- One digit of `"0123456789ABCDEF"`. -/
def upperhex (n : Nat) : Byte := if n < 10 then Fin.ofNat (48 + n) else Fin.ofNat (55 + n)

/-- Go `url.QueryEscape`. -/
def QueryEscape (s : GoString) : GoString :=
  s.flatMap (fun c =>
    if shouldEscape c then
      if c = byte ' ' then [byte '+'] else [byte '%', upperhex (c.val / 16), upperhex (c.val % 16)]
    else [c])

/-- Go `url.QueryUnescape`: `%XX` is a byte, `+` a space; a `%` that is not followed
by two hex digits is an `EscapeError` naming it. -/
def QueryUnescape : GoString → Except Error GoString
  | [] => .ok []
  | c :: rest =>
    if c = byte '%' then
      match rest with
      | h1 :: h2 :: rest' =>
        if ishex h1 = true ∧ ishex h2 = true then
          match QueryUnescape rest' with
          | .ok t => .ok (Fin.ofNat (unhex h1 * 16 + unhex h2) :: t)
          | .error e => .error e
        else .error (Error.parseQuery (c :: rest.take 2))
      | _ => .error (Error.parseQuery (c :: rest.take 2))
    else
      match QueryUnescape rest with
      | .ok t => .ok ((if c = byte '+' then byte ' ' else c) :: t)
      | .error e => .error e

/-- The body of the loop of `parseQuery` for one `&`- or `;`-separated piece: an
empty piece is skipped, a piece whose key or value does not unescape is skipped
and the first such error kept, any other piece adds its value to its key. -/
def parseQueryStep (acc : Values × Option Error) (piece : GoString) : Values × Option Error :=
  if piece = [] then acc
  else
    let key := piece.takeWhile (fun c => c ≠ byte '=')
    let value := (piece.dropWhile (fun c => c ≠ byte '=')).drop 1
    match QueryUnescape key with
    | .error e => (acc.1, acc.2.orElse (fun _ => some e))
    | .ok key =>
      match QueryUnescape value with
      | .error e => (acc.1, acc.2.orElse (fun _ => some e))
      | .ok value => (acc.1.append key [value], acc.2)

/-- Go `url.ParseQuery` (the version that splits on `&` and on `;`): the values
found, and the first error met if any. -/
def ParseQuery (query : GoString) : Values × Option Error :=
  (query.splitOnP (fun c => c == byte '&' || c == byte ';')).foldl parseQueryStep ([], none)

/-- Go `Values.Encode`: `key=value` pairs, escaped, joined by `&`, keys sorted. -/
def Values.Encode (v : Values) : GoString :=
  let keys := (v.map Prod.fst).insertionSort (fun a b => a ≤ b)
  [byte '&'].intercalate
    (keys.flatMap (fun k => (v.get k).map (fun val => QueryEscape k ++ byte '=' :: QueryEscape val)))

/-- The fields of the `url.URL` that `remoteClusterRequest` builds. -/
structure URL where
  Scheme : GoString
  Host : GoString
  Path : GoString
  RawPath : GoString
  RawQuery : GoString
  deriving DecidableEq

end url

/-! ## Requests, the cluster configuration and the handler -/

namespace http

/-- The parts of an `*http.Request` the controller reads and writes. The three
headers are what `req.Header.Get` returns, empty when the header is absent. -/
structure Request where
  Method : GoString
  /-- The field `req.URL.Path`. -/
  Path : GoString
  /-- The field `req.URL.RawPath`. -/
  RawPath : GoString
  /-- The field `req.URL.RawQuery`. -/
  RawQuery : GoString
  /-- The header `Authorization`. -/
  Authorization : GoString
  /-- The header `Content-Type`. -/
  ContentType : GoString
  /-- The header `Via`. -/
  Via : GoString
  Body : GoString
  /-- The field `req.PostForm`, `none` for a nil map. -/
  PostForm : Option url.Values
  deriving DecidableEq

end http

namespace arvados

/-- The struct `arvados.RemoteCluster`. -/
structure RemoteCluster where
  Host : GoString
  Proxy : Bool
  Scheme : GoString
  Insecure : Bool
  deriving DecidableEq

/-- The fields of `arvados.Cluster` the controller reads; `RemoteClusters` is a Go map. -/
structure Cluster where
  ClusterID : GoString
  RemoteClusters : List (GoString × RemoteCluster)
  deriving DecidableEq

/-- The fields of `arvados.APIClientAuthorization` the controller uses. -/
structure APIClientAuthorization where
  UUID : GoString
  APIToken : GoString
  deriving DecidableEq

/-- Modelled from the spec: the method `APIClientAuthorization.TokenV2` is declared
outside the files at hand; the versioned form of a credential is
`v2/<uuid>/<secret>`. -/
def APIClientAuthorization.TokenV2 (aca : APIClientAuthorization) : GoString :=
  ascii "v2/" ++ aca.UUID ++ ascii "/" ++ aca.APIToken

end arvados

/-- The struct `CurrentUser`. -/
structure CurrentUser where
  Authorization : arvados.APIClientAuthorization
  UUID : GoString
  deriving DecidableEq

/-- A response filter handed to the proxy. -/
inductive ResponseFilter
  /-- The method value `rewriteSignaturesClusterId{..}.rewriteSignatures`. -/
  | rewriteSignatures (rw : rewriteSignaturesClusterId)
  /-- The method value `rc.collectResponse` of a multi-cluster query. -/
  | collectResponse
  /-- The function `filterLocalClusterResponse`. -/
  | filterLocalClusterResponse
  /-- The method value `search.filterRemoteClusterResponse` for a hash and a remote. -/
  | filterRemoteClusterResponse (pdh remoteID : GoString)
  deriving DecidableEq

/-- The `Handler` of the controller, with the callees that live outside the files
at hand as fields. -/
structure Handler where
  Cluster : arvados.Cluster
  /-- The method `auth.Credentials.LoadTokensFromHTTPRequest`: the tokens it leaves
  in `creds.Tokens` for a request. -/
  LoadTokensFromHTTPRequest : http.Request → List GoString
  /-- The method `auth.Credentials.LoadTokensFromHTTPRequestBody`: its error, or the
  `req.PostForm` it leaves and the tokens it adds to `creds.Tokens`. -/
  LoadTokensFromHTTPRequestBody : http.Request → Except Error (Option url.Values × List GoString)
  /-- The method `h.db`, and on the connection it returns the row that
  `QueryRowContext(..).Scan(&user.Authorization.UUID, &user.UUID)` reads for an
  `api_token`: the two uuids, or the error of `Scan` (`sql.ErrNoRows` for no row). -/
  db : http.Request → Except Error (GoString → Except Error (GoString × GoString))

/-- What a handler does with a request. -/
inductive Outcome
  /-- The call `h.next.ServeHTTP(w, req)`: the request goes down the local stack. -/
  | next
  /-- The call `httpserver.Error(w, msg, code)`: the body `{"errors":[msg]}`. -/
  | error (msg : GoString) (code : Nat)
  /-- The call `httpserver.Error(w, err.Error(), code)`. -/
  | errorOf (err : Error) (code : Nat)
  /-- The call `h.proxy.Do(w, req, urlOut, client, filter)`: the one place a request
  leaves for a remote cluster; `insecure` tells which of the two clients is used. -/
  | proxy (urlOut : url.URL) (insecure : Bool) (filter : Option ResponseFilter)
  /-- The fan-out of `handleMultiClusterQuery` over the buckets of uuids, one
  sub-query a cluster, with the parameters of the request. -/
  | multiClusterQuery (queryClusters : List (GoString × List GoString)) (params : url.Values)
  /-- A run-time panic (index out of range, failed type assertion). -/
  | panic
  /-- The handler `http.RedirectHandler(url, code)`, for the path of `url`. -/
  | redirect (path : GoString) (code : Nat)
  /-- The handler `http.NotFoundHandler()`. -/
  | notFound
  /-- The search of the federation for a collection by its hash (federation.go:561-610):
  the local cluster is asked through `filterLocalClusterResponse` and, when it has
  no answer, every remote through `filterRemoteClusterResponse` for this hash. -/
  | searchFederation (pdh : GoString)
  /-- The call `h.localClusterRequest(w, req, filter)`, which is outside the files
  at hand. -/
  | localClusterRequest (filter : Option ResponseFilter)
  deriving DecidableEq

/-- The method `Handler.validateAPItoken` (federation.go:651-657): the error, and
`user` as `Scan` leaves it. -/
def Handler.validateAPItoken (h : Handler) (req : http.Request) (user : CurrentUser) :
    Option Error × CurrentUser :=
  match h.db req with
  | .error err => (some err, user)
  | .ok queryRow =>
    match queryRow user.Authorization.APIToken with
    | .error err => (some err, user)
    | .ok (acaUUID, userUUID) =>
      (none, { Authorization := { user.Authorization with UUID := acaUUID }, UUID := userUUID })

/-- The first part of `saltAuthToken` (federation.go:662-678): the tokens found in
the request, and the request as the search leaves it. The body is only searched,
and then replaced by the form without `api_token`, when no token was found and
the content type is `application/x-www-form-encoded`. -/
def Handler.loadCredentials (h : Handler) (req : http.Request) :
    Except Error (List GoString × http.Request) :=
  let tokens := h.LoadTokensFromHTTPRequest req
  if tokens.length = 0 ∧ req.ContentType = ascii "application/x-www-form-encoded" then
    match h.LoadTokensFromHTTPRequestBody req with
    | .error err => .error err
    | .ok (postForm, bodyTokens) =>
      -- Replace req.Body with a buffer that re-encodes the
      -- form without api_token, in case we end up
      -- forwarding the request.
      let postForm := postForm.map (fun f => f.del (ascii "api_token"))
      .ok (tokens ++ bodyTokens,
        { req with PostForm := postForm, Body := (postForm.getD []).Encode })
  else
    .ok (tokens, req)

/-- The token `saltAuthToken` sends for the first token of the request
(federation.go:682-703): the salted token; for a token of the obsolete format,
the token itself when the store has no row for it, and the salted version-2 form
of the row found otherwise. -/
def Handler.saltFirstToken (h : Handler) (req : http.Request) (token0 remote : GoString) :
    Except Error GoString :=
  match auth.SaltToken token0 remote with
  | .error auth.Error.ErrObsoleteToken =>
    -- If the token exists in our own database, salt it
    -- for the remote. Otherwise, assume it was issued by
    -- the remote, and pass it through unmodified.
    let currentUser : CurrentUser :=
      { Authorization := { UUID := [], APIToken := token0 }, UUID := [] }
    match h.validateAPItoken req currentUser with
    | (some Error.sqlErrNoRows, currentUser) =>
      -- Not ours; pass through unmodified.
      .ok currentUser.Authorization.APIToken
    | (some err, _) => .error err
    | (none, currentUser) =>
      -- Found; make V2 version and salt it.
      match auth.SaltToken currentUser.Authorization.TokenV2 remote with
      | .error err => .error (Error.salt err)
      | .ok token => .ok token
  | .error err => .error (Error.salt err)
  | .ok token => .ok token

/-- The method `Handler.saltAuthToken` (federation.go:661-715): the error it
returns, and the request as it leaves it. -/
def Handler.saltAuthToken (h : Handler) (req : http.Request) (remote : GoString) :
    Option Error × http.Request :=
  match h.loadCredentials req with
  | .error err => (some err, req)
  | .ok (tokens, req) =>
    match tokens with
    | [] => (none, req)
    | token0 :: _ =>
      match h.saltFirstToken req token0 remote with
      | .error err => (some err, req)
      | .ok token =>
        let req := { req with Authorization := ascii "Bearer " ++ token }
        -- Remove api_token=... from the the query string, in case we
        -- end up forwarding the request.
        match url.ParseQuery req.RawQuery with
        | (_, some err) => (some err, req)
        | (values, none) =>
          if values.has (ascii "api_token") then
            (none, { req with RawQuery := (values.del (ascii "api_token")).Encode })
          else
            (none, req)

/-- The method `Handler.remoteClusterRequest` (federation.go:47-74): what is done
with the request, and the request as the call leaves it. -/
def Handler.remoteClusterRequest (h : Handler) (remoteID : GoString) (req : http.Request)
    (filter : Option ResponseFilter) : Outcome × http.Request :=
  match h.Cluster.RemoteClusters.lookup remoteID with
  | none => (Outcome.error (ascii "no proxy available for cluster " ++ remoteID) 404, req)
  | some remote =>
    let scheme := if remote.Scheme = [] then ascii "https" else remote.Scheme
    match h.saltAuthToken req remoteID with
    | (some err, req) => (Outcome.errorOf err 400, req)
    | (none, req) =>
      let urlOut : url.URL :=
        { Scheme := scheme, Host := remote.Host, Path := req.Path, RawPath := req.RawPath,
          RawQuery := req.RawQuery }
      (Outcome.proxy urlOut remote.Insecure filter, req)

/-! ## The dispatch router -/

/-- A value as `json.Unmarshal` stores it in an `interface{}`. -/
inductive JSON
  | null
  | bool (b : Bool)
  /-- A `float64`, kept as the text of the number. -/
  | number (text : GoString)
  | string (s : GoString)
  | array (items : List JSON)
  | object (fields : List (GoString × JSON))

/-- The regular expressions built from `pathPattern`,
`^/arvados/v1/%s(/([0-9a-z]{5})-%s-[0-9a-z]{15})?(.*)$`, as `FindStringSubmatch`
answers: `none` for no match (a path that does not start with the prefix, or has
a newline after it, which `.` does not match), else the whole match and the three
groups. The optional group is taken whenever the path has a uuid of the resource's
type code right after the prefix. -/
def pathPattern (resource typecode path : GoString) : Option (List GoString) :=
  let pre := ascii "/arvados/v1/" ++ resource
  if pre.isPrefixOf path then
    let rest := path.drop pre.length
    if byte '\n' ∈ rest then
      none
    else
      let cluster := (rest.drop 1).take 5
      let dashes := (rest.drop 6).take (typecode.length + 2)
      let tail := (rest.drop (typecode.length + 8)).take 15
      if rest.head? = some (byte '/') ∧ cluster.length = 5 ∧ cluster.all isLowerAlnum = true ∧
          dashes = byte '-' :: typecode ++ [byte '-'] ∧
          tail.length = 15 ∧ tail.all isLowerAlnum = true then
        some [path, rest.take (typecode.length + 23), cluster, rest.drop (typecode.length + 23)]
      else
        some [path, [], [], rest]
  else
    none

/-- The variable `wfRe`. -/
def wfRe : GoString → Option (List GoString) := pathPattern (ascii "workflows") (ascii "7fd4e")

/-- The variable `containersRe`. -/
def containersRe : GoString → Option (List GoString) :=
  pathPattern (ascii "containers") (ascii "dz642")

/-- The variable `containerRequestsRe`. -/
def containerRequestsRe : GoString → Option (List GoString) :=
  pathPattern (ascii "container_requests") (ascii "xvhdp")

/-- The variable `collectionRe`. -/
def collectionRe : GoString → Option (List GoString) :=
  pathPattern (ascii "collections") (ascii "4zz18")

/-- The struct `genericFederatedRequestHandler`; `next` is the outcome `Outcome.next`.
`Unmarshal` is `json.Unmarshal` into a `[][]interface{}`, applied to a `filters`
parameter: the list of lists it stores, or its error. -/
structure genericFederatedRequestHandler where
  handler : Handler
  matcher : GoString → Option (List GoString)
  Unmarshal : GoString → Except Error (List (List JSON))

/-- The function `loadParamsFromForm` (federation.go:81-95): the body is at hand,
so reading it does not fail and leaves it in place; its parameters are appended
to those of `params`. -/
def loadParamsFromForm (req : http.Request) (params : url.Values) : Option Error × url.Values :=
  match url.ParseQuery req.Body with
  | (_, some err) => (some err, params)
  | (v2, none) => (none, v2.foldl (fun params kv => params.append kv.1 kv.2) params)

/-- How `handleMultiClusterQuery` ends: it wrote its answer and returned `true`,
or it returned `false` leaving `*clusterId` as given here. -/
inductive MultiClusterResult
  | handled (outcome : Outcome)
  | notHandled (clusterId : GoString)
  deriving DecidableEq

/-- The statements `*clusterId = u[0:5]` and
`queryClusters[u[0:5]] = append(queryClusters[u[0:5]], u)`; slicing a string
shorter than five bytes panics. -/
def addQueryUUID (st : GoString × url.Values) (u : GoString) :
    Except MultiClusterResult (GoString × url.Values) :=
  if u.length < 5 then .error (MultiClusterResult.handled Outcome.panic)
  else .ok (u.take 5, st.2.append (u.take 5) [u])

/-- The body of `for _, i := range rhs` (federation.go:181-185): the type assertion
`i.(string)` panics on anything but a string. -/
def addQueryItem (st : GoString × url.Values) (i : JSON) :
    Except MultiClusterResult (GoString × url.Values) :=
  match i with
  | JSON.string u => addQueryUUID st u
  | _ => .error (MultiClusterResult.handled Outcome.panic)

/-- The body of `for _, f1 := range filters` (federation.go:167-199) on the pair of
`*clusterId` and `queryClusters`; leaving the function early is an error value. -/
def splitFilter (st : GoString × url.Values) (f1 : List JSON) :
    Except MultiClusterResult (GoString × url.Values) :=
  match f1 with
  | [JSON.string lhs, op, rhs] =>
    if lhs = ascii "uuid" then
      match op with
      | JSON.string op =>
        if op = ascii "in" then
          match rhs with
          | JSON.array rhs => rhs.foldlM addQueryItem st
          | _ => .ok st
        else if op = ascii "=" then
          match rhs with
          | JSON.string u => addQueryUUID st u
          | _ => .ok st
        else .error (MultiClusterResult.notHandled st.1)
      | _ => .error (MultiClusterResult.notHandled st.1)
    else .error (MultiClusterResult.notHandled st.1)
  | _ => .error (MultiClusterResult.notHandled st.1)

/-- The method `genericFederatedRequestHandler.handleMultiClusterQuery`
(federation.go:155-285) up to the point where the sub-queries leave: how it ends,
and the request as it leaves it. -/
def genericFederatedRequestHandler.handleMultiClusterQuery (h : genericFederatedRequestHandler)
    (req : http.Request) (params : url.Values) (clusterId : GoString) :
    MultiClusterResult × http.Request :=
  match h.Unmarshal ((params.get (ascii "filters")).getD 0 []) with
  | .error err => (MultiClusterResult.handled (Outcome.errorOf err 400), req)
  | .ok filters =>
    -- Split the list of uuids by prefix
    match filters.foldlM splitFilter (clusterId, []) with
    | .error ending => (ending, req)
    | .ok (clusterId, queryClusters) =>
      if queryClusters.length ≤ 1 then
        -- Did not find a list query to search for uuids
        -- across multiple clusters.
        (MultiClusterResult.notHandled clusterId, req)
      else if ¬ ((params.get (ascii "count")).length = 1 ∧
          ((params.get (ascii "count")).getD 0 [] = ascii "none" ∨
            (params.get (ascii "count")).getD 0 [] = ascii "\"none\"")) then
        (MultiClusterResult.handled
          (Outcome.error (ascii "Federated multi-object query must have 'count=none'") 400), req)
      else if (params.get (ascii "limit")).length ≠ 0 ∨ (params.get (ascii "offset")).length ≠ 0 ∨
          (params.get (ascii "order")).length ≠ 0 then
        (MultiClusterResult.handled
          (Outcome.error
            (ascii "Federated multi-object may not provide 'limit', 'offset' or 'order'.") 400),
          req)
      else
        (MultiClusterResult.handled (Outcome.multiClusterQuery queryClusters params),
          { req with ContentType := ascii "application/x-www-form-urlencoded" })

/-- The method `genericFederatedRequestHandler.ServeHTTP` (federation.go:287-336):
what is done with the request, and the request as the call leaves it. -/
def genericFederatedRequestHandler.ServeHTTP (h : genericFederatedRequestHandler)
    (req : http.Request) : Outcome × http.Request :=
  let m := (h.matcher req.Path).getD []
  let clusterId : GoString := if m.length > 0 ∧ m.getD 2 [] ≠ [] then m.getD 2 [] else []
  -- First, parse the query portion of the URL.
  match url.ParseQuery req.RawQuery with
  | (_, some err) => (Outcome.errorOf err 400, req)
  | (params, none) =>
    -- Next, if appropriate, merge in parameters from the form POST body.
    match (if req.Method = ascii "POST" ∧
              req.ContentType = ascii "application/x-www-form-urlencoded" then
            loadParamsFromForm req params
          else (none, params)) with
    | (some err, _) => (Outcome.errorOf err 400, req)
    | (none, params) =>
      -- Check if the parameters have an explicit cluster_id
      let clusterId :=
        if (params.get (ascii "cluster_id")).length = 1 then
          (params.get (ascii "cluster_id")).getD 0 []
        else clusterId
      -- Handle the POST-as-GET special case
      let effectiveMethod :=
        if req.Method = ascii "POST" ∧ (params.get (ascii "_method")).length = 1 then
          (params.get (ascii "_method")).getD 0 []
        else req.Method
      match (if effectiveMethod = ascii "GET" ∧ clusterId = [] ∧
                (params.get (ascii "filters")).length = 1 then
              h.handleMultiClusterQuery req params clusterId
            else (MultiClusterResult.notHandled clusterId, req)) with
      | (MultiClusterResult.handled outcome, req) => (outcome, req)
      | (MultiClusterResult.notHandled clusterId, req) =>
        if clusterId = [] ∨ clusterId = h.handler.Cluster.ClusterID then
          (Outcome.next, req)
        else
          h.handler.remoteClusterRequest clusterId req none

/-! ### The routing decision, in the words of its description -/

/-- The parameters of a request: those of the query string, and after them those
of the body when the request is a POST with a form-urlencoded body; an error
when either does not parse. -/
def requestParams (req : http.Request) : Except Error url.Values :=
  match url.ParseQuery req.RawQuery with
  | (_, some err) => .error err
  | (query, none) =>
    if req.Method = ascii "POST" ∧
        req.ContentType = ascii "application/x-www-form-urlencoded" then
      match url.ParseQuery req.Body with
      | (_, some err) => .error err
      | (form, none) => .ok (form.foldl (fun params kv => params.append kv.1 kv.2) query)
    else .ok query

/-- The cluster ID the router chooses: the `cluster_id` parameter when there is
exactly one, otherwise the five-byte cluster prefix of the uuid matched in the
path, otherwise empty. -/
def chosenClusterID (matcher : GoString → Option (List GoString)) (req : http.Request)
    (params : url.Values) : GoString :=
  match params.get (ascii "cluster_id") with
  | [clusterID] => clusterID
  | _ =>
    match matcher req.Path with
    | some m => m.getD 2 []
    | none => []

/-- The effective method: that of the `_method` parameter on a POST that has
exactly one, the method of the request otherwise. -/
def effectiveMethod (req : http.Request) (params : url.Values) : GoString :=
  match params.get (ascii "_method") with
  | [method] => if req.Method = ascii "POST" then method else req.Method
  | _ => req.Method

/-- The multi-cluster query engine is attempted: the effective method is GET, no
cluster ID is chosen, and there is exactly one `filters` parameter. -/
def multiClusterAttempted (matcher : GoString → Option (List GoString)) (req : http.Request)
    (params : url.Values) : Prop :=
  effectiveMethod req params = ascii "GET" ∧ chosenClusterID matcher req params = [] ∧
    (params.get (ascii "filters")).length = 1

/-! ### A handler and requests, for the examples -/

/-- A token loader for the examples: the token of an `Authorization: Bearer` header,
then the `api_token` parameters of the query string. -/
def exampleLoadTokens (req : http.Request) : List GoString :=
  (if strings.HasPrefix req.Authorization (ascii "Bearer ") = true then
      [req.Authorization.drop 7]
    else []) ++
    (url.ParseQuery req.RawQuery).1.get (ascii "api_token")

/-- A handler set up as the test suite sets up `zhome`, with the remotes `zzzzz` and
`zmock`; its store holds one legacy token. -/
def exampleHandler : Handler :=
  { Cluster :=
      { ClusterID := ascii "zhome",
        RemoteClusters :=
          [(ascii "zzzzz",
              { Host := ascii "zzzzz.example", Proxy := true, Scheme := ascii "http",
                Insecure := false }),
            (ascii "zmock",
              { Host := ascii "zmock.example", Proxy := true, Scheme := ascii "http",
                Insecure := false })] },
    LoadTokensFromHTTPRequest := exampleLoadTokens,
    LoadTokensFromHTTPRequestBody := fun _ => .ok (none, []),
    db := fun _ => .ok (fun token =>
      if token = ascii "3kg6k6lzmp9kj5cpkcoxie963cmvjahbt2fod9zru30k1jqdmi" then
        .ok (ascii "zhome-gj3su-077z32aux8dg2s1", ascii "zhome-tpzed-xurymjxw79nv3jz")
      else .error Error.sqlErrNoRows) }

/-- The workflows handler over `exampleHandler`; its `Unmarshal` knows no filters. -/
def exampleWorkflows : genericFederatedRequestHandler :=
  { handler := exampleHandler, matcher := wfRe,
    Unmarshal := fun _ => .error (Error.jsonDecode (ascii "unexpected end of JSON input")) }

/-- A GET request for a path and a query string, with an `Authorization` header. -/
def getRequest (path query authorization : GoString) : http.Request :=
  { Method := ascii "GET", Path := path, RawPath := [], RawQuery := query,
    Authorization := authorization, ContentType := [], Via := [], Body := [], PostForm := none }

/-! ### The multi-cluster query, in the words of its description -/

/-- A predicate the engine takes: a three-element list whose first element is the
string `uuid` and whose operator is the string `=` or `in`. -/
def isUUIDPredicate : List JSON → Bool
  | [JSON.string lhs, JSON.string op, _] =>
    decide (lhs = ascii "uuid") && (decide (op = ascii "in") || decide (op = ascii "="))
  | _ => false

/-- What a predicate asks for: the elements of the list of an `in`, the value of
an `=`. A right-hand side of another type asks for nothing. -/
def predicateItems : List JSON → List JSON
  | [_, JSON.string op, JSON.array items] => if op = ascii "in" then items else []
  | [_, JSON.string op, JSON.string u] => if op = ascii "=" then [JSON.string u] else []
  | _ => []

/-- An item the engine can put in a bucket: a string of at least five bytes. -/
def JSON.uuid? : JSON → Option GoString
  | JSON.string u => if 5 ≤ u.length then some u else none
  | _ => none

/-- The requested uuids of a list of predicates, in request order. -/
def requestedUUIDs (filters : List (List JSON)) : List GoString :=
  filters.flatMap (fun f1 => (predicateItems f1).filterMap JSON.uuid?)

/-- The uuids put in buckets by their first five bytes, one after the other;
the first component is the prefix of the last one. -/
def bucketUUIDs (st : GoString × url.Values) (uuids : List GoString) : GoString × url.Values :=
  uuids.foldl (fun st u => (u.take 5, st.2.append (u.take 5) [u])) st

/-- A `json.Unmarshal` for the examples: it knows six `filters` texts. -/
def exampleUnmarshal (text : GoString) : Except Error (List (List JSON)) :=
  if text = ascii "[[\"uuid\",\"in\",[\"zzzzz-7fd4e-aaaaaaaaaaaaaaa\",\"zmock-7fd4e-bbbbbbbbbbbbbbb\"]]]" then
    .ok [[JSON.string (ascii "uuid"), JSON.string (ascii "in"),
      JSON.array [JSON.string (ascii "zzzzz-7fd4e-aaaaaaaaaaaaaaa"),
        JSON.string (ascii "zmock-7fd4e-bbbbbbbbbbbbbbb")]]]
  else if text = ascii "[[\"uuid\",\"in\",[\"abc\"]]]" then
    .ok [[JSON.string (ascii "uuid"), JSON.string (ascii "in"),
      JSON.array [JSON.string (ascii "abc")]]]
  else if text = ascii "[[\"uuid\",\"in\",[1]]]" then
    .ok [[JSON.string (ascii "uuid"), JSON.string (ascii "in"),
      JSON.array [JSON.number (ascii "1")]]]
  else if text = ascii "[[\"uuid\",\"=\",\"zzzzz-7fd4e-aaaaaaaaaaaaaaa\"]]" then
    .ok [[JSON.string (ascii "uuid"), JSON.string (ascii "="),
      JSON.string (ascii "zzzzz-7fd4e-aaaaaaaaaaaaaaa")]]
  else if text = ascii "[[\"uuid\",\"=\",\"zz404-7fd4e-bbbbbbbbbbbbbbb\"]]" then
    .ok [[JSON.string (ascii "uuid"), JSON.string (ascii "="),
      JSON.string (ascii "zz404-7fd4e-bbbbbbbbbbbbbbb")]]
  else if text = ascii "[[\"uuid\",\"in\",[\"zzzzz-7fd4e-aaaaaaaaaaaaaaa\",\"zz404-7fd4e-bbbbbbbbbbbbbbb\"]]]" then
    .ok [[JSON.string (ascii "uuid"), JSON.string (ascii "in"),
      JSON.array [JSON.string (ascii "zzzzz-7fd4e-aaaaaaaaaaaaaaa"),
        JSON.string (ascii "zz404-7fd4e-bbbbbbbbbbbbbbb")]]]
  else .error (Error.jsonDecode (ascii "invalid character"))

/-- The workflows handler over `exampleHandler` with `exampleUnmarshal`. -/
def exampleQueries : genericFederatedRequestHandler :=
  { handler := exampleHandler, matcher := wfRe, Unmarshal := exampleUnmarshal }

/-! ## The collection handler and the middleware -/

/-- Go `strings.Index(s, substr)` from position `i` on: the index of the first
instance of `substr`, or -1. -/
def strings.indexFrom (substr : GoString) : GoString → Nat → Int
  | [], i => if substr = [] then (i : Int) else -1
  | c :: s, i => if substr.isPrefixOf (c :: s) then (i : Int) else strings.indexFrom substr s (i + 1)

/-- Go `strings.Index(s, substr)`. -/
def strings.Index (s substr : GoString) : Int := strings.indexFrom substr s 0

/-- Go `path.Clean(p)` for a rooted path: empty and `.` elements go, a `..`
element takes the element before it with it, and none at the root. -/
def path.Clean (p : GoString) : GoString :=
  byte '/' :: List.intercalate [byte '/']
    ((strings.Split p (byte '/')).foldl
      (fun out e =>
        if e = [] ∨ e = ascii "." then out
        else if e = ascii ".." then out.dropLast
        else out ++ [e]) [])

namespace http

/-- The function `cleanPath` of net/http. -/
def cleanPath (p : GoString) : GoString :=
  if p = [] then ascii "/"
  else
    let p := if p.head? ≠ some (byte '/') then byte '/' :: p else p
    let np := path.Clean p
    -- path.Clean removes trailing slash except for root;
    -- put the trailing slash back if necessary.
    if p.getLast? = some (byte '/') ∧ np ≠ ascii "/" then np ++ ascii "/" else np

/-- The function `pathMatch` of net/http. -/
def pathMatch (pattern path : GoString) : Bool :=
  if pattern.length = 0 then false
  else if pattern.getLast? ≠ some (byte '/') then decide (pattern = path)
  else decide (pattern.length ≤ path.length) && decide (path.take pattern.length = pattern)

/-- The method `ServeMux.match` of net/http over the registered patterns: an
exact match first, else the longest pattern that matches. -/
def ServeMux.matchPath {α : Type} (m : List (GoString × α)) (path : GoString) : Option α :=
  match m.lookup path with
  | some h => some h
  | none =>
    (m.foldl
      (fun (best : Nat × Option α) kv =>
        if pathMatch kv.1 path = false then best
        else if best.2.isNone ∨ kv.1.length > best.1 then (kv.1.length, some kv.2)
        else best) (0, none)).2

/-- The method `ServeMux.shouldRedirect` of net/http, for patterns without a host:
the path is not registered and the path with a `/` added is. -/
def ServeMux.shouldRedirect {α : Type} (m : List (GoString × α)) (path : GoString) : Bool :=
  if (m.lookup path).isSome then false
  else if path.length = 0 then false
  else if (m.lookup (path ++ ascii "/")).isSome then decide (path.getLast? ≠ some (byte '/'))
  else false

/-- What `ServeMux.Handler` finds for a request. -/
inductive ServeMux.Found (α : Type)
  | handler (h : α)
  | redirect (path : GoString)
  | notFound

/-- The method `ServeMux.Handler` of net/http, for patterns without a host: the
path of a request other than CONNECT is cleaned first, and a path that was not
clean is answered with a redirect to the clean one. -/
def ServeMux.Handler {α : Type} (m : List (GoString × α)) (method path : GoString) :
    ServeMux.Found α :=
  if method = ascii "CONNECT" then
    if ServeMux.shouldRedirect m path then .redirect (path ++ ascii "/")
    else
      match ServeMux.matchPath m path with
      | some h => .handler h
      | none => .notFound
  else
    let cleaned := cleanPath path
    if ServeMux.shouldRedirect m cleaned then .redirect (cleaned ++ ascii "/")
    else if cleaned ≠ path then .redirect cleaned
    else
      match ServeMux.matchPath m path with
      | some h => .handler h
      | none => .notFound

end http

/-- A part of a path between two `+` of a repeated hash and size: the decimal
digits of a size, then the 32 hexadecimal digits of the next hash. -/
def isSizeThenHash (p : GoString) : Bool :=
  decide (33 ≤ p.length) && (p.take (p.length - 32)).all isDigit &&
    (p.drop (p.length - 32)).all isXDigit

/-- The variable `collectionByPDHRe`,
`^/arvados/v1/collections/([0-9a-fA-F]{32}\+[0-9]+)+$`, as `FindStringSubmatch`
answers: `none` for no match, else the whole match and the group. The group is
repeated, and its value is that of the last repetition. The `+` of the text are
those of the repetitions, so the text after the prefix splits at them into the
first hash, a size followed by the next hash for every further repetition, and
the last size. -/
def collectionByPDHRe (path : GoString) : Option (List GoString) :=
  let pre := ascii "/arvados/v1/collections/"
  if pre.isPrefixOf path then
    match strings.Split (path.drop pre.length) (byte '+') with
    | first :: second :: rest =>
      let middle := (second :: rest).dropLast
      let size := (second :: rest).getLastD []
      let hash := ((first :: middle).getLastD [])
      if first.length = 32 ∧ first.all isXDigit = true ∧ middle.all isSizeThenHash = true ∧
          size ≠ [] ∧ size.all isDigit = true then
        some [path, hash.drop (hash.length - 32) ++ byte '+' :: size]
      else none
    | _ => none
  else none

/-- The method `collectionFederatedRequestHandler.ServeHTTP` (federation.go:531-611)
up to the start of the search: what is done with the request, and the request as
the call leaves it. -/
def collectionFederatedRequestHandler.ServeHTTP (h : Handler) (req : http.Request) :
    Outcome × http.Request :=
  if req.Method ≠ ascii "GET" then
    -- Only handle GET requests right now
    (Outcome.next, req)
  else
    let m := (collectionByPDHRe req.Path).getD []
    if m.length ≠ 2 then
      -- Not a collection PDH GET request
      let m := (collectionRe req.Path).getD []
      let clusterId : GoString := if m.length > 0 then m.getD 2 [] else []
      if clusterId ≠ [] ∧ clusterId ≠ h.Cluster.ClusterID then
        -- request for remote collection by uuid
        h.remoteClusterRequest clusterId req
          (some (ResponseFilter.rewriteSignatures { clusterID := clusterId, expectHash := [] }))
      else
        -- not a collection UUID request, or it is a request
        -- for a local UUID, either way, continue down the
        -- handler stack.
        (Outcome.next, req)
    else
      -- Request for collection by PDH.  Search the federation.
      (Outcome.searchFederation (m.getD 1 []), req)

/-- A handler registered with the mux of `setupProxyRemoteCluster`. -/
inductive muxHandler
  | next
  | generic (matcher : GoString → Option (List GoString))
  | collection

/-- The patterns `setupProxyRemoteCluster` registers (federation.go:614-623). -/
def muxPatterns : List (GoString × muxHandler) :=
  [(ascii "/arvados/v1/workflows", muxHandler.generic wfRe),
    (ascii "/arvados/v1/workflows/", muxHandler.generic wfRe),
    (ascii "/arvados/v1/containers", muxHandler.generic containersRe),
    (ascii "/arvados/v1/containers/", muxHandler.generic containersRe),
    (ascii "/arvados/v1/container_requests", muxHandler.generic containerRequestsRe),
    (ascii "/arvados/v1/container_requests/", muxHandler.generic containerRequestsRe),
    (ascii "/arvados/v1/collections", muxHandler.next),
    (ascii "/arvados/v1/collections/", muxHandler.collection),
    (ascii "/", muxHandler.next)]

/-- The call `mux.ServeHTTP(w, req)` on the mux of `setupProxyRemoteCluster`;
`Unmarshal` is the `json.Unmarshal` of the generic handlers. -/
def Handler.muxServeHTTP (h : Handler) (Unmarshal : GoString → Except Error (List (List JSON)))
    (req : http.Request) : Outcome × http.Request :=
  match http.ServeMux.Handler muxPatterns req.Method req.Path with
  | .redirect p => (Outcome.redirect p 301, req)
  | .notFound => (Outcome.notFound, req)
  | .handler muxHandler.next => (Outcome.next, req)
  | .handler (muxHandler.generic matcher) =>
    genericFederatedRequestHandler.ServeHTTP
      { handler := h, matcher := matcher, Unmarshal := Unmarshal } req
  | .handler muxHandler.collection => collectionFederatedRequestHandler.ServeHTTP h req

/-- The handler `setupProxyRemoteCluster` returns (federation.go:625-641), over the
`mux.ServeHTTP` of the mux it captured. -/
def Handler.setupProxyRemoteCluster (_h : Handler)
    (mux : http.Request → Outcome × http.Request) (req : http.Request) :
    Outcome × http.Request :=
  let parts := strings.Split req.Authorization (byte '/')
  let alreadySalted :=
    parts.length = 3 ∧ parts.getD 0 [] = ascii "Bearer v2" ∧ (parts.getD 2 []).length = 40
  if alreadySalted ∨ strings.Index req.Via (ascii "arvados-controller") ≠ -1 then
    -- The token is already salted, or this is a
    -- request from another instance of
    -- arvados-controller.  In either case, we
    -- don't want to proxy this query, so just
    -- continue down the instance handler stack.
    (Outcome.next, req)
  else
    mux req

/-- The controller's federation stack: the middleware over its own mux. -/
def Handler.federation (h : Handler) (Unmarshal : GoString → Except Error (List (List JSON)))
    (req : http.Request) : Outcome × http.Request :=
  h.setupProxyRemoteCluster (h.muxServeHTTP Unmarshal) req

/-! ## The response collector of a multi-cluster query -/

/-- The body of a list response: what `json.NewDecoder(resp.Body).Decode(&loadInto)`
leaves in the `map[string]interface{}`, or its error. -/
abbrev ObjectBody := Except Error (List (GoString × JSON))

/-- An element of the collector's `errors`. -/
inductive collectedError
  /-- The `requestError` handed to the filter. -/
  | request (requestError : Error)
  /-- The error of `Decode`. -/
  | decode (err : Error)
  /-- The error `fmt.Errorf("error %v", loadInto["errors"])`. -/
  | status (errors : Option JSON)

/-- The struct `multiClusterQueryResponseCollector`, without its mutex. -/
structure multiClusterQueryResponseCollector where
  responses : List JSON
  errors : List collectedError
  kind : GoString

/-- The method `multiClusterQueryResponseCollector.collectResponse`
(federation.go:126-153): the collector as the call leaves it and the pair it
returns; `none` when the call panics, on a nil response and on the unchecked type
assertions `loadInto["items"].([]interface{})` and `loadInto["kind"].(string)`. -/
def multiClusterQueryResponseCollector.collectResponse (c : multiClusterQueryResponseCollector)
    (resp : Option (http.Response ObjectBody)) (requestError : Option Error) :
    Option (multiClusterQueryResponseCollector × FilterResult ObjectBody) :=
  match requestError with
  | some requestError =>
    some ({ c with errors := c.errors ++ [collectedError.request requestError] }, (none, none))
  | none =>
    match resp with
    | none => none
    | some resp =>
      match resp.Body with
      | .ok loadInto =>
        if resp.StatusCode ≠ 200 then
          some ({ c with errors := c.errors ++ [collectedError.status (loadInto.lookup (ascii "errors"))] },
            (none, none))
        else
          match loadInto.lookup (ascii "items") with
          | some (JSON.array items) =>
            match loadInto.lookup (ascii "kind") with
            | some (JSON.string kind) =>
              some ({ c with responses := c.responses ++ items, kind := kind }, (none, none))
            | _ => none
          | _ => none
      | .error err =>
        some ({ c with errors := c.errors ++ [collectedError.decode err] }, (none, none))

/-- What `handleMultiClusterQuery` writes after `wg.Wait()`. -/
inductive multiClusterReply
  /-- The call `httpserver.Errors(w, strerr, http.StatusBadGateway)`, one string an error. -/
  | errors (strerr : List collectedError) (code : Nat)
  /-- The status 200 and the encoded map of `items` and `kind`. -/
  | itemList (code : Nat) (items : List JSON) (kind : GoString)

/-- The end of `handleMultiClusterQuery` (federation.go:268-282). -/
def multiClusterQueryResponseCollector.reply (c : multiClusterQueryResponseCollector) :
    multiClusterReply :=
  if c.errors.length > 0 then
    multiClusterReply.errors c.errors 502
  else
    multiClusterReply.itemList 200 c.responses c.kind

/-- The collector after the calls of `collectResponse` for a list of responses,
in the order the mutex lets them in; `none` when one of them panics. -/
def collectResponses (responses : List (Option (http.Response ObjectBody) × Option Error)) :
    Option multiClusterQueryResponseCollector :=
  responses.foldlM
    (fun c r => (c.collectResponse r.1 r.2).map Prod.fst)
    { responses := [], errors := [], kind := [] }

/-- The `items` of a sub-response, in the words of the description: the list under
`items` of a decoded body, nothing otherwise. -/
def responseItems (resp : http.Response ObjectBody) : List JSON :=
  match resp.Body with
  | .ok fields =>
    match fields.lookup (ascii "items") with
    | some (JSON.array items) => items
    | _ => []
  | .error _ => []

/-- A sub-response the collector takes items from: status 200 and a body that
decodes to an object with a list under `items` and a string under `kind`. -/
def isItemList (resp : http.Response ObjectBody) : Prop :=
  resp.StatusCode = 200 ∧
    ∃ fields items kind, resp.Body = .ok fields ∧
      fields.lookup (ascii "items") = some (JSON.array items) ∧
      fields.lookup (ascii "kind") = some (JSON.string kind)

/-- The string under `uuid` of an item, empty when there is none. -/
def JSON.uuidField : JSON → GoString
  | JSON.object fields =>
    match fields.lookup (ascii "uuid") with
    | some (JSON.string u) => u
    | _ => []
  | _ => []

/-! ## The search of the federation for a collection -/

/-- An element of the `errors` the workers of a search share. -/
inductive searchError
  /-- The string "Request error contacting %q: %v". -/
  | request (remoteID : GoString) (requestError : Error)
  /-- The string "Response from %q: %v". -/
  | response (remoteID : GoString) (status : GoString)
  /-- The string "Error parsing response from %q: %v". -/
  | parsing (remoteID : GoString) (err : Error)
  deriving DecidableEq

/-- The variables `sentResponse`, `errors` and `errorCode` of
`collectionFederatedRequestHandler.ServeHTTP`, which every worker reaches through
the pointers in its `searchRemoteClusterForPDH`. -/
structure searchShared where
  sentResponse : Bool
  errors : List searchError
  statusCode : Nat
  deriving DecidableEq

/-- The fields of `searchRemoteClusterForPDH` that are a worker's own. -/
structure searchRemoteClusterForPDH where
  pdh : GoString
  remoteID : GoString
  deriving DecidableEq

/-- The first critical section of `filterRemoteClusterResponse`
(federation.go:474-499): the shared variables as it leaves them, and the pair
the call returns from within it, or `none` when the call goes on to the rewriter. -/
def searchRemoteClusterForPDH.beforeRewrite (s : searchRemoteClusterForPDH) (sh : searchShared)
    (resp : Option (http.Response CollectionBody)) (requestError : Option Error) :
    searchShared × Option (FilterResult CollectionBody) :=
  if sh.sentResponse = true then
    -- Another request already returned a response
    (sh, some (none, none))
  else
    match requestError with
    | some requestError =>
      -- Record the error and suppress response
      ({ sh with errors := sh.errors ++ [searchError.request s.remoteID requestError] },
        some (none, none))
    | none =>
      match resp with
      | none => (sh, some (none, some Error.nilDereference))
      | some resp =>
        if resp.StatusCode ≠ 200 then
          -- Suppress returning unsuccessful result.  Maybe
          -- another request will find it.
          ({ sh with
              errors := sh.errors ++ [searchError.response s.remoteID resp.Status],
              statusCode := if resp.StatusCode ≠ 404 then 502 else sh.statusCode },
            some (none, none))
        else
          (sh, none)

/-- The second critical section of `filterRemoteClusterResponse`
(federation.go:509-528), given what the rewriter returned. -/
def searchRemoteClusterForPDH.afterRewrite (s : searchRemoteClusterForPDH) (sh : searchShared)
    (rewritten : FilterResult CollectionBody) : searchShared × FilterResult CollectionBody :=
  if sh.sentResponse = true then
    -- Another request already returned a response
    (sh, (none, none))
  else
    match rewritten.2 with
    | some err =>
      -- Suppress returning unsuccessful result.  Maybe
      -- another request will be successful.
      ({ sh with errors := sh.errors ++ [searchError.parsing s.remoteID err] }, (none, none))
    | none =>
      -- We have a successful response.  Suppress/cancel all the
      -- other requests/responses.
      ({ sh with sentResponse := true }, (rewritten.1, none))

/-- Where a call of `filterRemoteClusterResponse` stands. -/
inductive callState
  /-- The call has not taken the mutex yet. -/
  | called
  /-- The call has left the first critical section for the rewriter. -/
  | rewriting
  /-- The call has returned. -/
  | returned (result : FilterResult CollectionBody)
  deriving DecidableEq

/-- A call of `filterRemoteClusterResponse`: the worker's search, the arguments of
the call, and where it stands. -/
structure searchWorker where
  search : searchRemoteClusterForPDH
  resp : Option (http.Response CollectionBody)
  requestError : Option Error
  state : callState
  deriving DecidableEq

/-- What the rewriter returns to a call (federation.go:507). -/
def searchWorker.rewritten (re : GoString → Option keepclient.SignedLocatorMatch)
    (w : searchWorker) : FilterResult CollectionBody :=
  rewriteSignatures re { clusterID := w.search.remoteID, expectHash := w.search.pdh } w.resp none

/-- The next critical section of a call, run while it holds the mutex. -/
def searchWorker.step (re : GoString → Option keepclient.SignedLocatorMatch)
    (sh : searchShared) (w : searchWorker) : searchShared × searchWorker :=
  match w.state with
  | callState.called =>
    match w.search.beforeRewrite sh w.resp w.requestError with
    | (sh, some result) => (sh, { w with state := callState.returned result })
    | (sh, none) => (sh, { w with state := callState.rewriting })
  | callState.rewriting =>
    ((w.search.afterRewrite sh (w.rewritten re)).1,
      { w with state := callState.returned (w.search.afterRewrite sh (w.rewritten re)).2 })
  | callState.returned _ => (sh, w)

/-- A search under way: the shared variables and the calls of the filter. -/
structure searchRun where
  shared : searchShared
  workers : List searchWorker
  deriving DecidableEq

/-- The start of a search (federation.go:577-581) with the calls the proxy is
going to make, one a worker. -/
def searchRun.start
    (calls : List (searchRemoteClusterForPDH × Option (http.Response CollectionBody) × Option Error)) :
    searchRun :=
  { shared := { sentResponse := false, errors := [], statusCode := 404 },
    workers := calls.map (fun c =>
      { search := c.1, resp := c.2.1, requestError := c.2.2, state := callState.called }) }

/-- The mutex goes to worker `i`, which runs its next critical section. -/
def searchRun.step (re : GoString → Option keepclient.SignedLocatorMatch) (run : searchRun)
    (i : Nat) : searchRun :=
  match run.workers.get? i with
  | none => run
  | some w =>
    { shared := (w.step re run.shared).1, workers := run.workers.set i (w.step re run.shared).2 }

/-- An interleaving of the critical sections: the workers in the order in which
they take the mutex. -/
def searchRun.exec (re : GoString → Option keepclient.SignedLocatorMatch) (run : searchRun)
    (schedule : List Nat) : searchRun :=
  schedule.foldl (searchRun.step re) run

/-- The end of `collectionFederatedRequestHandler.ServeHTTP` after `wg.Wait()`
(federation.go:605-610): nothing more when a response was sent, else the call
`httpserver.Errors(w, errors, errorCode)`. -/
def searchRun.finish (run : searchRun) : Option (List searchError × Nat) :=
  if run.shared.sentResponse = true then none
  else some (run.shared.errors, run.shared.statusCode)

/-- A call has returned a response. -/
def searchWorker.returnedResponse (w : searchWorker) : Prop :=
  ∃ resp err, w.state = callState.returned (some resp, err)

/-- A call was handed a response with a status other than 200 and 404. -/
def searchWorker.otherStatus (w : searchWorker) : Bool :=
  w.requestError.isNone &&
    w.resp.any (fun resp => decide (resp.StatusCode ≠ 200) && decide (resp.StatusCode ≠ 404))

/-- What holds of a search at every point of every interleaving: a call that
returned a response did so with the latch set, from a rewriter that succeeded;
no two calls returned a response; and while the latch is not set the status code
is 502 when a call past its first critical section was handed a status other
than 200 and 404, and 404 when none was. -/
def searchRun.Invariant (re : GoString → Option keepclient.SignedLocatorMatch)
    (run : searchRun) : Prop :=
  (∀ (i : Nat) (w : searchWorker) r e, run.workers[i]? = some w →
      w.state = callState.returned (some r, e) →
      run.shared.sentResponse = true ∧ w.rewritten re = (some r, none) ∧ e = none) ∧
  (∀ (i j : Nat) (wi wj : searchWorker), run.workers[i]? = some wi → run.workers[j]? = some wj →
      wi.returnedResponse → wj.returnedResponse → i = j) ∧
  (run.shared.sentResponse = false →
    (run.shared.statusCode = 502 ∧
        ∃ (i : Nat) (w : searchWorker), run.workers[i]? = some w ∧ w.state ≠ callState.called ∧
          w.otherStatus = true) ∨
      (run.shared.statusCode = 404 ∧
        ∀ (i : Nat) (w : searchWorker), run.workers[i]? = some w → w.state ≠ callState.called →
          w.otherStatus = false))

/-! ### Sub-responses and calls of the filter, for the examples -/

/-- The predicate `["uuid", "in", [..]]` over a workflow of `zzzzz` and one of `zmock`. -/
def exampleFilters : List (List JSON) :=
  [[JSON.string (ascii "uuid"), JSON.string (ascii "in"),
    JSON.array [JSON.string (ascii "zzzzz-7fd4e-aaaaaaaaaaaaaaa"),
      JSON.string (ascii "zmock-7fd4e-bbbbbbbbbbbbbbb")]]]

/-- A list response with one workflow. -/
def workflowList (uuid : GoString) : http.Response ObjectBody :=
  { StatusCode := 200, Status := ascii "200 OK",
    Body := .ok
      [(ascii "kind", JSON.string (ascii "arvados#workflowList")),
        (ascii "items", JSON.array [JSON.object [(ascii "uuid", JSON.string uuid)]])] }

/-- The sub-responses to `exampleFilters`: `zmock` is collected first. -/
def exampleServed : List (GoString × http.Response ObjectBody) :=
  [(ascii "zmock", workflowList (ascii "zmock-7fd4e-bbbbbbbbbbbbbbb")),
    (ascii "zzzzz", workflowList (ascii "zzzzz-7fd4e-aaaaaaaaaaaaaaa"))]

/-- Three calls of the filter in a search for `signedCollectionResponse`: `zzzzz`
has the collection, `zmock` answers 404, and `zfail` is not reached. -/
def exampleCalls :
    List (searchRemoteClusterForPDH × Option (http.Response CollectionBody) × Option Error) :=
  [({ pdh := ascii "5a7598c227e3703616c071e553ade2c0+43", remoteID := ascii "zzzzz" },
      some signedCollectionResponse, none),
    ({ pdh := ascii "5a7598c227e3703616c071e553ade2c0+43", remoteID := ascii "zmock" },
      some { StatusCode := 404, Status := ascii "404 Not Found",
             Body := .error (Error.jsonDecode (ascii "unexpected end of JSON input")) },
      none),
    ({ pdh := ascii "5a7598c227e3703616c071e553ade2c0+43", remoteID := ascii "zfail" },
      none, some (Error.other (ascii "dial tcp: connection refused")))]

/-- A call of the filter is handed a response with a status other than 200 and
404, and no transport error. -/
def isOtherStatus
    (call : searchRemoteClusterForPDH × Option (http.Response CollectionBody) × Option Error) :
    Bool :=
  call.2.2.isNone &&
    call.2.1.any (fun resp => decide (resp.StatusCode ≠ 200) && decide (resp.StatusCode ≠ 404))

/-! ## The sub-queries of a multi-cluster query -/

/-- The kind of a sub-response, in the words of the description: the string under
`kind` of a decoded body, empty otherwise. -/
def responseKind (resp : http.Response ObjectBody) : GoString :=
  match resp.Body with
  | .ok fields =>
    match fields.lookup (ascii "kind") with
    | some (JSON.string kind) => kind
    | _ => []
  | .error _ => []

/-- The statement `v[key] = vals`. -/
def url.Values.set (v : url.Values) (key : GoString) (vals : List GoString) : url.Values :=
  if v.has key = true then v.map (fun kv => if kv.1 = key then (kv.1, vals) else kv)
  else v ++ [(key, vals)]

/-- The map `remoteParams` of a worker (federation.go:240-253), for the text
`content` that `json.Marshal` made of its bucket. -/
def remoteParams (params : url.Values) (content : GoString) : url.Values :=
  let remoteParams : url.Values := []
  let remoteParams := remoteParams.set (ascii "_method") [ascii "GET"]
  let remoteParams := remoteParams.set (ascii "count") [ascii "none"]
  let remoteParams :=
    if params.has (ascii "select") = true then
      remoteParams.set (ascii "select") (params.get (ascii "select"))
    else remoteParams
  remoteParams.set (ascii "filters") [ascii "[[\"uuid\", \"in\", " ++ content ++ ascii "]]"]

/-- The request `remoteReq` of a worker (federation.go:236-255): the method POST, the
path of the inbound request alone as URL, the encoded `remoteParams` as body, and
as headers the header map of the inbound request itself: `remoteReq.Header =
req.Header` copies no header, the inbound request and the requests of all the
workers share one map. So `req` stands for the inbound request with the shared
headers as they are when the worker reads them, after whatever an earlier worker
has set there. -/
def remoteReq (req : http.Request) (params : url.Values) (content : GoString) : http.Request :=
  { Method := ascii "POST", Path := req.Path, RawPath := [], RawQuery := [],
    Authorization := req.Authorization, ContentType := req.ContentType, Via := req.Via,
    Body := (remoteParams params content).Encode, PostForm := none }

/-- The worker of the fan-out for the bucket `v` of cluster `k` (federation.go:231-264):
the error of `json.Marshal`, which the worker adds to `rc.errors`, or else what
`localClusterRequest` or `remoteClusterRequest` does with `remoteReq`, on the
writer `w` of the client and with the filter `rc.collectResponse`. `Marshal` is
`json.Marshal` on a `[]string`. The request `req` carries the shared headers as
the worker finds them, and the request returned those it leaves: the
`Authorization` that `saltAuthToken` sets is set in the shared map. -/
def genericFederatedRequestHandler.queryCluster (h : genericFederatedRequestHandler)
    (Marshal : List GoString → Except Error GoString) (req : http.Request) (params : url.Values)
    (k : GoString) (v : List GoString) : Except Error (Outcome × http.Request) :=
  match Marshal v with
  | .error err => .error err
  | .ok content =>
    if k = h.handler.Cluster.ClusterID then
      .ok (Outcome.localClusterRequest (some ResponseFilter.collectResponse),
        remoteReq req params content)
    else
      .ok (h.handler.remoteClusterRequest k (remoteReq req params content)
        (some ResponseFilter.collectResponse))

/-- The inbound request after a worker: its headers are the shared map, so they
are those of the request the worker leaves. A worker that stops at `json.Marshal`
touches nothing; `localClusterRequest` is taken to leave the headers alone. -/
def sharedHeader (req : http.Request) (worker : Except Error (Outcome × http.Request)) :
    http.Request :=
  match worker with
  | .ok (_, remoteReq) =>
    { req with
      Authorization := remoteReq.Authorization, ContentType := remoteReq.ContentType,
      Via := remoteReq.Via }
  | .error _ => req

/-- The workers of the fan-out (federation.go:226-266) in the order in which they
run: every worker finds the shared headers as the worker before it left them.
The goroutines are taken to run their `remoteClusterRequest` one at a time; the
order is any order of the buckets, since Go ranges over the map in no fixed
order. -/
def genericFederatedRequestHandler.queryClusters (h : genericFederatedRequestHandler)
    (Marshal : List GoString → Except Error GoString) (req : http.Request) (params : url.Values) :
    List (GoString × List GoString) → List (Except Error (Outcome × http.Request))
  | [] => []
  | (k, v) :: rest =>
    h.queryCluster Marshal req params k v ::
      genericFederatedRequestHandler.queryClusters h Marshal
        (sharedHeader req (h.queryCluster Marshal req params k v)) params rest

/-- A path with a uuid right after the prefix of a route, in the words of the
description: `/arvados/v1/<resource>/<cluster>-<typecode>-<tail>` and what follows. -/
def uuidPath (resource typecode cluster tail rest : GoString) : GoString :=
  ascii "/arvados/v1/" ++ resource ++
    (byte '/' :: (cluster ++ (byte '-' :: typecode ++ [byte '-']) ++ tail ++ rest))

/-- The status code of the reply after `wg.Wait()`. -/
def multiClusterReply.code : multiClusterReply → Nat
  | multiClusterReply.errors _ code => code
  | multiClusterReply.itemList code _ _ => code

/-- The status code a worker writes to the writer `w` of the client itself: that of
the `httpserver.Error(w, ..)` inside its `remoteClusterRequest`, when it gets
there. -/
def workerStatusCode : Except Error (Outcome × http.Request) → Option Nat
  | .ok (Outcome.error _ code, _) => some code
  | .ok (Outcome.errorOf _ code, _) => some code
  | _ => none

/-- The status codes written to the writer of the client by a query that fans
out: those the workers write themselves, then that of the reply for the collector
as the workers leave it. What `proxy.Do` and `localClusterRequest` write with the
filter `collectResponse`, which returns `(nil, nil)` for every response, is
outside the files at hand and not counted. -/
def clientStatusCodes (workers : List (Except Error (Outcome × http.Request)))
    (c : multiClusterQueryResponseCollector) : List Nat :=
  workers.filterMap workerStatusCode ++ [c.reply.code]

/-- A `json.Marshal` for the examples: the array of the strings in quotes, for
strings that need no escape. -/
def exampleMarshal (v : List GoString) : Except Error GoString :=
  .ok (ascii "[" ++ [byte ','].intercalate (v.map (fun s => byte '"' :: s ++ [byte '"'])) ++
    ascii "]")

/-! # Theorems -/

/-! ## Facts about the primitives -/

theorem leBytes_length (k w : Nat) : (leBytes k w).length = k := by
  induction k generalizing w with
  | zero => rfl
  | succ k ih => simp [leBytes, ih]

theorem sha1Sum_length (msg : GoString) : (sha1Sum msg).length = 20 := by
  simp [sha1Sum, beBytes, leBytes_length]

theorem hmacSha1_length (key msg : GoString) : (hmacSha1 key msg).length = 20 := by
  unfold hmacSha1
  exact sha1Sum_length _

theorem hexEncode_length (bs : List Byte) : (hexEncode bs).length = 2 * bs.length := by
  induction bs with
  | nil => rfl
  | cons b bs ih =>
    simp only [hexEncode, List.flatMap_cons, List.length_append, List.length_cons,
      List.length_nil] at ih ⊢
    omega

theorem hexDigit_isXDigit : ∀ n : Fin 16, isXDigit (hexDigit n.val) = true := by decide

theorem hexDigit_ne_slash : ∀ n : Fin 16, hexDigit n.val ≠ byte '/' := by decide

theorem hexDigit_lower : ∀ n : Fin 16,
    (inRange '0' '9' (hexDigit n.val) || inRange 'a' 'f' (hexDigit n.val)) = true := by decide

theorem hexEncode_lower (bs : List Byte) :
    ∀ b ∈ hexEncode bs, (inRange '0' '9' b || inRange 'a' 'f' b) = true := by
  intro b h
  simp only [hexEncode, List.mem_flatMap, List.mem_cons, List.mem_singleton,
    List.not_mem_nil, or_false] at h
  obtain ⟨x, -, rfl | rfl⟩ := h
  · exact hexDigit_lower ⟨x.val / 16, by omega⟩
  · exact hexDigit_lower ⟨x.val % 16, by omega⟩

theorem hexEncode_no_slash (bs : List Byte) : byte '/' ∉ hexEncode bs := by
  intro h
  simp only [hexEncode, List.mem_flatMap, List.mem_cons, List.mem_singleton,
    List.not_mem_nil, or_false] at h
  obtain ⟨b, -, h | h⟩ := h
  · exact hexDigit_ne_slash ⟨b.val / 16, by omega⟩ h.symm
  · exact hexDigit_ne_slash ⟨b.val % 16, by omega⟩ h.symm

/-! ## Facts about `strings.Split` -/

theorem splitOnP_no_sep {α : Type} (p : α → Bool) (s : List α) :
    ∀ part ∈ s.splitOnP p, ∀ x ∈ part, p x = false := by
  induction s with
  | nil => simp
  | cons a s ih =>
    rw [List.splitOnP_cons]
    by_cases hpa : p a = true
    · simp only [hpa, if_true, List.mem_cons]
      rintro part (rfl | hpart)
      · simp
      · exact ih part hpart
    · simp only [hpa, Bool.false_eq_true, if_false]
      cases hsp : List.splitOnP p s with
      | nil => exact absurd hsp (List.splitOnP_ne_nil _ _)
      | cons hd tl =>
        simp only [List.modifyHead_cons, List.mem_cons]
        rintro part (rfl | hpart) x hx
        · rcases List.mem_cons.1 hx with rfl | hx
          · simpa using hpa
          · exact ih hd (by simp [hsp]) x hx
        · exact ih part (by simp [hsp, hpart]) x hx

theorem Split_no_sep (s : GoString) (sep : Byte) :
    ∀ part ∈ strings.Split s sep, sep ∉ part := by
  intro part hpart hmem
  have := splitOnP_no_sep (· == sep) s part hpart sep hmem
  simp at this

theorem Split_three (a b c : GoString) (sep : Byte) (ha : sep ∉ a) (hb : sep ∉ b)
    (hc : sep ∉ c) : strings.Split (a ++ sep :: (b ++ sep :: c)) sep = [a, b, c] := by
  have h : ([sep].intercalate [a, b, c]).splitOn sep = [a, b, c] :=
    List.splitOn_intercalate [a, b, c] sep
      (by simp only [List.mem_cons, List.mem_singleton, List.not_mem_nil, or_false]
          rintro l (rfl | rfl | rfl) <;> assumption) (by simp)
  simpa [strings.Split, List.intercalate] using h

/-! ## `SaltToken` -/

theorem reObsoleteTokenRest_iff (s : GoString) :
    auth.reObsoleteTokenRest s = true ↔ ∀ b ∈ s, isLowerAlnum b = true := by
  induction s with
  | nil => simp [auth.reObsoleteTokenRest]
  | cons b s ih => simp [auth.reObsoleteTokenRest, ih]

theorem reObsoleteTokenFrom_iff (n : Nat) (s : GoString) :
    auth.reObsoleteTokenFrom n s = true ↔ n ≤ s.length ∧ ∀ b ∈ s, isLowerAlnum b = true := by
  induction n generalizing s with
  | zero => simp [auth.reObsoleteTokenFrom, reObsoleteTokenRest_iff]
  | succ n ih =>
    cases s with
    | nil => simp [auth.reObsoleteTokenFrom]
    | cons b s => simp [auth.reObsoleteTokenFrom, ih, and_left_comm]

theorem reObsoleteToken_iff (token : GoString) :
    auth.reObsoleteToken token = true ↔
      41 ≤ token.length ∧ ∀ b ∈ token, isLowerAlnum b = true :=
  reObsoleteTokenFrom_iff 41 token

theorem ascii_v2_slash (uuid rest : GoString) :
    ascii "v2/" ++ uuid ++ ascii "/" ++ rest = ascii "v2" ++ byte '/' :: (uuid ++ byte '/' :: rest) := by
  have h1 : ascii "v2/" = ascii "v2" ++ [byte '/'] := by decide
  have h2 : ascii "/" = [byte '/'] := by decide
  simp [h1, h2]

theorem ascii_v2_no_slash : byte '/' ∉ ascii "v2" := by decide

theorem SaltToken_of_parts (token remote uuid secret : GoString) (rest : List GoString)
    (hparts : strings.Split token (byte '/') = ascii "v2" :: uuid :: secret :: rest) :
    auth.SaltToken token remote =
      if secret.length ≠ 40 then
        .ok (ascii "v2/" ++ uuid ++ ascii "/" ++ hexEncode (hmacSha1 secret remote))
      else if strings.HasPrefix uuid remote then .ok token
      else .error auth.Error.ErrSalted := by
  simp [auth.SaltToken, hparts]

theorem Split_salted (remote uuid secret : GoString) (huuid : byte '/' ∉ uuid) :
    strings.Split (ascii "v2/" ++ uuid ++ ascii "/" ++ hexEncode (hmacSha1 secret remote))
      (byte '/') = [ascii "v2", uuid, hexEncode (hmacSha1 secret remote)] := by
  rw [ascii_v2_slash]
  exact Split_three _ _ _ _ ascii_v2_no_slash huuid (hexEncode_no_slash _)

theorem salted_length (secret remote : GoString) :
    (hexEncode (hmacSha1 secret remote)).length = 40 := by
  rw [hexEncode_length, hmacSha1_length]

/-- Every token `SaltToken` returns splits into `v2`, a uuid and a 40-byte third part. -/
theorem SaltToken_ok_parts (token remote s : GoString)
    (h : auth.SaltToken token remote = .ok s) :
    ∃ uuid secret rest, strings.Split s (byte '/') = ascii "v2" :: uuid :: secret :: rest ∧
      secret.length = 40 := by
  unfold auth.SaltToken at h
  simp only at h
  split at h
  · split at h <;> cases h
  · rename_i hcond
    have hcond' : 3 ≤ (strings.Split token (byte '/')).length ∧
        (strings.Split token (byte '/')).getD 0 [] = ascii "v2" := by
      constructor
      · by_contra hc; exact hcond (Or.inl (by omega))
      · by_contra hc; exact hcond (Or.inr hc)
    obtain ⟨hlen, hv2⟩ := hcond'
    match hsp : strings.Split token (byte '/'), hlen, hv2 with
    | p0 :: uuid :: secret :: rest, _, hv2 =>
      simp only [List.getD_cons_zero] at hv2
      subst hv2
      simp only [hsp, List.getD_cons_succ, List.getD_cons_zero] at h
      split at h
      · rename_i hne
        have hs : s = ascii "v2/" ++ uuid ++ ascii "/" ++ hexEncode (hmacSha1 secret remote) := by
          cases h; rfl
        have huuid : byte '/' ∉ uuid :=
          Split_no_sep token (byte '/') uuid (by simp [hsp])
        exact ⟨uuid, _, [], by rw [hs]; exact Split_salted remote uuid secret huuid,
          salted_length _ _⟩
      · rename_i heq
        split at h
        · cases h
          exact ⟨uuid, secret, rest, hsp, by simpa using heq⟩
        · cases h

/-- C4: a token with at least three `/`-separated parts, first part `v2` and a third
part (the secret) whose length is not 40 is salted: `SaltToken` succeeds with
`v2/<second part>/<lowercase hex of HMAC-SHA1(key = secret, message = remote)>`,
whose parts are exactly these three and whose last part is 40 bytes long. -/
theorem SaltToken_salts_unsalted (token remote uuid secret : GoString) (rest : List GoString)
    (hparts : strings.Split token (byte '/') = ascii "v2" :: uuid :: secret :: rest)
    (hsecret : secret.length ≠ 40) :
    auth.SaltToken token remote =
        .ok (ascii "v2/" ++ uuid ++ ascii "/" ++ hexEncode (hmacSha1 secret remote)) ∧
      strings.Split (ascii "v2/" ++ uuid ++ ascii "/" ++ hexEncode (hmacSha1 secret remote))
        (byte '/') = [ascii "v2", uuid, hexEncode (hmacSha1 secret remote)] ∧
      (hexEncode (hmacSha1 secret remote)).length = 40 ∧
      ∀ b ∈ hexEncode (hmacSha1 secret remote), inRange '0' '9' b || inRange 'a' 'f' b := by
  refine ⟨?_, ?_, salted_length _ _, ?_⟩
  · rw [SaltToken_of_parts token remote uuid secret rest hparts, if_pos hsecret]
  · exact Split_salted remote uuid secret
      (Split_no_sep token (byte '/') uuid (by simp [hparts]))
  · exact hexEncode_lower _

theorem SaltToken_salts_unsalted_witness :
    auth.SaltToken (ascii "v2/zzzzz-gj3su-000000000000000/abc/x") (ascii "zhome") =
      .ok (ascii "v2/" ++ ascii "zzzzz-gj3su-000000000000000" ++ ascii "/" ++
        hexEncode (hmacSha1 (ascii "abc") (ascii "zhome"))) :=
  (SaltToken_salts_unsalted (ascii "v2/zzzzz-gj3su-000000000000000/abc/x") (ascii "zhome")
    (ascii "zzzzz-gj3su-000000000000000") (ascii "abc") [ascii "x"] (by decide) (by decide)).1

/-- C5: a token that is not of the versioned form (fewer than three `/`-separated
parts, or a first part other than `v2`) is never salted: `SaltToken` fails with
`ErrObsoleteToken` exactly when the whole token is 41 or more bytes of `[0-9a-z]`,
and with `ErrTokenFormat` exactly when it is not. -/
theorem SaltToken_unversioned (token remote : GoString)
    (h : (strings.Split token (byte '/')).length < 3 ∨
      (strings.Split token (byte '/')).getD 0 [] ≠ ascii "v2") :
    (∀ s, auth.SaltToken token remote ≠ .ok s) ∧
      (auth.SaltToken token remote = .error auth.Error.ErrObsoleteToken ↔
        (41 ≤ token.length ∧ ∀ b ∈ token, isLowerAlnum b = true)) ∧
      (auth.SaltToken token remote = .error auth.Error.ErrTokenFormat ↔
        ¬ (41 ≤ token.length ∧ ∀ b ∈ token, isLowerAlnum b = true)) := by
  have hdef : auth.SaltToken token remote =
      if auth.reObsoleteToken token = true then .error auth.Error.ErrObsoleteToken
      else .error auth.Error.ErrTokenFormat := by
    unfold auth.SaltToken
    simp only []
    rw [if_pos h]
  rw [hdef, ← reObsoleteToken_iff]
  by_cases hre : auth.reObsoleteToken token = true <;> simp [hre]

theorem SaltToken_unversioned_witness :
    auth.SaltToken (ascii "aaaaaaaaaaaaaaaaaaaaaaaaaaaaaaaaaaaaaaaaa") (ascii "zzzzz") =
        .error auth.Error.ErrObsoleteToken ↔
      (41 ≤ (ascii "aaaaaaaaaaaaaaaaaaaaaaaaaaaaaaaaaaaaaaaaa").length ∧
        ∀ b ∈ ascii "aaaaaaaaaaaaaaaaaaaaaaaaaaaaaaaaaaaaaaaaa", isLowerAlnum b = true) :=
  (SaltToken_unversioned (ascii "aaaaaaaaaaaaaaaaaaaaaaaaaaaaaaaaaaaaaaaaa") (ascii "zzzzz")
    (by decide)).2.1

/-- C2, as the code has it: for a versioned credential `v2/<uuid>/<secret>` whose
uuid part starts with the remote's cluster ID, salting twice for that remote
succeeds and gives the token of salting once; when the uuid part does not start
with the remote's ID, salting the salted token again fails with `ErrSalted`. -/
theorem SaltToken_idempotent_on_own_uuid (token remote uuid secret : GoString)
    (rest : List GoString)
    (hparts : strings.Split token (byte '/') = ascii "v2" :: uuid :: secret :: rest) :
    (strings.HasPrefix uuid remote = true →
        ∃ s, auth.SaltToken token remote = .ok s ∧ auth.SaltToken s remote = .ok s) ∧
      (strings.HasPrefix uuid remote = false →
        ∀ s, auth.SaltToken token remote = .ok s →
          auth.SaltToken s remote = .error auth.Error.ErrSalted) := by
  have huuid : byte '/' ∉ uuid := Split_no_sep token (byte '/') uuid (by simp [hparts])
  have hfirst := SaltToken_of_parts token remote uuid secret rest hparts
  have hsecond := SaltToken_of_parts _ remote uuid _ [] (Split_salted remote uuid secret huuid)
  simp only [salted_length, ne_eq, not_true_eq_false, if_false] at hsecond
  constructor
  · intro hp
    by_cases hs : secret.length = 40
    · refine ⟨token, ?_, ?_⟩ <;> simp [hfirst, hs, hp]
    · exact ⟨_, by rw [hfirst, if_pos hs], by rw [hsecond, if_pos hp]⟩
  · intro hp s hs
    by_cases hl : secret.length = 40
    · simp [hfirst, hl, hp] at hs
    · rw [hfirst, if_pos hl] at hs
      cases hs
      rw [hsecond]
      simp [hp]

theorem SaltToken_idempotent_on_own_uuid_witness :
    ∃ s, auth.SaltToken (ascii "v2/zzzzz-gj3su-000000000000000/abc") (ascii "zzzzz") = .ok s ∧
      auth.SaltToken s (ascii "zzzzz") = .ok s :=
  (SaltToken_idempotent_on_own_uuid (ascii "v2/zzzzz-gj3su-000000000000000/abc") (ascii "zzzzz")
    (ascii "zzzzz-gj3su-000000000000000") (ascii "abc") [] (by decide)).1 (by decide)

set_option maxRecDepth 100000 in
/-- C2 fails for a token of another cluster: `v2/zhome-gj3su-000000000000000/abc` is
salted for `zzzzz`, and salting the result for `zzzzz` again fails with `ErrSalted`. -/
theorem SaltToken_not_idempotent :
    auth.SaltToken (ascii "v2/zhome-gj3su-000000000000000/abc") (ascii "zzzzz") =
        .ok (ascii "v2/zhome-gj3su-000000000000000/c71e71ed1456e4a60c5da0a196b20df700f3b0fa") ∧
      auth.SaltToken
          (ascii "v2/zhome-gj3su-000000000000000/c71e71ed1456e4a60c5da0a196b20df700f3b0fa")
          (ascii "zzzzz") = .error auth.Error.ErrSalted := by
  decide

/-- C3, as the code has it: when `SaltToken` for a remote `r1` produced the token `s`,
`SaltToken` of `s` for a remote `r2` fails with `ErrSalted` (and returns no token)
if the uuid part of `s` does not start with `r2`, and returns `s` unchanged if it
does; which remote `s` was salted for plays no part. -/
theorem SaltToken_of_salted (token r1 r2 s : GoString)
    (h : auth.SaltToken token r1 = .ok s) :
    auth.SaltToken s r2 =
      if strings.HasPrefix ((strings.Split s (byte '/')).getD 1 []) r2 = true then .ok s
      else .error auth.Error.ErrSalted := by
  obtain ⟨uuid, secret, rest, hparts, hlen⟩ := SaltToken_ok_parts token r1 s h
  rw [SaltToken_of_parts s r2 uuid secret rest hparts, hparts]
  simp [hlen]

set_option maxRecDepth 100000 in
theorem SaltToken_of_salted_witness :
    auth.SaltToken (ascii "v2/zhome-gj3su-000000000000000/c71e71ed1456e4a60c5da0a196b20df700f3b0fa")
      (ascii "zmock") = .error auth.Error.ErrSalted :=
  (SaltToken_of_salted (ascii "v2/zhome-gj3su-000000000000000/abc") (ascii "zzzzz") (ascii "zmock")
    (ascii "v2/zhome-gj3su-000000000000000/c71e71ed1456e4a60c5da0a196b20df700f3b0fa")
    (by decide)).trans (by decide)

set_option maxRecDepth 100000 in
/-- C3 fails when the token's uuid starts with the second remote:
`v2/zzzzz-gj3su-000000000000000/abc` salted for `zhome` is accepted unchanged, not
refused with `ErrSalted`, when salted again for `zzzzz`. -/
theorem SaltToken_salted_for_other_accepted :
    auth.SaltToken (ascii "v2/zzzzz-gj3su-000000000000000/abc") (ascii "zhome") =
        .ok (ascii "v2/zzzzz-gj3su-000000000000000/166d39d1fac6e8cdd8b80ac534f49e05bde99eeb") ∧
      ascii "zhome" ≠ ascii "zzzzz" ∧
      auth.SaltToken
          (ascii "v2/zzzzz-gj3su-000000000000000/166d39d1fac6e8cdd8b80ac534f49e05bde99eeb")
          (ascii "zzzzz") =
        .ok (ascii "v2/zzzzz-gj3su-000000000000000/166d39d1fac6e8cdd8b80ac534f49e05bde99eeb") := by
  decide

/-! ## The signature rewriter -/

theorem intercalate_sep (sep : Byte) (first : GoString) (rest : List GoString) :
    [sep].intercalate (first :: rest) = first ++ rest.flatMap (fun t => sep :: t) := by
  induction rest generalizing first with
  | nil => simp [List.intercalate]
  | cons t rest ih =>
    have := ih t
    simp only [List.intercalate, List.intersperse, List.flatten_cons, List.flatMap_cons] at this ⊢
    rw [this]
    simp

theorem rewriteToken_eq (re : GoString → Option keepclient.SignedLocatorMatch)
    (clusterID : GoString) (w : manifestWriter) (token : GoString) :
    rewriteToken re clusterID w token =
      { hasher := w.hasher ++ byte ' ' :: strippedLocator re token,
        updatedManifest := w.updatedManifest ++ byte ' ' :: remoteLocator re clusterID token,
        sz := w.sz + (byte ' ' :: strippedLocator re token).length } := by
  have hsp : ascii " " = [byte ' '] := by decide
  unfold rewriteToken strippedLocator remoteLocator
  cases re token with
  | none => simp [manifestWriter.write, hsp]; omega
  | some m => simp [manifestWriter.write, hsp]; omega

theorem rewriteToken_foldl (re : GoString → Option keepclient.SignedLocatorMatch)
    (clusterID : GoString) (tokens : List GoString) (w : manifestWriter) :
    tokens.foldl (rewriteToken re clusterID) w =
      { hasher := w.hasher ++ tokens.flatMap (fun t => byte ' ' :: strippedLocator re t),
        updatedManifest := w.updatedManifest ++
          tokens.flatMap (fun t => byte ' ' :: remoteLocator re clusterID t),
        sz := w.sz + (tokens.flatMap (fun t => byte ' ' :: strippedLocator re t)).length } := by
  induction tokens generalizing w with
  | nil => simp
  | cons t tokens ih =>
    rw [List.foldl_cons, ih, rewriteToken_eq]
    simp only [List.flatMap_cons, List.append_assoc, List.length_append, List.length_cons,
      manifestWriter.mk.injEq, true_and]
    omega

theorem layoutManifest_cons (f : GoString → GoString) (line : GoString) (lines : List GoString) :
    layoutManifest f (line :: lines) = layoutManifest f [line] ++ layoutManifest f lines := by
  simp [layoutManifest]

theorem rewriteLine_ok (re : GoString → Option keepclient.SignedLocatorMatch)
    (clusterID : GoString) (w w' : manifestWriter) (line : GoString)
    (h : rewriteLine re clusterID w line = .ok w') :
    3 ≤ (strings.Split line (byte ' ')).length ∧
    w' = { hasher := w.hasher ++ layoutManifest (strippedLocator re) [line],
           updatedManifest := w.updatedManifest ++ layoutManifest (remoteLocator re clusterID) [line],
           sz := w.sz + (layoutManifest (strippedLocator re) [line]).length } := by
  unfold rewriteLine at h
  simp only at h
  split at h
  · cases h
  · rename_i hlen
    refine ⟨by omega, ?_⟩
    cases h
    match hsp : strings.Split line (byte ' ') with
    | [] => simp [hsp] at hlen
    | first :: rest =>
      have hnl : ascii "\n" = [byte '\n'] := by decide
      simp only [layoutManifest, hsp, List.flatMap_cons, List.flatMap_nil, List.append_nil,
        intercalate_sep, List.flatMap_map, rewriteToken_foldl, manifestWriter.write,
        List.getD_cons_zero, List.drop_succ_cons, List.drop_zero, hnl,
        List.append_assoc, List.length_append, List.length_cons, List.length_nil,
        manifestWriter.mk.injEq, true_and]
      omega

theorem rewriteLine_foldlM (re : GoString → Option keepclient.SignedLocatorMatch)
    (clusterID : GoString) (lines : List GoString) (w w' : manifestWriter)
    (h : lines.foldlM (rewriteLine re clusterID) w = .ok w') :
    (∀ line ∈ lines, 3 ≤ (strings.Split line (byte ' ')).length) ∧
    w' = { hasher := w.hasher ++ layoutManifest (strippedLocator re) lines,
           updatedManifest := w.updatedManifest ++ layoutManifest (remoteLocator re clusterID) lines,
           sz := w.sz + (layoutManifest (strippedLocator re) lines).length } := by
  induction lines generalizing w with
  | nil =>
    simp only [List.foldlM_nil, pure, Except.pure, Except.ok.injEq] at h
    subst h
    simp [layoutManifest]
  | cons line lines ih =>
    rw [List.foldlM_cons] at h
    cases h1 : rewriteLine re clusterID w line with
    | error e => simp [h1, bind, Except.bind] at h
    | ok w1 =>
      simp only [h1, bind, Except.bind] at h
      obtain ⟨hl, hw1⟩ := rewriteLine_ok re clusterID w w1 line h1
      obtain ⟨hls, hw'⟩ := ih w1 h
      refine ⟨?_, ?_⟩
      · intro l hmem
        rcases List.mem_cons.1 hmem with rfl | hmem
        · exact hl
        · exact hls l hmem
      · subst hw1
        rw [hw']
        simp only [layoutManifest, List.flatMap_cons, List.flatMap_nil, List.append_nil,
          List.append_assoc, List.length_append, manifestWriter.mk.injEq, true_and]
        omega

/-- What a successful `rewriteSignatures` on a 200 response establishes. -/
theorem rewriteSignatures_ok_spec (re : GoString → Option keepclient.SignedLocatorMatch)
    (rw : rewriteSignaturesClusterId) (resp resp' : http.Response CollectionBody)
    (hstatus : resp.StatusCode = 200)
    (hok : rewriteSignatures re rw (some resp) none = (some resp', none)) :
    ∃ col : arvados.Collection, resp.Body = .ok col ∧
      resp'.Body = .ok
        { ManifestText :=
            layoutManifest (remoteLocator re rw.clusterID) (bufio.scanLines col.ManifestText),
          PortableDataHash := col.PortableDataHash } ∧
      col.PortableDataHash =
        hexEncode (md5Sum (layoutManifest (strippedLocator re) (bufio.scanLines col.ManifestText)))
          ++ ascii "+" ++
          formatInt (layoutManifest (strippedLocator re) (bufio.scanLines col.ManifestText)).length ∧
      (rw.expectHash ≠ [] → rw.expectHash = col.PortableDataHash) := by
  unfold rewriteSignatures at hok
  simp only [hstatus, ne_eq, not_true_eq_false, if_false] at hok
  cases hbody : resp.Body with
  | error e => simp [hbody] at hok
  | ok col =>
    simp only [hbody] at hok
    cases hfold : (bufio.scanLines col.ManifestText).foldlM (rewriteLine re rw.clusterID)
        { hasher := [], updatedManifest := [], sz := 0 } with
    | error e => simp [hfold] at hok
    | ok w =>
      simp only [hfold] at hok
      obtain ⟨-, hw⟩ := rewriteLine_foldlM re rw.clusterID _ _ w hfold
      simp only [List.nil_append, Nat.zero_add] at hw
      subst hw
      simp only at hok
      by_cases hexp : rw.expectHash ≠ [] ∧ rw.expectHash ≠ col.PortableDataHash
      · rw [if_pos hexp] at hok
        simp at hok
      · rw [if_neg hexp] at hok
        have hexpect : (if rw.expectHash = [] then col.PortableDataHash else rw.expectHash) =
            col.PortableDataHash := by
          by_cases he : rw.expectHash = []
          · simp [he]
          · simp only [he, if_false]
            by_contra hne; exact hexp ⟨he, hne⟩
        rw [hexpect] at hok
        split at hok
        · simp at hok
        · rename_i hcomp
          simp only [Prod.mk.injEq, Option.some.injEq, and_true] at hok
          refine ⟨col, rfl, ?_, ?_, ?_⟩
          · rw [← hok]
          · exact (not_not.1 hcomp).symm
          · intro he
            by_contra hne; exact hexp ⟨he, hne⟩

/-- C1: when `rewriteSignatures` succeeds on an HTTP 200 collection response, the
returned record carries the rewritten manifest, and the record's
`portable_data_hash` is `hex(md5(S)) + "+" + len(S)` for the signature-stripped form
`S` of that manifest: the same lines and tokens, single spaces between tokens and a
newline after every line, with each rewritten block locator reduced to its hash
and size. A non-empty expected hash of the caller equals that
`portable_data_hash` too. -/
theorem rewriteSignatures_certifies_pdh (re : GoString → Option keepclient.SignedLocatorMatch)
    (rw : rewriteSignaturesClusterId) (resp resp' : http.Response CollectionBody)
    (hstatus : resp.StatusCode = 200)
    (hok : rewriteSignatures re rw (some resp) none = (some resp', none)) :
    ∃ col : arvados.Collection, resp.Body = .ok col ∧
      resp'.Body = .ok
        { ManifestText :=
            layoutManifest (remoteLocator re rw.clusterID) (bufio.scanLines col.ManifestText),
          PortableDataHash := col.PortableDataHash } ∧
      col.PortableDataHash =
        hexEncode (md5Sum (layoutManifest (strippedLocator re) (bufio.scanLines col.ManifestText)))
          ++ ascii "+" ++
          formatInt (layoutManifest (strippedLocator re) (bufio.scanLines col.ManifestText)).length ∧
      (rw.expectHash ≠ [] → rw.expectHash = col.PortableDataHash) :=
  rewriteSignatures_ok_spec re rw resp resp' hstatus hok

set_option maxRecDepth 100000 in
theorem rewriteSignatures_certifies_pdh_witness :
    ∃ col : arvados.Collection, signedCollectionResponse.Body = .ok col ∧
      rewrittenCollectionResponse.Body = .ok
        { ManifestText := layoutManifest (remoteLocator keepclient.SignedLocatorRe (ascii "zzzzz"))
            (bufio.scanLines col.ManifestText),
          PortableDataHash := col.PortableDataHash } ∧
      col.PortableDataHash =
        hexEncode (md5Sum (layoutManifest (strippedLocator keepclient.SignedLocatorRe)
            (bufio.scanLines col.ManifestText))) ++ ascii "+" ++
          formatInt (layoutManifest (strippedLocator keepclient.SignedLocatorRe)
            (bufio.scanLines col.ManifestText)).length ∧
      (ascii "5a7598c227e3703616c071e553ade2c0+43" ≠ [] →
        ascii "5a7598c227e3703616c071e553ade2c0+43" = col.PortableDataHash) :=
  rewriteSignatures_certifies_pdh keepclient.SignedLocatorRe
    { clusterID := ascii "zzzzz", expectHash := ascii "5a7598c227e3703616c071e553ade2c0+43" }
    signedCollectionResponse rewrittenCollectionResponse (by decide) (by decide)

/-! ### The hints of a rewritten locator -/

set_option maxRecDepth 100000 in
theorem isXDigit_ne_plus : ∀ b : Byte, isXDigit b = true → b ≠ byte '+' := by decide

set_option maxRecDepth 100000 in
theorem isDigit_ne_plus : ∀ b : Byte, isDigit b = true → b ≠ byte '+' := by decide

set_option maxRecDepth 100000 in
theorem isDigit_ne_A : ∀ b : Byte, isDigit b = true → b ≠ byte 'A' := by decide

set_option maxRecDepth 100000 in
theorem isHintByte_ne_plus : ∀ b : Byte, keepclient.isHintByte b = true → b ≠ byte '+' := by
  decide

set_option maxRecDepth 100000 in
theorem hintHead_ne : ∀ b : Byte, inRange 'B' 'Z' b = true → b ≠ byte '+' ∧ b ≠ byte 'A' := by
  decide

theorem all_ne_plus {p : Byte → Bool} (hp : ∀ b : Byte, p b = true → b ≠ byte '+')
    (s : GoString) (h : s.all p = true) : byte '+' ∉ s := by
  intro hmem
  exact hp _ (List.all_eq_true.1 h _ hmem) rfl

theorem isUnsignedHint_spec (h : GoString) (hh : keepclient.isUnsignedHint h = true) :
    byte '+' ∉ h ∧ h.head? ≠ some (byte 'A') := by
  cases h with
  | nil => simp [keepclient.isUnsignedHint] at hh
  | cons b rest =>
    simp only [keepclient.isUnsignedHint, Bool.and_eq_true] at hh
    obtain ⟨hb, hrest⟩ := hh
    obtain ⟨h1, h2⟩ := hintHead_ne b hb
    refine ⟨?_, by simpa using h2⟩
    intro hmem
    rcases List.mem_cons.1 hmem with heq | hmem
    · exact h1 heq.symm
    · exact all_ne_plus isHintByte_ne_plus rest hrest hmem

theorem isSignatureHint_spec (s : GoString) (hs : keepclient.isSignatureHint s = true) :
    ∃ rest, s = byte 'A' :: rest ∧ byte '+' ∉ rest := by
  cases s with
  | nil => simp [keepclient.isSignatureHint] at hs
  | cons b rest =>
    simp only [keepclient.isSignatureHint, Bool.and_eq_true, beq_iff_eq] at hs
    obtain ⟨hb, hrest⟩ := hs
    refine ⟨rest, by rw [hb], ?_⟩
    have hj : [byte '@'].intercalate (rest.splitOn (byte '@')) = rest :=
      List.intercalate_splitOn rest (byte '@')
    split at hrest
    · rename_i signature timestamp hsp
      simp only [Bool.and_eq_true, decide_eq_true_eq] at hrest
      obtain ⟨⟨⟨-, hsig⟩, -⟩, hts⟩ := hrest
      simp only [strings.Split] at hsp
      rw [hsp] at hj
      rw [← hj, intercalate_sep]
      have h1 := all_ne_plus isXDigit_ne_plus _ hsig
      have h2 := all_ne_plus isXDigit_ne_plus _ hts
      have h3 : byte '+' ≠ byte '@' := by decide
      simp [h1, h2, h3]
    · simp at hrest

theorem remoteLocator_hints (m : keepclient.SignedLocatorMatch) (clusterID : GoString)
    (hm : m.WellFormed) (hcluster : byte '+' ∉ clusterID) :
    ∀ hint ∈ (strings.Split (m.hash ++ m.size ++ m.hints ++ ascii "+R" ++ clusterID ++ ascii "-" ++
        m.sig.drop 2 ++ m.trailing) (byte '+')).tail, hint.head? ≠ some (byte 'A') := by
  obtain ⟨size, signature, before, after, hsize, hhints, hsig, htrail, hhash, hne, hdig, hbefore,
    hsign, hafter⟩ := hm
  obtain ⟨sigrest, rfl, hsigrest⟩ := isSignatureHint_spec signature hsign
  have hform : m.hash ++ m.size ++ m.hints ++ ascii "+R" ++ clusterID ++ ascii "-" ++
      m.sig.drop 2 ++ m.trailing =
      [byte '+'].intercalate (m.hash :: size :: (before ++
        [byte 'R' :: (clusterID ++ byte '-' :: sigrest)] ++ after)) := by
    have h1 : ascii "+R" = [byte '+', byte 'R'] := by decide
    have h2 : ascii "-" = [byte '-'] := by decide
    rw [intercalate_sep, hsize, hhints, hsig, htrail, h1, h2]
    simp [keepclient.joinHints]
  rw [hform, strings.Split, List.splitOn_intercalate]
  · simp only [List.tail_cons, List.mem_cons, List.mem_append, List.mem_singleton,
      List.not_mem_nil, or_false]
    intro hint hmem
    rcases hmem with heq | (hb | heq) | ha
    · subst heq
      cases hint with
      | nil => exact absurd rfl hne
      | cons d ds =>
        simp only [List.all_cons, Bool.and_eq_true] at hdig
        simpa using isDigit_ne_A d hdig.1
    · exact (isUnsignedHint_spec hint (List.all_eq_true.1 hbefore hint hb)).2
    · subst heq
      have : byte 'R' ≠ byte 'A' := by decide
      simpa using this
    · exact (isUnsignedHint_spec hint (List.all_eq_true.1 hafter hint ha)).2
  · simp only [List.mem_cons, List.mem_append, List.mem_singleton, List.not_mem_nil, or_false]
    intro l hmem
    rcases hmem with heq | heq | (hb | heq) | ha
    · subst heq; exact all_ne_plus isXDigit_ne_plus _ hhash
    · subst heq; exact all_ne_plus isDigit_ne_plus _ hdig
    · exact (isUnsignedHint_spec l (List.all_eq_true.1 hbefore l hb)).1
    · subst heq
      have h1 : byte '+' ≠ byte 'R' := by decide
      have h2 : byte '+' ≠ byte '-' := by decide
      simp [h1, h2, hcluster, hsigrest]
    · exact (isUnsignedHint_spec l (List.all_eq_true.1 hafter l ha)).1
  · simp

theorem SignedLocatorRe_wellFormed (token : GoString) (m : keepclient.SignedLocatorMatch)
    (h : keepclient.SignedLocatorRe token = some m) : m.WellFormed := by
  unfold keepclient.SignedLocatorRe at h
  split at h
  · rename_i hash size hints hsp
    split at h
    · rename_i hcond
      obtain ⟨-, hhash, hne, hdig⟩ := hcond
      split at h
      · rename_i before signature after hspan
        split at h
        · rename_i hcond2
          simp only [Option.some.injEq] at h
          subst h
          refine ⟨size, signature, before, after, rfl, rfl, rfl, rfl, hhash, hne, hdig, ?_,
            hcond2.1, hcond2.2⟩
          rw [List.span_eq_take_drop] at hspan
          simp only [Prod.mk.injEq] at hspan
          rw [← hspan.1, List.all_eq_true]
          intro x hx
          exact List.mem_takeWhile_imp hx
        · cases h
      · cases h
    · cases h
  · cases h

/-- C6: in the manifest `rewriteSignatures` produces, the first token of every
line is copied, and every other token goes through `remoteLocator`: a token that
matches the signed-locator pattern becomes hash + size + leading hints + `+R` +
the remote cluster ID + `-` + the signature hint without its leading `+A` +
trailing hints, and a token that does not match is copied unchanged. With the
groups shaped as the pattern shapes them and a cluster ID free of `+`, none of
the `+`-separated hints of a rewritten locator starts with `A`. -/
theorem rewriteSignatures_rewrites_locators
    (re : GoString → Option keepclient.SignedLocatorMatch)
    (rw : rewriteSignaturesClusterId) (resp resp' : http.Response CollectionBody)
    (hre : ∀ token m, re token = some m → m.WellFormed)
    (hcluster : byte '+' ∉ rw.clusterID)
    (hstatus : resp.StatusCode = 200)
    (hok : rewriteSignatures re rw (some resp) none = (some resp', none)) :
    ∃ col col' : arvados.Collection, resp.Body = .ok col ∧ resp'.Body = .ok col' ∧
      col'.ManifestText =
        layoutManifest (remoteLocator re rw.clusterID) (bufio.scanLines col.ManifestText) ∧
      (∀ token m, re token = some m →
        remoteLocator re rw.clusterID token =
            m.hash ++ m.size ++ m.hints ++ ascii "+R" ++ rw.clusterID ++ ascii "-" ++
              m.sig.drop 2 ++ m.trailing ∧
          ∀ hint ∈ (strings.Split (remoteLocator re rw.clusterID token) (byte '+')).tail,
            hint.head? ≠ some (byte 'A')) ∧
      (∀ token, re token = none → remoteLocator re rw.clusterID token = token) := by
  obtain ⟨col, hbody, hbody', -, -⟩ := rewriteSignatures_ok_spec re rw resp resp' hstatus hok
  refine ⟨col, _, hbody, hbody', rfl, ?_, ?_⟩
  · intro token m hm
    have hloc : remoteLocator re rw.clusterID token =
        m.hash ++ m.size ++ m.hints ++ ascii "+R" ++ rw.clusterID ++ ascii "-" ++
          m.sig.drop 2 ++ m.trailing := by
      simp [remoteLocator, hm]
    refine ⟨hloc, ?_⟩
    rw [hloc]
    exact remoteLocator_hints m rw.clusterID (hre token m hm) hcluster
  · intro token hm
    simp [remoteLocator, hm]

set_option maxRecDepth 100000 in
theorem rewriteSignatures_rewrites_locators_witness :
    ∃ col col' : arvados.Collection, signedCollectionResponse.Body = .ok col ∧
      rewrittenCollectionResponse.Body = .ok col' ∧
      col'.ManifestText =
        layoutManifest (remoteLocator keepclient.SignedLocatorRe (ascii "zzzzz"))
          (bufio.scanLines col.ManifestText) ∧
      (∀ token m, keepclient.SignedLocatorRe token = some m →
        remoteLocator keepclient.SignedLocatorRe (ascii "zzzzz") token =
            m.hash ++ m.size ++ m.hints ++ ascii "+R" ++ ascii "zzzzz" ++ ascii "-" ++
              m.sig.drop 2 ++ m.trailing ∧
          ∀ hint ∈ (strings.Split (remoteLocator keepclient.SignedLocatorRe (ascii "zzzzz") token)
              (byte '+')).tail,
            hint.head? ≠ some (byte 'A')) ∧
      (∀ token, keepclient.SignedLocatorRe token = none →
        remoteLocator keepclient.SignedLocatorRe (ascii "zzzzz") token = token) :=
  rewriteSignatures_rewrites_locators keepclient.SignedLocatorRe
    { clusterID := ascii "zzzzz", expectHash := [] }
    signedCollectionResponse rewrittenCollectionResponse SignedLocatorRe_wellFormed
    (by decide) (by decide) (by decide)

/-! ## `remoteClusterRequest` and `saltAuthToken` -/

/-- C8: for a cluster ID that is not a key of the `RemoteClusters` map,
`remoteClusterRequest` answers 404 with the one error string
`no proxy available for cluster <id>`; nothing is handed to the proxy, and the
request, its credential included, is left as it was, whatever it is. -/
theorem remoteClusterRequest_unknown_remote (h : Handler) (remoteID : GoString)
    (req : http.Request) (filter : Option ResponseFilter)
    (hunknown : remoteID ∉ h.Cluster.RemoteClusters.map Prod.fst) :
    h.remoteClusterRequest remoteID req filter =
      (Outcome.error (ascii "no proxy available for cluster " ++ remoteID) 404, req) := by
  have hlookup : h.Cluster.RemoteClusters.lookup remoteID = none := by
    rw [List.lookup_eq_none_iff]
    intro kv hkv
    simp only [bne_iff_ne, ne_eq]
    intro heq
    exact hunknown (List.mem_map.2 ⟨kv, hkv, heq.symm⟩)
  simp [Handler.remoteClusterRequest, hlookup]

theorem remoteClusterRequest_unknown_remote_witness :
    exampleHandler.remoteClusterRequest (ascii "zz404")
        (getRequest (ascii "/arvados/v1/workflows/zz404-7fd4e-cu0ln0wcb3qo4ru") []
          (ascii "Bearer 3kg6k6lzmp9kj5cpkcoxie963cmvjahbt2fod9zru30k1jqdmi")) none =
      (Outcome.error (ascii "no proxy available for cluster " ++ ascii "zz404") 404,
        getRequest (ascii "/arvados/v1/workflows/zz404-7fd4e-cu0ln0wcb3qo4ru") []
          (ascii "Bearer 3kg6k6lzmp9kj5cpkcoxie963cmvjahbt2fod9zru30k1jqdmi")) :=
  remoteClusterRequest_unknown_remote exampleHandler (ascii "zz404") _ none (by decide)

theorem loadCredentials_keeps (h : Handler) (req req1 : http.Request) (tokens : List GoString)
    (hcreds : h.loadCredentials req = .ok (tokens, req1)) :
    req1.Authorization = req.Authorization ∧ req1.RawQuery = req.RawQuery ∧
      req1.Path = req.Path ∧ req1.RawPath = req.RawPath := by
  unfold Handler.loadCredentials at hcreds
  simp only at hcreds
  split at hcreds
  · split at hcreds
    · cases hcreds
    · simp only [Except.ok.injEq, Prod.mk.injEq] at hcreds
      obtain ⟨-, rfl⟩ := hcreds
      exact ⟨rfl, rfl, rfl, rfl⟩
  · simp only [Except.ok.injEq, Prod.mk.injEq] at hcreds
    obtain ⟨-, rfl⟩ := hcreds
    exact ⟨rfl, rfl, rfl, rfl⟩

theorem SaltToken_obsolete_shape (token remote : GoString)
    (h : auth.SaltToken token remote = .error auth.Error.ErrObsoleteToken) :
    41 ≤ token.length ∧ byte '/' ∉ token := by
  unfold auth.SaltToken at h
  simp only at h
  split at h
  · split at h
    · rename_i hre
      obtain ⟨hlen, hall⟩ := (reObsoleteToken_iff token).1 hre
      refine ⟨hlen, fun hmem => ?_⟩
      have := hall _ hmem
      revert this
      decide
    · cases h
  · split at h
    · cases h
    · split at h <;> cases h

/-- The request `saltAuthToken` leaves once the token to send is chosen. -/
theorem saltAuthToken_of_token (h : Handler) (req req1 : http.Request) (remote token0 : GoString)
    (rest : List GoString) (token : GoString)
    (hcreds : h.loadCredentials req = .ok (token0 :: rest, req1))
    (hsalted : h.saltFirstToken req1 token0 remote = .ok token) :
    (h.saltAuthToken req remote).2.Authorization = ascii "Bearer " ++ token := by
  unfold Handler.saltAuthToken
  simp only [hcreds, hsalted]
  split
  · rfl
  · split <;> rfl

theorem saltAuthToken_of_error (h : Handler) (req req1 : http.Request) (remote token0 : GoString)
    (rest : List GoString) (err : Error)
    (hcreds : h.loadCredentials req = .ok (token0 :: rest, req1))
    (hsalted : h.saltFirstToken req1 token0 remote = .error err) :
    h.saltAuthToken req remote = (some err, req1) := by
  unfold Handler.saltAuthToken
  simp only [hcreds, hsalted]

/-- C10: for a request whose first token `SaltToken` refuses with `ErrObsoleteToken`,
`saltAuthToken` looks the token up in the local store. When the lookup reports
`sql.ErrNoRows`, the `Authorization` header becomes `Bearer ` and the token
unchanged. When the lookup finds a row, the header becomes `Bearer ` and the
token `SaltToken` returns for the row's v2 form and the remote (it returns
`v2/<uuid>/<hex of HMAC-SHA1>` for every uuid without `/`). Any other lookup
error is returned by `saltAuthToken`, and the header stays as it was. -/
theorem saltAuthToken_obsolete_token (h : Handler) (req req1 : http.Request)
    (remote token0 : GoString) (rest : List GoString)
    (hcreds : h.loadCredentials req = .ok (token0 :: rest, req1))
    (hobsolete : auth.SaltToken token0 remote = .error auth.Error.ErrObsoleteToken) :
    (∀ user, h.validateAPItoken req1
          { Authorization := { UUID := [], APIToken := token0 }, UUID := [] } =
          (some Error.sqlErrNoRows, user) →
        (h.saltAuthToken req remote).2.Authorization = ascii "Bearer " ++ token0) ∧
      (∀ user, h.validateAPItoken req1
          { Authorization := { UUID := [], APIToken := token0 }, UUID := [] } = (none, user) →
        (∀ salted, auth.SaltToken user.Authorization.TokenV2 remote = .ok salted →
          (h.saltAuthToken req remote).2.Authorization = ascii "Bearer " ++ salted) ∧
        (byte '/' ∉ user.Authorization.UUID →
          auth.SaltToken user.Authorization.TokenV2 remote =
            .ok (ascii "v2/" ++ user.Authorization.UUID ++ ascii "/" ++
              hexEncode (hmacSha1 token0 remote)))) ∧
      (∀ err user, h.validateAPItoken req1
          { Authorization := { UUID := [], APIToken := token0 }, UUID := [] } = (some err, user) →
        err ≠ Error.sqlErrNoRows →
        (h.saltAuthToken req remote).1 = some err ∧
          (h.saltAuthToken req remote).2.Authorization = req.Authorization) := by
  obtain ⟨hauth, -, -, -⟩ := loadCredentials_keeps h req req1 _ hcreds
  refine ⟨?_, ?_, ?_⟩
  · intro user hv
    have hkeep : user.Authorization.APIToken = token0 := by
      unfold Handler.validateAPItoken at hv
      split at hv
      · cases hv; rfl
      · split at hv
        · cases hv; rfl
        · cases hv
    apply saltAuthToken_of_token h req req1 remote token0 rest token0 hcreds
    simp only [Handler.saltFirstToken, hobsolete, hv, hkeep]
  · intro user hv
    have hkeep : user.Authorization.APIToken = token0 := by
      unfold Handler.validateAPItoken at hv
      split at hv
      · cases hv
      · split at hv
        · cases hv
        · cases hv; rfl
    refine ⟨?_, ?_⟩
    · intro salted hs
      apply saltAuthToken_of_token h req req1 remote token0 rest salted hcreds
      simp only [Handler.saltFirstToken, hobsolete, hv, hs]
    · intro huuid
      obtain ⟨hlen, hslash⟩ := SaltToken_obsolete_shape token0 remote hobsolete
      have hparts : strings.Split user.Authorization.TokenV2 (byte '/') =
          [ascii "v2", user.Authorization.UUID, token0] := by
        unfold arvados.APIClientAuthorization.TokenV2
        rw [hkeep, ascii_v2_slash]
        exact Split_three _ _ _ _ ascii_v2_no_slash huuid hslash
      rw [SaltToken_of_parts _ remote _ _ [] hparts, if_pos (by omega)]
  · intro err user hv hne
    have hsalted : h.saltFirstToken req1 token0 remote = .error err := by
      simp only [Handler.saltFirstToken, hobsolete, hv]
    rw [saltAuthToken_of_error h req req1 remote token0 rest err hcreds hsalted]
    exact ⟨rfl, hauth⟩

set_option maxRecDepth 100000 in
theorem saltAuthToken_obsolete_token_witness :
    (exampleHandler.saltAuthToken
        (getRequest (ascii "/arvados/v1/workflows/zzzzz-7fd4e-cu0ln0wcb3qo4ru") []
          (ascii "Bearer aaaaaaaaaaaaaaaaaaaaaaaaaaaaaaaaaaaaaaaaa"))
        (ascii "zzzzz")).2.Authorization =
      ascii "Bearer " ++ ascii "aaaaaaaaaaaaaaaaaaaaaaaaaaaaaaaaaaaaaaaaa" :=
  (saltAuthToken_obsolete_token exampleHandler
    (getRequest (ascii "/arvados/v1/workflows/zzzzz-7fd4e-cu0ln0wcb3qo4ru") []
      (ascii "Bearer aaaaaaaaaaaaaaaaaaaaaaaaaaaaaaaaaaaaaaaaa"))
    (getRequest (ascii "/arvados/v1/workflows/zzzzz-7fd4e-cu0ln0wcb3qo4ru") []
      (ascii "Bearer aaaaaaaaaaaaaaaaaaaaaaaaaaaaaaaaaaaaaaaaa"))
    (ascii "zzzzz") (ascii "aaaaaaaaaaaaaaaaaaaaaaaaaaaaaaaaaaaaaaaaa") [] (by decide) (by decide)).1
    { Authorization := { UUID := [], APIToken := ascii "aaaaaaaaaaaaaaaaaaaaaaaaaaaaaaaaaaaaaaaaa" },
      UUID := [] } (by decide)

/-! ## The dispatch router -/

theorem remoteClusterRequest_ne_next (h : Handler) (remoteID : GoString) (req : http.Request)
    (filter : Option ResponseFilter) :
    (h.remoteClusterRequest remoteID req filter).1 ≠ Outcome.next := by
  unfold Handler.remoteClusterRequest
  split
  · simp
  · simp only
    split <;> simp

theorem matched_cluster (m : List GoString) :
    (if m.length > 0 ∧ m.getD 2 [] ≠ [] then m.getD 2 [] else []) = m.getD 2 [] := by
  by_cases h2 : m.getD 2 [] = []
  · rw [h2]; exact ite_self _
  · have hlen : m.length > 0 := by
      cases m with
      | nil => exact absurd rfl h2
      | cons a m => exact Nat.succ_pos _
    rw [if_pos ⟨hlen, h2⟩]

theorem cluster_id_param (matcher : GoString → Option (List GoString)) (req : http.Request)
    (params : url.Values) :
    (if (params.get (ascii "cluster_id")).length = 1 then
        (params.get (ascii "cluster_id")).getD 0 []
      else if ((matcher req.Path).getD []).length > 0 ∧ ((matcher req.Path).getD []).getD 2 [] ≠ []
        then ((matcher req.Path).getD []).getD 2 [] else []) =
      chosenClusterID matcher req params := by
  rw [matched_cluster]
  have hpath : ((matcher req.Path).getD []).getD 2 [] =
      (match matcher req.Path with
        | some m => m.getD 2 []
        | none => []) := by
    cases matcher req.Path <;> rfl
  unfold chosenClusterID
  rw [hpath]
  match hcid : params.get (ascii "cluster_id") with
  | [] => rfl
  | [c] => rfl
  | a :: b :: rest =>
    simp only [List.length_cons]
    rw [if_neg (by omega)]

theorem effective_method_param (req : http.Request) (params : url.Values) :
    (if req.Method = ascii "POST" ∧ (params.get (ascii "_method")).length = 1 then
        (params.get (ascii "_method")).getD 0 []
      else req.Method) = effectiveMethod req params := by
  unfold effectiveMethod
  match hm : params.get (ascii "_method") with
  | [] => simp
  | [m] => by_cases hp : req.Method = ascii "POST" <;> simp [hp]
  | a :: b :: rest => simp

/-! ## net/url: parsing an encoded query gives the values back -/

set_option maxRecDepth 100000 in
theorem shouldEscape_false : ∀ c : Byte, url.shouldEscape c = false →
    c ≠ byte '%' ∧ c ≠ byte '+' ∧ c ≠ byte '&' ∧ c ≠ byte ';' ∧ c ≠ byte '=' := by
  decide

set_option maxRecDepth 100000 in
theorem upperhex_spec : ∀ c : Byte,
    url.ishex (url.upperhex (c.val / 16)) = true ∧ url.ishex (url.upperhex (c.val % 16)) = true ∧
      (Fin.ofNat (url.unhex (url.upperhex (c.val / 16)) * 16 +
        url.unhex (url.upperhex (c.val % 16))) : Byte) = c ∧
      url.upperhex (c.val / 16) ≠ byte '&' ∧ url.upperhex (c.val / 16) ≠ byte ';' ∧
      url.upperhex (c.val / 16) ≠ byte '=' ∧
      url.upperhex (c.val % 16) ≠ byte '&' ∧ url.upperhex (c.val % 16) ≠ byte ';' ∧
      url.upperhex (c.val % 16) ≠ byte '=' := by
  decide

theorem QueryUnescape_plain (c : Byte) (rest : GoString) (hc : c ≠ byte '%') :
    url.QueryUnescape (c :: rest) =
      (url.QueryUnescape rest).map (fun t => (if c = byte '+' then byte ' ' else c) :: t) := by
  conv_lhs => unfold url.QueryUnescape
  simp only [hc, if_false]
  cases url.QueryUnescape rest <;> rfl

theorem QueryUnescape_percent (h1 h2 : Byte) (rest : GoString)
    (hh1 : url.ishex h1 = true) (hh2 : url.ishex h2 = true) :
    url.QueryUnescape (byte '%' :: h1 :: h2 :: rest) =
      (url.QueryUnescape rest).map
        (fun t => (Fin.ofNat (url.unhex h1 * 16 + url.unhex h2) : Byte) :: t) := by
  conv_lhs => unfold url.QueryUnescape
  simp only [hh1, hh2, and_self, if_true]
  cases url.QueryUnescape rest <;> rfl

theorem QueryEscape_cons (c : Byte) (s : GoString) :
    url.QueryEscape (c :: s) =
      (if url.shouldEscape c = true then
        if c = byte ' ' then [byte '+']
        else [byte '%', url.upperhex (c.val / 16), url.upperhex (c.val % 16)]
      else [c]) ++ url.QueryEscape s := by
  simp [url.QueryEscape]

theorem QueryUnescape_QueryEscape (s : GoString) :
    url.QueryUnescape (url.QueryEscape s) = .ok s := by
  induction s with
  | nil => simp [url.QueryEscape, url.QueryUnescape]
  | cons c s ih =>
    rw [QueryEscape_cons]
    by_cases hesc : url.shouldEscape c = true
    · rw [if_pos hesc]
      by_cases hsp : c = byte ' '
      · rw [if_pos hsp]
        simp only [List.singleton_append]
        rw [QueryUnescape_plain _ _ (by decide), ih, hsp]
        rfl
      · rw [if_neg hsp]
        obtain ⟨h1, h2, h3, -⟩ := upperhex_spec c
        simp only [List.cons_append, List.nil_append]
        rw [QueryUnescape_percent _ _ _ h1 h2, ih]
        simp only [Except.map, h3]
    · rw [if_neg hesc]
      obtain ⟨h1, h2, -⟩ := shouldEscape_false c (by simpa using hesc)
      simp only [List.singleton_append]
      rw [QueryUnescape_plain _ _ h1, ih]
      simp [Except.map, h2]

theorem QueryEscape_no_separator (s : GoString) :
    ∀ c ∈ url.QueryEscape s, c ≠ byte '&' ∧ c ≠ byte ';' ∧ c ≠ byte '=' := by
  induction s with
  | nil => simp [url.QueryEscape]
  | cons b s ih =>
    rw [QueryEscape_cons]
    intro c hc
    rcases List.mem_append.1 hc with hc | hc
    · by_cases hesc : url.shouldEscape b = true
      · rw [if_pos hesc] at hc
        by_cases hsp : b = byte ' '
        · rw [if_pos hsp] at hc
          simp only [List.mem_singleton] at hc
          subst hc
          decide
        · rw [if_neg hsp] at hc
          obtain ⟨-, -, -, h4, h5, h6, h7, h8, h9⟩ := upperhex_spec b
          simp only [List.mem_cons, List.mem_singleton, List.not_mem_nil, or_false] at hc
          rcases hc with rfl | rfl | rfl
          · decide
          · exact ⟨h4, h5, h6⟩
          · exact ⟨h7, h8, h9⟩
      · rw [if_neg hesc] at hc
        simp only [List.mem_singleton] at hc
        subst hc
        obtain ⟨-, -, h3, h4, h5⟩ := shouldEscape_false c (by simpa using hesc)
        exact ⟨h3, h4, h5⟩
    · exact ih c hc

theorem splitOnP_intercalate (p : Byte → Bool) (sep : Byte) (hsep : p sep = true)
    (pieces : List GoString) (hp : ∀ piece ∈ pieces, ∀ c ∈ piece, ¬ p c = true)
    (hne : pieces ≠ []) :
    ([sep].intercalate pieces).splitOnP p = pieces := by
  induction pieces with
  | nil => exact absurd rfl hne
  | cons first rest ih =>
    rw [intercalate_sep]
    cases rest with
    | nil =>
      simp only [List.flatMap_nil, List.append_nil]
      exact List.splitOnP_eq_single p first (hp first (List.mem_cons_self _ _))
    | cons second rest =>
      have hrest := ih (fun piece hpiece => hp piece (List.mem_cons_of_mem _ hpiece)) (by simp)
      rw [intercalate_sep] at hrest
      simp only [List.flatMap_cons, List.cons_append]
      rw [List.splitOnP_first p first (hp first (List.mem_cons_self _ _)) sep hsep, hrest]

theorem takeWhile_append_stop {α : Type} (p : α → Bool) (l : List α) (a : α) (r : List α)
    (hl : ∀ x ∈ l, p x = true) (ha : p a = false) :
    (l ++ a :: r).takeWhile p = l ∧ (l ++ a :: r).dropWhile p = a :: r := by
  induction l with
  | nil => simp [List.takeWhile, List.dropWhile, ha]
  | cons x l ih =>
    have hx := hl x (List.mem_cons_self _ _)
    have := ih (fun y hy => hl y (List.mem_cons_of_mem _ hy))
    simp [List.takeWhile, List.dropWhile, hx, this]

theorem parseQueryStep_pair (acc : url.Values × Option Error) (key value : GoString) :
    url.parseQueryStep acc (url.QueryEscape key ++ byte '=' :: url.QueryEscape value) =
      (acc.1.append key [value], acc.2) := by
  have hsplit := takeWhile_append_stop (fun c => decide (c ≠ byte '=')) (url.QueryEscape key)
    (byte '=') (url.QueryEscape value)
    (fun c hc => by simpa using (QueryEscape_no_separator key c hc).2.2) (by simp)
  unfold url.parseQueryStep
  rw [if_neg (by simp)]
  simp only [hsplit.1, hsplit.2, List.drop_succ_cons, List.drop_zero, QueryUnescape_QueryEscape]

theorem parseQueryStep_pairs (pairs : List (GoString × GoString))
    (acc : url.Values × Option Error) :
    (pairs.map (fun kv => url.QueryEscape kv.1 ++ byte '=' :: url.QueryEscape kv.2)).foldl
        url.parseQueryStep acc =
      (pairs.foldl (fun v kv => url.Values.append v kv.1 [kv.2]) acc.1, acc.2) := by
  induction pairs generalizing acc with
  | nil => rfl
  | cons kv pairs ih =>
    simp only [List.map_cons, List.foldl_cons]
    rw [parseQueryStep_pair, ih]

theorem ParseQuery_pairs (pairs : List (GoString × GoString)) :
    url.ParseQuery ([byte '&'].intercalate
        (pairs.map (fun kv => url.QueryEscape kv.1 ++ byte '=' :: url.QueryEscape kv.2))) =
      (pairs.foldl (fun v kv => url.Values.append v kv.1 [kv.2]) [], none) := by
  unfold url.ParseQuery
  cases pairs with
  | nil =>
    simp [List.intercalate, url.parseQueryStep]
  | cons kv pairs =>
    rw [splitOnP_intercalate _ (byte '&') (by decide) _ _ (by simp), parseQueryStep_pairs]
    intro piece hpiece c hc
    simp only [List.mem_map] at hpiece
    obtain ⟨kv', -, rfl⟩ := hpiece
    have h1 : byte '=' ≠ byte '&' ∧ byte '=' ≠ byte ';' := by decide
    rcases List.mem_append.1 hc with hc | hc
    · have := QueryEscape_no_separator kv'.1 c hc
      simp [this.1, this.2.1]
    · rcases List.mem_cons.1 hc with rfl | hc
      · simp [h1.1, h1.2]
      · have := QueryEscape_no_separator kv'.2 c hc
        simp [this.1, this.2.1]

theorem Values_get_append (v : url.Values) (key : GoString) (vals : List GoString)
    (k : GoString) :
    (v.append key vals).get k = if k = key then v.get k ++ vals else v.get k := by
  induction v with
  | nil =>
    by_cases hk : k = key
    · simp [url.Values.append, url.Values.get, List.lookup, hk]
    · have : (k == key) = false := by simpa using hk
      simp [url.Values.append, url.Values.get, List.lookup, hk, this]
  | cons kv v ih =>
    obtain ⟨k0, vs⟩ := kv
    unfold url.Values.append
    by_cases h0 : k0 = key
    · rw [if_pos h0]
      by_cases hk : k = key
      · have : (k == k0) = true := by simp [hk, h0]
        simp [url.Values.get, List.lookup, hk, h0]
      · have : (k == k0) = false := by simp [h0, hk]
        simp [url.Values.get, List.lookup, hk, this]
    · rw [if_neg h0]
      by_cases hk0 : k = k0
      · have hne : ¬ k = key := fun h => h0 (hk0 ▸ h)
        have : (k == k0) = true := by simp [hk0]
        simp [url.Values.get, List.lookup, this, hne]
      · have : (k == k0) = false := by simpa using hk0
        simp only [url.Values.get, List.lookup, this] at ih ⊢
        exact ih

theorem Values_keys_append (v : url.Values) (key : GoString) (vals : List GoString) :
    (v.append key vals).map Prod.fst =
      if key ∈ v.map Prod.fst then v.map Prod.fst else v.map Prod.fst ++ [key] := by
  induction v with
  | nil => simp [url.Values.append]
  | cons kv v ih =>
    obtain ⟨k0, vs⟩ := kv
    unfold url.Values.append
    by_cases h0 : k0 = key
    · simp [h0]
    · rw [if_neg h0]
      have hne : ¬ key = k0 := fun h => h0 h.symm
      simp only [List.map_cons, ih, List.mem_cons, hne, false_or]
      split <;> simp

theorem Values_has_iff (v : url.Values) (key : GoString) :
    v.has key = true ↔ key ∈ v.map Prod.fst := by
  induction v with
  | nil => simp [url.Values.has, List.lookup]
  | cons kv v ih =>
    obtain ⟨k0, vs⟩ := kv
    by_cases hk : key = k0
    · have : (key == k0) = true := by simp [hk]
      simp [url.Values.has, List.lookup, this, hk]
    · have : (key == k0) = false := by simpa using hk
      simp only [url.Values.has, List.lookup, this, List.map_cons, List.mem_cons, hk,
        false_or] at ih ⊢
      exact ih

theorem Values_get_of_not_mem (v : url.Values) (key : GoString)
    (h : key ∉ v.map Prod.fst) : v.get key = [] := by
  have hhas : v.has key = false := by
    rw [← Bool.not_eq_true, Values_has_iff]; exact h
  unfold url.Values.has at hhas
  unfold url.Values.get
  cases hl : List.lookup key v with
  | none => rfl
  | some vs => simp [hl] at hhas

theorem Values_append_nodup (v : url.Values) (key : GoString) (vals : List GoString)
    (h : (v.map Prod.fst).Nodup) : ((v.append key vals).map Prod.fst).Nodup := by
  rw [Values_keys_append]
  split
  · exact h
  · rename_i hmem
    exact List.Nodup.append h (List.nodup_singleton _) (by simpa using hmem)

theorem parseQueryStep_nodup (acc : url.Values × Option Error) (piece : GoString)
    (h : (acc.1.map Prod.fst).Nodup) :
    ((url.parseQueryStep acc piece).1.map Prod.fst).Nodup := by
  unfold url.parseQueryStep
  split
  · exact h
  · simp only
    split
    · exact h
    · split
      · exact h
      · exact Values_append_nodup _ _ _ h

theorem ParseQuery_nodup (query : GoString) : ((url.ParseQuery query).1.map Prod.fst).Nodup := by
  unfold url.ParseQuery
  generalize query.splitOnP (fun c => c == byte '&' || c == byte ';') = pieces
  have hgen : ∀ acc : url.Values × Option Error, (acc.1.map Prod.fst).Nodup →
      ((pieces.foldl url.parseQueryStep acc).1.map Prod.fst).Nodup := by
    induction pieces with
    | nil => intro acc h; exact h
    | cons piece pieces ih =>
      intro acc h
      exact ih _ (parseQueryStep_nodup acc piece h)
  exact hgen _ (by simp)

theorem Values_keys_del (v : url.Values) (key : GoString) :
    (v.del key).map Prod.fst = (v.map Prod.fst).filter (fun k => k ≠ key) := by
  unfold url.Values.del
  rw [List.filter_map]
  rfl

theorem lookup_cons_ne (k k0 : GoString) (vs : List GoString) (v : url.Values) (h : k ≠ k0) :
    List.lookup k ((k0, vs) :: v) = List.lookup k v := by
  have : (k == k0) = false := by simpa using h
  simp [List.lookup, this]

theorem lookup_cons_self (k : GoString) (vs : List GoString) (v : url.Values) :
    List.lookup k ((k, vs) :: v) = some vs := by
  simp [List.lookup]

theorem Values_get_del (v : url.Values) (key k : GoString) (hk : k ≠ key) :
    (v.del key).get k = v.get k := by
  induction v with
  | nil => rfl
  | cons kv v ih =>
    obtain ⟨k0, vs⟩ := kv
    unfold url.Values.del url.Values.get at ih ⊢
    by_cases h0 : k0 = key
    · subst h0
      rw [lookup_cons_ne k k0 vs v hk, ← ih]
      simp [List.filter]
    · have hfil : List.filter (fun kv => decide (kv.1 ≠ key)) ((k0, vs) :: v) =
          (k0, vs) :: List.filter (fun kv => decide (kv.1 ≠ key)) v := by
        simp [List.filter, h0]
      rw [hfil]
      by_cases hkk : k = k0
      · subst hkk
        rw [lookup_cons_self, lookup_cons_self]
      · rw [lookup_cons_ne k k0 vs _ hkk, lookup_cons_ne k k0 vs _ hkk, ih]

theorem Values_get_foldl (pairs : List (GoString × GoString)) (acc : url.Values)
    (k : GoString) :
    (pairs.foldl (fun v kv => url.Values.append v kv.1 [kv.2]) acc).get k =
      acc.get k ++ (pairs.filter (fun kv => kv.1 = k)).map Prod.snd := by
  induction pairs generalizing acc with
  | nil => simp
  | cons kv pairs ih =>
    rw [List.foldl_cons, ih, Values_get_append]
    by_cases hk : k = kv.1
    · simp [List.filter, hk]
    · have hk' : ¬ kv.1 = k := fun h => hk h.symm
      simp [List.filter, hk, hk']

theorem Values_keys_foldl (pairs : List (GoString × GoString)) (acc : url.Values)
    (k : GoString) :
    k ∈ (pairs.foldl (fun v kv => url.Values.append v kv.1 [kv.2]) acc).map Prod.fst ↔
      k ∈ acc.map Prod.fst ∨ k ∈ pairs.map Prod.fst := by
  induction pairs generalizing acc with
  | nil => simp
  | cons kv pairs ih =>
    rw [List.foldl_cons, ih, Values_keys_append]
    by_cases hmem : kv.1 ∈ acc.map Prod.fst
    · rw [if_pos hmem]
      simp only [List.map_cons, List.mem_cons]
      constructor
      · rintro (h | h)
        · exact Or.inl h
        · exact Or.inr (Or.inr h)
      · rintro (h | h | h)
        · exact Or.inl h
        · exact Or.inl (h ▸ hmem)
        · exact Or.inr h
    · rw [if_neg hmem]
      simp only [List.mem_append, List.mem_singleton, List.map_cons, List.mem_cons]
      tauto

theorem pairs_filter (v : url.Values) (keys : List GoString) (hnodup : keys.Nodup)
    (k : GoString) :
    ((keys.flatMap (fun key => (v.get key).map (fun val => (key, val)))).filter
        (fun kv => kv.1 = k)).map Prod.snd =
      if k ∈ keys then v.get k else [] := by
  induction keys with
  | nil => simp
  | cons key keys ih =>
    have hnd := List.nodup_cons.1 hnodup
    rw [List.flatMap_cons, List.filter_append, List.map_append, ih hnd.2]
    by_cases hk : key = k
    · subst hk
      have hfil : List.filter (fun kv : GoString × GoString => decide (kv.1 = key))
          ((v.get key).map (fun val => (key, val))) = (v.get key).map (fun val => (key, val)) := by
        rw [List.filter_eq_self]
        intro kv hkv
        obtain ⟨val, -, rfl⟩ := List.mem_map.1 hkv
        simp
      rw [hfil, if_neg hnd.1]
      simp
    · have hfil : List.filter (fun kv : GoString × GoString => decide (kv.1 = k))
          ((v.get key).map (fun val => (key, val))) = [] := by
        rw [List.filter_eq_nil_iff]
        intro kv hkv
        obtain ⟨val, -, rfl⟩ := List.mem_map.1 hkv
        simpa using hk
      have hk' : ¬ k = key := fun h => hk h.symm
      rw [hfil]
      simp [hk']

theorem Encode_eq_pairs (v : url.Values) :
    v.Encode = [byte '&'].intercalate
      ((((v.map Prod.fst).insertionSort (fun a b => a ≤ b)).flatMap
          (fun key => (v.get key).map (fun val => (key, val)))).map
        (fun kv => url.QueryEscape kv.1 ++ byte '=' :: url.QueryEscape kv.2)) := by
  unfold url.Values.Encode
  simp only [List.map_flatMap, List.map_map]
  rfl

/-- Parsing what `Encode` wrote gives every key its values back, in order, for a
map (no key twice). -/
theorem ParseQuery_Encode (v : url.Values) (hnodup : (v.map Prod.fst).Nodup) :
    (url.ParseQuery v.Encode).2 = none ∧
      (∀ k, (url.ParseQuery v.Encode).1.get k = v.get k) ∧
      (∀ k, (url.ParseQuery v.Encode).1.has k = true → k ∈ v.map Prod.fst) := by
  have hperm := List.perm_insertionSort (fun a b : GoString => a ≤ b) (v.map Prod.fst)
  rw [Encode_eq_pairs, ParseQuery_pairs]
  refine ⟨rfl, ?_, ?_⟩
  · intro k
    rw [Values_get_foldl, pairs_filter v _ (hperm.nodup_iff.2 hnodup)]
    by_cases hk : k ∈ v.map Prod.fst
    · rw [if_pos (hperm.mem_iff.2 hk)]; rfl
    · rw [if_neg (fun h => hk (hperm.mem_iff.1 h)), Values_get_of_not_mem v k hk]; rfl
  · intro k hk
    rw [Values_has_iff, Values_keys_foldl] at hk
    rcases hk with hk | hk
    · simp at hk
    · simp only [List.map_flatMap, List.map_map, List.mem_flatMap, List.mem_map,
        Function.comp] at hk
      obtain ⟨key, hkey, val, -, rfl⟩ := hk
      exact hperm.mem_iff.1 hkey

/-- The query string `saltAuthToken` leaves when it succeeds on a request with a token. -/
theorem saltAuthToken_query (h : Handler) (req req1 req' : http.Request) (remote token0 : GoString)
    (rest : List GoString)
    (hcreds : h.loadCredentials req = .ok (token0 :: rest, req1))
    (hok : h.saltAuthToken req remote = (none, req')) :
    (url.ParseQuery req'.RawQuery).2 = none ∧
      (url.ParseQuery req'.RawQuery).1.has (ascii "api_token") = false ∧
      ∀ key, key ≠ ascii "api_token" →
        (url.ParseQuery req'.RawQuery).1.get key = (url.ParseQuery req.RawQuery).1.get key := by
  obtain ⟨-, hquery, -, -⟩ := loadCredentials_keeps h req req1 _ hcreds
  unfold Handler.saltAuthToken at hok
  simp only [hcreds] at hok
  cases hs : h.saltFirstToken req1 token0 remote with
  | error err => simp [hs] at hok
  | ok token =>
    simp only [hs] at hok
    cases hp : url.ParseQuery req1.RawQuery with
    | mk values perr =>
      simp only [hp] at hok
      cases perr with
      | some err => simp at hok
      | none =>
        simp only at hok
        by_cases hhas : values.has (ascii "api_token") = true
        · rw [if_pos hhas] at hok
          simp only [Prod.mk.injEq, true_and] at hok
          subst hok
          simp only
          have hnodup : ((values.del (ascii "api_token")).map Prod.fst).Nodup := by
            rw [Values_keys_del]
            have := ParseQuery_nodup req1.RawQuery
            rw [hp] at this
            exact this.filter _
          obtain ⟨h1, h2, h3⟩ := ParseQuery_Encode _ hnodup
          refine ⟨h1, ?_, ?_⟩
          · rw [← Bool.not_eq_true]
            intro hh
            have := h3 _ hh
            rw [Values_keys_del] at this
            simp at this
          · intro key hkey
            rw [h2, Values_get_del _ _ _ hkey, ← hquery, hp]
        · rw [if_neg hhas] at hok
          simp only [Prod.mk.injEq, true_and] at hok
          subst hok
          simp only
          rw [← hquery, hp]
          exact ⟨rfl, by simpa using hhas, fun _ _ => rfl⟩

/-- C9: when `remoteClusterRequest` forwards a request that carries a credential
(so `saltAuthToken` succeeded on it), the query string of the forwarded URL
parses, has no `api_token` parameter, and gives every other key exactly the
values, in the order, that the inbound query string gives it. -/
theorem remoteClusterRequest_strips_api_token (h : Handler) (remoteID : GoString)
    (req req1 req' : http.Request) (filter filter' : Option ResponseFilter)
    (urlOut : url.URL) (insecure : Bool) (token0 : GoString) (rest : List GoString)
    (hcreds : h.loadCredentials req = .ok (token0 :: rest, req1))
    (hproxy : h.remoteClusterRequest remoteID req filter =
      (Outcome.proxy urlOut insecure filter', req')) :
    (url.ParseQuery urlOut.RawQuery).2 = none ∧
      (url.ParseQuery urlOut.RawQuery).1.has (ascii "api_token") = false ∧
      ∀ key, key ≠ ascii "api_token" →
        (url.ParseQuery urlOut.RawQuery).1.get key =
          (url.ParseQuery req.RawQuery).1.get key := by
  unfold Handler.remoteClusterRequest at hproxy
  split at hproxy
  · simp at hproxy
  · simp only at hproxy
    cases hs : h.saltAuthToken req remoteID with
    | mk err req2 =>
      rw [hs] at hproxy
      cases err with
      | some err => simp at hproxy
      | none =>
        simp only [Prod.mk.injEq, Outcome.proxy.injEq] at hproxy
        obtain ⟨⟨hurl, -, -⟩, -⟩ := hproxy
        rw [← hurl]
        exact saltAuthToken_query h req req1 req2 remoteID token0 rest hcreds hs

set_option maxRecDepth 100000 in
theorem remoteClusterRequest_strips_api_token_witness :
    (url.ParseQuery (ascii "a=b&x=1")).2 = none ∧
      (url.ParseQuery (ascii "a=b&x=1")).1.has (ascii "api_token") = false ∧
      ∀ key, key ≠ ascii "api_token" →
        (url.ParseQuery (ascii "a=b&x=1")).1.get key =
          (url.ParseQuery
            (ascii "x=1&api_token=3kg6k6lzmp9kj5cpkcoxie963cmvjahbt2fod9zru30k1jqdmi&a=b")).1.get
            key :=
  remoteClusterRequest_strips_api_token exampleHandler (ascii "zmock")
    (getRequest (ascii "/arvados/v1/workflows/zmock-7fd4e-cu0ln0wcb3qo4ru")
      (ascii "x=1&api_token=3kg6k6lzmp9kj5cpkcoxie963cmvjahbt2fod9zru30k1jqdmi&a=b") [])
    (getRequest (ascii "/arvados/v1/workflows/zmock-7fd4e-cu0ln0wcb3qo4ru")
      (ascii "x=1&api_token=3kg6k6lzmp9kj5cpkcoxie963cmvjahbt2fod9zru30k1jqdmi&a=b") [])
    (getRequest (ascii "/arvados/v1/workflows/zmock-7fd4e-cu0ln0wcb3qo4ru") (ascii "a=b&x=1")
      (ascii "Bearer v2/zhome-gj3su-077z32aux8dg2s1/7fd31b61f39c0e82a4155592163218272cedacdc"))
    none none
    { Scheme := ascii "http", Host := ascii "zmock.example",
      Path := ascii "/arvados/v1/workflows/zmock-7fd4e-cu0ln0wcb3qo4ru", RawPath := [],
      RawQuery := ascii "a=b&x=1" }
    false (ascii "3kg6k6lzmp9kj5cpkcoxie963cmvjahbt2fod9zru30k1jqdmi") [] (by decide) (by decide)


/-! ## Invalid streams -/

theorem rewriteLine_short (re : GoString → Option keepclient.SignedLocatorMatch)
    (clusterID : GoString) (w : manifestWriter) (line : GoString)
    (h : (strings.Split line (byte ' ')).length < 3) :
    rewriteLine re clusterID w line = .error (Error.invalidStream line) := by
  unfold rewriteLine
  simp only
  rw [if_pos h]

theorem rewriteLine_error (re : GoString → Option keepclient.SignedLocatorMatch)
    (clusterID : GoString) (w : manifestWriter) (line : GoString) (e : Error)
    (h : rewriteLine re clusterID w line = .error e) :
    e = Error.invalidStream line ∧ (strings.Split line (byte ' ')).length < 3 := by
  unfold rewriteLine at h
  simp only at h
  split at h
  · rename_i hlt
    cases h
    exact ⟨rfl, hlt⟩
  · cases h

/-- A scan over lines of which one has fewer than three tokens stops with the
invalid-stream error of the first such line. -/
theorem rewriteLine_foldlM_invalid (re : GoString → Option keepclient.SignedLocatorMatch)
    (clusterID : GoString) (lines : List GoString) (w : manifestWriter)
    (h : ∃ line ∈ lines, (strings.Split line (byte ' ')).length < 3) :
    ∃ line ∈ lines, (strings.Split line (byte ' ')).length < 3 ∧
      lines.foldlM (rewriteLine re clusterID) w = .error (Error.invalidStream line) := by
  induction lines generalizing w with
  | nil => simp at h
  | cons l lines ih =>
    rw [List.foldlM_cons]
    by_cases hl : (strings.Split l (byte ' ')).length < 3
    · refine ⟨l, List.mem_cons_self _ _, hl, ?_⟩
      rw [rewriteLine_short re clusterID w l hl]
      rfl
    · cases h1 : rewriteLine re clusterID w l with
      | error e => exact absurd (rewriteLine_error re clusterID w l e h1).2 hl
      | ok w1 =>
        obtain ⟨line, hmem, hlt⟩ := h
        have hrest : ∃ line ∈ lines, (strings.Split line (byte ' ')).length < 3 := by
          rcases List.mem_cons.1 hmem with rfl | hmem
          · exact absurd hlt hl
          · exact ⟨line, hmem, hlt⟩
        obtain ⟨line', hmem', hlt', hfold⟩ := ih w1 hrest
        exact ⟨line', List.mem_cons_of_mem _ hmem', hlt', by simpa [bind, Except.bind] using hfold⟩

/-- Whenever the scanner visits a line with fewer than three tokens,
`rewriteSignatures` on a 200 response that decodes fails with the invalid-stream
error and returns no response, whatever the hashes are. -/
theorem rewriteSignatures_invalid_stream (re : GoString → Option keepclient.SignedLocatorMatch)
    (rw : rewriteSignaturesClusterId) (resp : http.Response CollectionBody)
    (col : arvados.Collection) (hstatus : resp.StatusCode = 200) (hbody : resp.Body = .ok col)
    (h : ∃ line ∈ bufio.scanLines col.ManifestText, (strings.Split line (byte ' ')).length < 3) :
    ∃ line ∈ bufio.scanLines col.ManifestText, (strings.Split line (byte ' ')).length < 3 ∧
      rewriteSignatures re rw (some resp) none = (none, some (Error.invalidStream line)) := by
  obtain ⟨line, hmem, hlt, hfold⟩ := rewriteLine_foldlM_invalid re rw.clusterID _
    { hasher := [], updatedManifest := [], sz := 0 } h
  refine ⟨line, hmem, hlt, ?_⟩
  unfold rewriteSignatures
  simp only [hstatus, ne_eq, not_true_eq_false, if_false, hbody, hfold]

/-- The scanner visits every newline-separated line of a text that has a newline
or is shorter than 1 MiB. -/
theorem scanLines_of_fits (s : GoString) (h : byte '\n' ∈ s ∨ s.length < 1048576) :
    bufio.scanLines s =
      (if (strings.Split s (byte '\n')).getLast? = some [] then
          (strings.Split s (byte '\n')).dropLast
        else strings.Split s (byte '\n')).map bufio.dropCR := by
  unfold bufio.scanLines
  rw [if_neg]
  rintro ⟨h1, h2⟩
  rcases h with h | h
  · exact h1 h
  · omega

theorem scanLines_overlong (n : Nat) (hn : 1048576 ≤ n) (b : Byte) (hb : b ≠ byte '\n') :
    bufio.scanLines (List.replicate n b) = [] := by
  unfold bufio.scanLines
  rw [if_pos]
  refine ⟨?_, by simpa using hn⟩
  intro hmem
  exact hb (List.eq_of_mem_replicate hmem).symm

set_option maxRecDepth 100000 in
theorem md5_empty : hexEncode (md5Sum []) ++ ascii "+" ++ formatInt 0 =
    ascii "d41d8cd98f00b204e9800998ecf8427e+0" := by decide

theorem rewriteSignatures_no_lines (re : GoString → Option keepclient.SignedLocatorMatch)
    (rw : rewriteSignaturesClusterId) (resp : http.Response CollectionBody)
    (col : arvados.Collection) (hstatus : resp.StatusCode = 200) (hbody : resp.Body = .ok col)
    (hlines : bufio.scanLines col.ManifestText = []) (hexpect : rw.expectHash = [])
    (hpdh : col.PortableDataHash = ascii "d41d8cd98f00b204e9800998ecf8427e+0") :
    rewriteSignatures re rw (some resp) none =
      (some { StatusCode := resp.StatusCode, Status := resp.Status,
              Body := .ok { ManifestText := [], PortableDataHash := col.PortableDataHash } },
        none) := by
  unfold rewriteSignatures
  simp only [hstatus, ne_eq, not_true_eq_false, if_false, hbody, hlines, List.foldlM_nil, pure,
    Except.pure, hexpect, false_and, if_true, md5_empty, hpdh]

theorem Split_replicate (n : Nat) (b sep : Byte) (hb : b ≠ sep) :
    strings.Split (List.replicate n b) sep = [List.replicate n b] := by
  unfold strings.Split List.splitOn
  apply List.splitOnP_eq_single
  intro x hx
  have := List.eq_of_mem_replicate hx
  subst this
  simpa using hb

/-- C19 at its failing input: a 200 response whose manifest is one line of 1 MiB
of `a` without newline (a single token) and whose hash is that of the empty
manifest. The scanner stops with `ErrTooLong` before the first line, which the
code does not check: `rewriteSignatures` reports no invalid stream and returns
the response with an empty manifest. -/
theorem rewriteSignatures_overlong_line_accepted :
    (strings.Split (List.replicate 1048576 (byte 'a')) (byte ' ')).length < 3 ∧
    rewriteSignatures keepclient.SignedLocatorRe { clusterID := ascii "zzzzz", expectHash := [] }
        (some { StatusCode := 200, Status := ascii "200 OK",
                Body := .ok { ManifestText := List.replicate 1048576 (byte 'a'),
                              PortableDataHash := ascii "d41d8cd98f00b204e9800998ecf8427e+0" } })
        none =
      (some { StatusCode := 200, Status := ascii "200 OK",
              Body := .ok { ManifestText := [],
                            PortableDataHash := ascii "d41d8cd98f00b204e9800998ecf8427e+0" } },
        none) :=
  ⟨by rw [Split_replicate _ _ _ (by decide)]; exact Nat.lt_of_sub_eq_succ rfl,
    rewriteSignatures_no_lines keepclient.SignedLocatorRe _ _
      { ManifestText := List.replicate 1048576 (byte 'a'),
        PortableDataHash := ascii "d41d8cd98f00b204e9800998ecf8427e+0" }
      rfl rfl (scanLines_overlong 1048576 (le_refl _) (byte 'a') (by decide)) rfl rfl⟩


/-! ## The multi-cluster query engine -/

theorem addQueryItem_foldlM (items : List JSON) (st : GoString × url.Values)
    (hsafe : ∀ i ∈ items, (JSON.uuid? i).isSome = true) :
    items.foldlM addQueryItem st = .ok (bucketUUIDs st (items.filterMap JSON.uuid?)) := by
  induction items generalizing st with
  | nil => rfl
  | cons i items ih =>
    have hi := hsafe i (List.mem_cons_self _ _)
    have hrest := fun st' => ih st' (fun j hj => hsafe j (List.mem_cons_of_mem _ hj))
    cases i with
    | string u =>
      by_cases hlen : 5 ≤ u.length
      · have hstep : addQueryItem st (JSON.string u) = .ok (u.take 5, st.2.append (u.take 5) [u]) := by
          simp only [addQueryItem, addQueryUUID]
          rw [if_neg (by omega)]
        rw [List.foldlM_cons, hstep]
        simp only [bind, Except.bind, hrest, List.filterMap_cons, JSON.uuid?, hlen, if_true,
          bucketUUIDs, List.foldl_cons]
      · simp [JSON.uuid?, hlen] at hi
    | null => simp [JSON.uuid?] at hi
    | bool b => simp [JSON.uuid?] at hi
    | number n => simp [JSON.uuid?] at hi
    | array a => simp [JSON.uuid?] at hi
    | object o => simp [JSON.uuid?] at hi

theorem splitFilter_not (st : GoString × url.Values) (f1 : List JSON)
    (h : isUUIDPredicate f1 = false) :
    splitFilter st f1 = .error (MultiClusterResult.notHandled st.1) := by
  unfold splitFilter
  split
  · rename_i lhs op rhs
    split
    · rename_i hlhs
      split
      · rename_i op'
        split
        · rename_i hin
          simp [isUUIDPredicate, hlhs, hin] at h
        · split
          · rename_i heq
            simp [isUUIDPredicate, hlhs, heq] at h
          · rfl
      · rfl
    · rfl
  · rfl

theorem splitFilter_ok (st : GoString × url.Values) (f1 : List JSON)
    (h : isUUIDPredicate f1 = true)
    (hsafe : ∀ i ∈ predicateItems f1, (JSON.uuid? i).isSome = true) :
    splitFilter st f1 = .ok (bucketUUIDs st ((predicateItems f1).filterMap JSON.uuid?)) := by
  unfold isUUIDPredicate at h
  split at h
  · rename_i lhs op rhs
    simp only [Bool.and_eq_true, Bool.or_eq_true, decide_eq_true_eq] at h
    obtain ⟨hlhs, hop⟩ := h
    subst hlhs
    have hne : ascii "=" ≠ ascii "in" := by decide
    rcases hop with hop | hop
    · subst hop
      cases rhs with
      | array items =>
        simp only [predicateItems, if_true] at hsafe ⊢
        simp only [splitFilter, if_true]
        exact addQueryItem_foldlM items st hsafe
      | string u => simp [splitFilter, predicateItems, bucketUUIDs, hne.symm]
      | null => simp [splitFilter, predicateItems, bucketUUIDs]
      | bool b => simp [splitFilter, predicateItems, bucketUUIDs]
      | number n => simp [splitFilter, predicateItems, bucketUUIDs]
      | object o => simp [splitFilter, predicateItems, bucketUUIDs]
    · subst hop
      cases rhs with
      | string u =>
        simp only [predicateItems, if_true, List.mem_singleton, forall_eq] at hsafe
        have hlen : 5 ≤ u.length := by
          by_contra hlt
          simp [JSON.uuid?, hlt] at hsafe
        simp only [splitFilter, if_true, hne, if_false, addQueryUUID, predicateItems,
          List.filterMap_cons, List.filterMap_nil, JSON.uuid?, hlen, bucketUUIDs, List.foldl_cons,
          List.foldl_nil]
        rw [if_neg (by omega)]
      | array items => simp [splitFilter, predicateItems, bucketUUIDs, hne]
      | null => simp [splitFilter, predicateItems, bucketUUIDs, hne]
      | bool b => simp [splitFilter, predicateItems, bucketUUIDs, hne]
      | number n => simp [splitFilter, predicateItems, bucketUUIDs, hne]
      | object o => simp [splitFilter, predicateItems, bucketUUIDs, hne]
  · cases h

theorem bucketUUIDs_append (st : GoString × url.Values) (a b : List GoString) :
    bucketUUIDs (bucketUUIDs st a) b = bucketUUIDs st (a ++ b) := by
  simp [bucketUUIDs, List.foldl_append]

theorem splitFilter_foldlM_ok (filters : List (List JSON)) (st : GoString × url.Values)
    (hall : ∀ f1 ∈ filters, isUUIDPredicate f1 = true)
    (hsafe : ∀ f1 ∈ filters, ∀ i ∈ predicateItems f1, (JSON.uuid? i).isSome = true) :
    filters.foldlM splitFilter st = .ok (bucketUUIDs st (requestedUUIDs filters)) := by
  induction filters generalizing st with
  | nil => rfl
  | cons f1 filters ih =>
    rw [List.foldlM_cons, splitFilter_ok st f1 (hall f1 (List.mem_cons_self _ _))
      (hsafe f1 (List.mem_cons_self _ _))]
    simp only [bind, Except.bind]
    rw [ih _ (fun f hf => hall f (List.mem_cons_of_mem _ hf))
      (fun f hf => hsafe f (List.mem_cons_of_mem _ hf)), bucketUUIDs_append]
    simp [requestedUUIDs]

theorem splitFilter_foldlM_not (filters : List (List JSON)) (st : GoString × url.Values)
    (hsome : ∃ f1 ∈ filters, isUUIDPredicate f1 = false)
    (hsafe : ∀ f1 ∈ filters, ∀ i ∈ predicateItems f1, (JSON.uuid? i).isSome = true) :
    ∃ clusterId, filters.foldlM splitFilter st = .error (MultiClusterResult.notHandled clusterId) := by
  induction filters generalizing st with
  | nil => simp at hsome
  | cons f1 filters ih =>
    rw [List.foldlM_cons]
    by_cases hf : isUUIDPredicate f1 = true
    · rw [splitFilter_ok st f1 hf (hsafe f1 (List.mem_cons_self _ _))]
      simp only [bind, Except.bind]
      apply ih _ _ (fun f hf => hsafe f (List.mem_cons_of_mem _ hf))
      obtain ⟨f, hmem, hnot⟩ := hsome
      rcases List.mem_cons.1 hmem with rfl | hmem
      · rw [hf] at hnot; cases hnot
      · exact ⟨f, hmem, hnot⟩
    · rw [splitFilter_not st f1 (by simpa using hf)]
      exact ⟨st.1, rfl⟩

theorem bucketUUIDs_values (st : GoString × url.Values) (uuids : List GoString) :
    (bucketUUIDs st uuids).2 =
      (uuids.map (fun u => (u.take 5, u))).foldl (fun v kv => url.Values.append v kv.1 [kv.2])
        st.2 := by
  induction uuids generalizing st with
  | nil => rfl
  | cons u uuids ih =>
    simp only [bucketUUIDs, List.foldl_cons, List.map_cons] at ih ⊢
    rw [ih]

theorem foldl_append_nodup (pairs : List (GoString × GoString)) (acc : url.Values)
    (h : (acc.map Prod.fst).Nodup) :
    ((pairs.foldl (fun v kv => url.Values.append v kv.1 [kv.2]) acc).map Prod.fst).Nodup := by
  induction pairs generalizing acc with
  | nil => exact h
  | cons kv pairs ih => exact ih _ (Values_append_nodup acc kv.1 [kv.2] h)

/-- The buckets: no cluster twice, a bucket for exactly the prefixes of the uuids,
and in the bucket of a prefix the uuids that have it, in order. -/
theorem bucketUUIDs_spec (clusterId : GoString) (uuids : List GoString) :
    (((bucketUUIDs (clusterId, []) uuids).2).map Prod.fst).Nodup ∧
      (∀ k, k ∈ ((bucketUUIDs (clusterId, []) uuids).2).map Prod.fst ↔
        k ∈ uuids.map (fun u => u.take 5)) ∧
      (∀ k, ((bucketUUIDs (clusterId, []) uuids).2).get k =
        uuids.filter (fun u => u.take 5 = k)) := by
  rw [bucketUUIDs_values]
  refine ⟨foldl_append_nodup _ _ (by simp), ?_, ?_⟩
  · intro k
    rw [Values_keys_foldl]
    simp [List.map_map, Function.comp]
  · intro k
    rw [Values_get_foldl]
    simp only [url.Values.get, List.filter_map, List.map_map, List.filter_nil, List.map_nil,
      List.flatten_nil, List.find?_nil, List.nil_append]
    exact List.map_id _

theorem nodup_length_two (l : List GoString) (h : l.Nodup) :
    1 < l.length ↔ ∃ a ∈ l, ∃ b ∈ l, a ≠ b := by
  constructor
  · intro hlen
    match l, h, hlen with
    | a :: b :: rest, h, _ =>
      refine ⟨a, by simp, b, by simp, ?_⟩
      intro hab
      subst hab
      simp at h
  · rintro ⟨a, ha, b, hb, hab⟩
    match l, ha, hb with
    | [x], ha, hb =>
      simp only [List.mem_singleton] at ha hb
      exact absurd (ha.trans hb.symm) hab
    | x :: y :: rest, _, _ => simp

/-- More than one bucket means uuids of two different prefixes. -/
theorem bucketUUIDs_length (clusterId : GoString) (uuids : List GoString) :
    1 < ((bucketUUIDs (clusterId, []) uuids).2).length ↔
      ∃ u ∈ uuids, ∃ v ∈ uuids, u.take 5 ≠ v.take 5 := by
  obtain ⟨hnodup, hkeys, -⟩ := bucketUUIDs_spec clusterId uuids
  have hlen : ((bucketUUIDs (clusterId, []) uuids).2).length =
      (((bucketUUIDs (clusterId, []) uuids).2).map Prod.fst).length := by simp
  rw [hlen, nodup_length_two _ hnodup]
  constructor
  · rintro ⟨a, ha, b, hb, hab⟩
    obtain ⟨u, hu, rfl⟩ := List.mem_map.1 ((hkeys a).1 ha)
    obtain ⟨v, hv, rfl⟩ := List.mem_map.1 ((hkeys b).1 hb)
    exact ⟨u, hu, v, hv, hab⟩
  · rintro ⟨u, hu, v, hv, huv⟩
    exact ⟨_, (hkeys _).2 (List.mem_map.2 ⟨u, hu, rfl⟩), _,
      (hkeys _).2 (List.mem_map.2 ⟨v, hv, rfl⟩), huv⟩

/-- How `handleMultiClusterQuery` ends on predicates none of whose items makes it
panic: it reports handled exactly when every predicate is a `uuid` predicate with
`=` or `in` and the uuids have two different prefixes, and otherwise returns
`false` with the request untouched. -/
theorem handleMultiClusterQuery_handled_iff (h : genericFederatedRequestHandler)
    (req : http.Request) (params : url.Values) (clusterId : GoString)
    (filters : List (List JSON))
    (hparse : h.Unmarshal ((params.get (ascii "filters")).getD 0 []) = .ok filters)
    (hsafe : ∀ f1 ∈ filters, ∀ i ∈ predicateItems f1, (JSON.uuid? i).isSome = true) :
    ((∃ outcome, (h.handleMultiClusterQuery req params clusterId).1 =
          MultiClusterResult.handled outcome) ↔
        (∀ f1 ∈ filters, isUUIDPredicate f1 = true) ∧
          ∃ u ∈ requestedUUIDs filters, ∃ v ∈ requestedUUIDs filters, u.take 5 ≠ v.take 5) ∧
      ((¬ ∃ outcome, (h.handleMultiClusterQuery req params clusterId).1 =
          MultiClusterResult.handled outcome) →
        ∃ clusterId1, h.handleMultiClusterQuery req params clusterId =
          (MultiClusterResult.notHandled clusterId1, req)) := by
  unfold genericFederatedRequestHandler.handleMultiClusterQuery
  rw [hparse]
  simp only []
  by_cases hall : ∀ f1 ∈ filters, isUUIDPredicate f1 = true
  · rw [splitFilter_foldlM_ok filters _ hall hsafe]
    simp only []
    have hlen := bucketUUIDs_length clusterId (requestedUUIDs filters)
    by_cases hspan : 1 < ((bucketUUIDs (clusterId, []) (requestedUUIDs filters)).2).length
    · rw [if_neg (by omega)]
      refine ⟨⟨fun _ => ⟨hall, hlen.1 hspan⟩, fun _ => ?_⟩, fun hno => absurd ?_ hno⟩ <;>
        split_ifs <;> exact ⟨_, rfl⟩
    · rw [if_pos (by omega)]
      refine ⟨⟨?_, fun hh => absurd (hlen.2 hh.2) hspan⟩, fun _ => ⟨_, rfl⟩⟩
      rintro ⟨outcome, ho⟩
      cases ho
  · have hsome : ∃ f1 ∈ filters, isUUIDPredicate f1 = false := by
      by_contra hcon
      apply hall
      intro f1 hf1
      by_contra hne
      exact hcon ⟨f1, hf1, by simpa using hne⟩
    obtain ⟨clusterId1, hfold⟩ := splitFilter_foldlM_not filters (clusterId, []) hsome hsafe
    rw [hfold]
    simp only []
    refine ⟨⟨?_, fun hh => absurd hh.1 hall⟩, fun _ => ⟨_, rfl⟩⟩
    rintro ⟨outcome, ho⟩
    cases ho

set_option maxRecDepth 100000 in
/-- C13 at its failing input: for `filters=[["uuid","in",["abc"]]]`, a list of one
`uuid`/`in` predicate whose only item is shorter than five bytes, the engine
neither reports handled nor returns `false`: the slice `u[0:5]` panics, in the
call itself and in the request `GET /arvados/v1/workflows?filters=..` served by
the router. -/
theorem handleMultiClusterQuery_short_uuid_panics :
    exampleQueries.handleMultiClusterQuery
        (getRequest (ascii "/arvados/v1/workflows")
          (ascii "filters=[[\"uuid\",\"in\",[\"abc\"]]]") [])
        [(ascii "filters", [ascii "[[\"uuid\",\"in\",[\"abc\"]]]"])] [] =
      (MultiClusterResult.handled Outcome.panic,
        getRequest (ascii "/arvados/v1/workflows")
          (ascii "filters=[[\"uuid\",\"in\",[\"abc\"]]]") []) ∧
    exampleQueries.ServeHTTP
        (getRequest (ascii "/arvados/v1/workflows")
          (ascii "filters=[[\"uuid\",\"in\",[\"abc\"]]]") []) =
      (Outcome.panic,
        getRequest (ascii "/arvados/v1/workflows")
          (ascii "filters=[[\"uuid\",\"in\",[\"abc\"]]]") []) := by
  constructor <;> decide

/-- C14: when the uuids of a federated query fall in more than one bucket, the
engine issues the sub-queries exactly when `count` has one value, `none` or
`"none"`, and `limit`, `offset` and `order` are all absent; when the condition on
`count` fails it answers 400 with the message about `count=none`, whatever the
other three are, and when only the other condition fails it answers 400 with the
message about `limit`, `offset` and `order`; in both cases no sub-query leaves. -/
theorem handleMultiClusterQuery_preconditions (h : genericFederatedRequestHandler)
    (req : http.Request) (params : url.Values) (clusterId clusterId1 : GoString)
    (filters : List (List JSON)) (queryClusters : url.Values)
    (hparse : h.Unmarshal ((params.get (ascii "filters")).getD 0 []) = .ok filters)
    (hsplit : filters.foldlM splitFilter (clusterId, []) = .ok (clusterId1, queryClusters))
    (hspan : 2 ≤ queryClusters.length) :
    ((params.get (ascii "count") = [ascii "none"] ∨
          params.get (ascii "count") = [ascii "\"none\""]) ∧
        params.get (ascii "limit") = [] ∧ params.get (ascii "offset") = [] ∧
        params.get (ascii "order") = [] →
      (h.handleMultiClusterQuery req params clusterId).1 =
        MultiClusterResult.handled (Outcome.multiClusterQuery queryClusters params)) ∧
    (¬ (params.get (ascii "count") = [ascii "none"] ∨
          params.get (ascii "count") = [ascii "\"none\""]) →
      h.handleMultiClusterQuery req params clusterId =
        (MultiClusterResult.handled
          (Outcome.error (ascii "Federated multi-object query must have 'count=none'") 400),
          req)) ∧
    ((params.get (ascii "count") = [ascii "none"] ∨
          params.get (ascii "count") = [ascii "\"none\""]) ∧
        ¬ (params.get (ascii "limit") = [] ∧ params.get (ascii "offset") = [] ∧
          params.get (ascii "order") = []) →
      h.handleMultiClusterQuery req params clusterId =
        (MultiClusterResult.handled
          (Outcome.error
            (ascii "Federated multi-object may not provide 'limit', 'offset' or 'order'.") 400),
          req)) := by
  have hcount : ((params.get (ascii "count")).length = 1 ∧
      ((params.get (ascii "count")).getD 0 [] = ascii "none" ∨
        (params.get (ascii "count")).getD 0 [] = ascii "\"none\"")) ↔
      (params.get (ascii "count") = [ascii "none"] ∨
        params.get (ascii "count") = [ascii "\"none\""]) := by
    generalize params.get (ascii "count") = c
    match c with
    | [] => simp
    | [x] => simp
    | x :: y :: rest => simp
  have hpaging : ((params.get (ascii "limit")).length ≠ 0 ∨
      (params.get (ascii "offset")).length ≠ 0 ∨ (params.get (ascii "order")).length ≠ 0) ↔
      ¬ (params.get (ascii "limit") = [] ∧ params.get (ascii "offset") = [] ∧
          params.get (ascii "order") = []) := by
    simp only [ne_eq, List.length_eq_zero]
    tauto
  unfold genericFederatedRequestHandler.handleMultiClusterQuery
  rw [hparse]
  simp only []
  rw [hsplit]
  simp only []
  rw [if_neg (by omega)]
  refine ⟨fun hh => ?_, fun hh => ?_, fun hh => ?_⟩
  · rw [if_neg (not_not.2 (hcount.2 hh.1)), if_neg (fun hp => hpaging.1 hp hh.2)]
  · rw [if_pos (fun hc => hh (hcount.1 hc))]
  · rw [if_neg (not_not.2 (hcount.2 hh.1)), if_pos (hpaging.2 hh.2)]

set_option maxRecDepth 100000 in
theorem handleMultiClusterQuery_preconditions_witness :
    (exampleQueries.handleMultiClusterQuery
        (getRequest (ascii "/arvados/v1/workflows") [] [])
        [(ascii "filters",
            [ascii "[[\"uuid\",\"in\",[\"zzzzz-7fd4e-aaaaaaaaaaaaaaa\",\"zmock-7fd4e-bbbbbbbbbbbbbbb\"]]]"]),
          (ascii "count", [ascii "none"])] []).1 =
      MultiClusterResult.handled
        (Outcome.multiClusterQuery
          [(ascii "zzzzz", [ascii "zzzzz-7fd4e-aaaaaaaaaaaaaaa"]),
            (ascii "zmock", [ascii "zmock-7fd4e-bbbbbbbbbbbbbbb"])]
          [(ascii "filters",
              [ascii "[[\"uuid\",\"in\",[\"zzzzz-7fd4e-aaaaaaaaaaaaaaa\",\"zmock-7fd4e-bbbbbbbbbbbbbbb\"]]]"]),
            (ascii "count", [ascii "none"])]) :=
  (handleMultiClusterQuery_preconditions exampleQueries
    (getRequest (ascii "/arvados/v1/workflows") [] [])
    [(ascii "filters",
        [ascii "[[\"uuid\",\"in\",[\"zzzzz-7fd4e-aaaaaaaaaaaaaaa\",\"zmock-7fd4e-bbbbbbbbbbbbbbb\"]]]"]),
      (ascii "count", [ascii "none"])]
    [] (ascii "zmock")
    [[JSON.string (ascii "uuid"), JSON.string (ascii "in"),
      JSON.array [JSON.string (ascii "zzzzz-7fd4e-aaaaaaaaaaaaaaa"),
        JSON.string (ascii "zmock-7fd4e-bbbbbbbbbbbbbbb")]]]
    [(ascii "zzzzz", [ascii "zzzzz-7fd4e-aaaaaaaaaaaaaaa"]),
      (ascii "zmock", [ascii "zmock-7fd4e-bbbbbbbbbbbbbbb"])]
    rfl (by decide) (by decide)).1
    ⟨Or.inl (by decide), by decide, by decide, by decide⟩


/-! ## The middleware -/

theorem indexFrom_nonneg (substr pre post : GoString) (i : Nat) :
    0 ≤ strings.indexFrom substr (pre ++ substr ++ post) i := by
  induction pre generalizing i with
  | nil =>
    rw [List.nil_append]
    cases hs : substr ++ post with
    | nil =>
      have hnil : substr = [] := (List.append_eq_nil.1 hs).1
      rw [strings.indexFrom, if_pos hnil]
      exact Int.natCast_nonneg i
    | cons c s =>
      rw [strings.indexFrom, ← hs,
        if_pos (List.isPrefixOf_iff_prefix.2 (List.prefix_append _ _))]
      exact Int.natCast_nonneg i
  | cons a pre ih =>
    rw [List.cons_append, List.cons_append, strings.indexFrom]
    split
    · exact Int.natCast_nonneg i
    · exact ih (i + 1)

theorem indexFrom_infix (substr s : GoString) (i : Nat)
    (h : strings.indexFrom substr s i ≠ -1) : substr <:+: s := by
  induction s generalizing i with
  | nil =>
    rw [strings.indexFrom] at h
    by_cases hs : substr = []
    · rw [hs]
    · rw [if_neg hs] at h
      exact absurd rfl h
  | cons c s ih =>
    rw [strings.indexFrom] at h
    by_cases hp : substr.isPrefixOf (c :: s) = true
    · exact (List.isPrefixOf_iff_prefix.1 hp).isInfix
    · rw [if_neg hp] at h
      exact (ih (i + 1) h).trans (List.suffix_cons c s).isInfix

/-- The test `strings.Index(s, substr) != -1` is the test that `s` contains `substr`. -/
theorem Index_ne_iff (s substr : GoString) :
    strings.Index s substr ≠ -1 ↔ substr <:+: s := by
  constructor
  · exact indexFrom_infix substr s 0
  · rintro ⟨pre, post, rfl⟩
    have := indexFrom_nonneg substr pre post 0
    unfold strings.Index
    omega

theorem Split_bearer (uuid secret : GoString) (huuid : byte '/' ∉ uuid)
    (hsecret : byte '/' ∉ secret) :
    strings.Split (ascii "Bearer v2/" ++ uuid ++ ascii "/" ++ secret) (byte '/') =
      [ascii "Bearer v2", uuid, secret] := by
  have h : ascii "Bearer v2/" ++ uuid ++ ascii "/" ++ secret =
      ascii "Bearer v2" ++ byte '/' :: (uuid ++ byte '/' :: secret) := by
    have h1 : ascii "Bearer v2/" = ascii "Bearer v2" ++ [byte '/'] := by decide
    have h2 : ascii "/" = [byte '/'] := by decide
    simp [h1, h2]
  rw [h]
  exact Split_three _ _ _ _ (by decide) huuid hsecret

theorem setupProxyRemoteCluster_of_salted (h : Handler)
    (mux : http.Request → Outcome × http.Request) (req : http.Request) (uuid secret : GoString)
    (hauth : req.Authorization = ascii "Bearer v2/" ++ uuid ++ ascii "/" ++ secret)
    (huuid : byte '/' ∉ uuid) (hsecret : byte '/' ∉ secret) (hlen : secret.length = 40) :
    h.setupProxyRemoteCluster mux req = (Outcome.next, req) := by
  unfold Handler.setupProxyRemoteCluster
  simp only []
  rw [hauth, Split_bearer uuid secret huuid hsecret]
  exact if_pos (Or.inl ⟨rfl, rfl, hlen⟩)

theorem setupProxyRemoteCluster_of_via (h : Handler)
    (mux : http.Request → Outcome × http.Request) (req : http.Request)
    (hvia : ascii "arvados-controller" <:+: req.Via) :
    h.setupProxyRemoteCluster mux req = (Outcome.next, req) := by
  unfold Handler.setupProxyRemoteCluster
  simp only []
  exact if_pos (Or.inr ((Index_ne_iff _ _).2 hvia))

/-- C11: a request, on any path, whose `Authorization` header is
`Bearer v2/<uuid>/<secret>` with exactly three parts between `/` and a secret of
40 bytes, or whose `Via` header contains `arvados-controller`, is handed to the
next handler by the middleware, unchanged. This holds whatever `mux.ServeHTTP`
would do with it: the mux and with it the federation handlers are not run, so no
request leaves for a remote. -/
theorem setupProxyRemoteCluster_bypasses (h : Handler)
    (mux : http.Request → Outcome × http.Request) (req : http.Request)
    (hreq : (∃ uuid secret, req.Authorization = ascii "Bearer v2/" ++ uuid ++ ascii "/" ++ secret ∧
        byte '/' ∉ uuid ∧ byte '/' ∉ secret ∧ secret.length = 40) ∨
      ascii "arvados-controller" <:+: req.Via) :
    h.setupProxyRemoteCluster mux req = (Outcome.next, req) := by
  rcases hreq with ⟨uuid, secret, hauth, huuid, hsecret, hlen⟩ | hvia
  · exact setupProxyRemoteCluster_of_salted h mux req uuid secret hauth huuid hsecret hlen
  · exact setupProxyRemoteCluster_of_via h mux req hvia

set_option maxRecDepth 100000 in
theorem setupProxyRemoteCluster_bypasses_witness :
    exampleHandler.federation exampleUnmarshal
        (getRequest (ascii "/arvados/v1/workflows/zzzzz-7fd4e-cu0ln0wcb3qo4ru") []
          (ascii "Bearer v2/zhome-gj3su-077z32aux8dg2s1/282d7d172b6cfdce364c5ed12ddf7417b2d2cbbf")) =
      (Outcome.next,
        getRequest (ascii "/arvados/v1/workflows/zzzzz-7fd4e-cu0ln0wcb3qo4ru") []
          (ascii "Bearer v2/zhome-gj3su-077z32aux8dg2s1/282d7d172b6cfdce364c5ed12ddf7417b2d2cbbf")) :=
  setupProxyRemoteCluster_bypasses exampleHandler (exampleHandler.muxServeHTTP exampleUnmarshal) _
    (Or.inl ⟨ascii "zhome-gj3su-077z32aux8dg2s1", ascii "282d7d172b6cfdce364c5ed12ddf7417b2d2cbbf",
      by decide, by decide, by decide, by decide⟩)

theorem collection_not_get (h : Handler) (req : http.Request) (hmethod : req.Method ≠ ascii "GET") :
    collectionFederatedRequestHandler.ServeHTTP h req = (Outcome.next, req) := by
  unfold collectionFederatedRequestHandler.ServeHTTP
  rw [if_pos hmethod]

theorem Split_two (a b : GoString) (sep : Byte) (ha : sep ∉ a) (hb : sep ∉ b) :
    strings.Split (a ++ sep :: b) sep = [a, b] := by
  have h : ([sep].intercalate [a, b]).splitOn sep = [a, b] :=
    List.splitOn_intercalate [a, b] sep
      (by simp only [List.mem_cons, List.mem_singleton, List.not_mem_nil, or_false]
          rintro l (rfl | rfl) <;> assumption) (by simp)
  simpa [strings.Split, List.intercalate] using h

theorem not_mem_of_all (p : Byte → Bool) (s : GoString) (b : Byte) (hs : s.all p = true)
    (hb : p b = false) : b ∉ s := by
  intro hmem
  rw [List.all_eq_true] at hs
  rw [hs b hmem] at hb
  cases hb

/-- On a GET for `/arvados/v1/collections/` followed by 32 hexadecimal digits, `+`
and one or more decimal digits, the handler starts the search for that hash. -/
theorem collection_by_pdh (h : Handler) (req : http.Request) (hash size : GoString)
    (hmethod : req.Method = ascii "GET")
    (hpath : req.Path = ascii "/arvados/v1/collections/" ++ (hash ++ byte '+' :: size))
    (hhash : hash.length = 32 ∧ hash.all isXDigit = true)
    (hsize : size ≠ [] ∧ size.all isDigit = true) :
    collectionFederatedRequestHandler.ServeHTTP h req =
      (Outcome.searchFederation (hash ++ byte '+' :: size), req) := by
  have hre : collectionByPDHRe req.Path = some [req.Path, hash ++ byte '+' :: size] := by
    unfold collectionByPDHRe
    simp only []
    rw [hpath, if_pos (List.isPrefixOf_iff_prefix.2 (List.prefix_append _ _)),
      List.drop_left,
      Split_two hash size (byte '+') (not_mem_of_all isXDigit hash _ hhash.2 (by decide))
        (not_mem_of_all isDigit size _ hsize.2 (by decide))]
    simp only [List.dropLast, List.getLastD, List.all_nil]
    rw [if_pos ⟨hhash.1, hhash.2, trivial, hsize.1, hsize.2⟩]
    simp only [List.getLast_singleton, hhash.1, Nat.sub_self, List.drop_zero]
  unfold collectionFederatedRequestHandler.ServeHTTP
  rw [if_neg (not_not.2 hmethod)]
  simp only [hre]
  rfl

set_option maxRecDepth 100000 in
/-- C20 at its failing input: the path
`/arvados/v1/collections/<hash1>+12<hash2>+34` is not `/arvados/v1/collections/`
followed by 32 hexadecimal digits, `+` and decimal digits, and yet a GET for it
starts the search of the federation, in the handler and through the whole
stack; the hash handed to the filters is `<hash2>+34`, not the final path
component. -/
theorem collection_repeated_hash_searched :
    collectionFederatedRequestHandler.ServeHTTP exampleHandler
        (getRequest
          (ascii "/arvados/v1/collections/d41d8cd98f00b204e9800998ecf8427e+12acbd18db4cc2f85cedef654fccc4a4d8+34")
          [] []) =
      (Outcome.searchFederation (ascii "acbd18db4cc2f85cedef654fccc4a4d8+34"),
        getRequest
          (ascii "/arvados/v1/collections/d41d8cd98f00b204e9800998ecf8427e+12acbd18db4cc2f85cedef654fccc4a4d8+34")
          [] []) ∧
    exampleHandler.federation exampleUnmarshal
        (getRequest
          (ascii "/arvados/v1/collections/d41d8cd98f00b204e9800998ecf8427e+12acbd18db4cc2f85cedef654fccc4a4d8+34")
          [] []) =
      (Outcome.searchFederation (ascii "acbd18db4cc2f85cedef654fccc4a4d8+34"),
        getRequest
          (ascii "/arvados/v1/collections/d41d8cd98f00b204e9800998ecf8427e+12acbd18db4cc2f85cedef654fccc4a4d8+34")
          [] []) ∧
    ((ascii "d41d8cd98f00b204e9800998ecf8427e+12acbd18db4cc2f85cedef654fccc4a4d8+34").drop 33).all
      isDigit = false := by
  refine ⟨by decide, by decide, by decide⟩


/-! ## What a successful split tells about the predicates -/

theorem addQueryItem_none (st : GoString × url.Values) (i : JSON)
    (h : (JSON.uuid? i).isSome = false) :
    addQueryItem st i = .error (MultiClusterResult.handled Outcome.panic) := by
  cases i with
  | string u =>
    have hlen : u.length < 5 := by
      by_contra hge
      simp [JSON.uuid?, Nat.le_of_not_lt hge] at h
    simp only [addQueryItem, addQueryUUID]
    rw [if_pos hlen]
  | null => rfl
  | bool b => rfl
  | number n => rfl
  | array a => rfl
  | object o => rfl

theorem addQueryItem_foldlM_panic (items : List JSON) (st : GoString × url.Values)
    (h : ∃ i ∈ items, (JSON.uuid? i).isSome = false) :
    items.foldlM addQueryItem st = .error (MultiClusterResult.handled Outcome.panic) := by
  induction items generalizing st with
  | nil => simp at h
  | cons i items ih =>
    rw [List.foldlM_cons]
    by_cases hi : (JSON.uuid? i).isSome = true
    · have hone := addQueryItem_foldlM [i] st (by simpa using hi)
      rw [List.foldlM_cons] at hone
      cases hq : addQueryItem st i with
      | error e =>
        rw [hq] at hone
        simp only [bind, Except.bind] at hone
        cases hone
      | ok st1 =>
        simp only [bind, Except.bind]
        apply ih
        obtain ⟨j, hj, hnone⟩ := h
        rcases List.mem_cons.1 hj with rfl | hj
        · rw [hi] at hnone; cases hnone
        · exact ⟨j, hj, hnone⟩
    · rw [addQueryItem_none st i (by simpa using hi)]
      rfl

theorem splitFilter_panic (st : GoString × url.Values) (f1 : List JSON)
    (h : isUUIDPredicate f1 = true)
    (hitem : ∃ i ∈ predicateItems f1, (JSON.uuid? i).isSome = false) :
    splitFilter st f1 = .error (MultiClusterResult.handled Outcome.panic) := by
  unfold isUUIDPredicate at h
  split at h
  · rename_i lhs op rhs
    simp only [Bool.and_eq_true, Bool.or_eq_true, decide_eq_true_eq] at h
    obtain ⟨hlhs, hop⟩ := h
    subst hlhs
    have hne : ascii "=" ≠ ascii "in" := by decide
    rcases hop with hop | hop
    · subst hop
      cases rhs with
      | array items =>
        simp only [predicateItems, if_true] at hitem
        simp only [splitFilter, if_true]
        exact addQueryItem_foldlM_panic items st hitem
      | string u => simp [predicateItems, hne.symm] at hitem
      | null => simp [predicateItems] at hitem
      | bool b => simp [predicateItems] at hitem
      | number n => simp [predicateItems] at hitem
      | object o => simp [predicateItems] at hitem
    · subst hop
      cases rhs with
      | string u =>
        simp only [predicateItems, if_true, List.mem_singleton, exists_eq_left] at hitem
        have hstep := addQueryItem_none st (JSON.string u) hitem
        simp only [addQueryItem] at hstep
        simp only [splitFilter, if_true, hne, if_false]
        exact hstep
      | array items => simp [predicateItems, hne] at hitem
      | null => simp [predicateItems] at hitem
      | bool b => simp [predicateItems] at hitem
      | number n => simp [predicateItems] at hitem
      | object o => simp [predicateItems] at hitem
  · cases h

/-- A split that succeeds saw only `uuid` predicates whose items are strings of
five bytes or more, and its buckets are those of the requested uuids. -/
theorem splitFilter_foldlM_inv (filters : List (List JSON)) (st st1 : GoString × url.Values)
    (hsplit : filters.foldlM splitFilter st = .ok st1) :
    st1 = bucketUUIDs st (requestedUUIDs filters) := by
  have hall : ∀ f1 ∈ filters, isUUIDPredicate f1 = true := by
    by_contra hcon
    have hsome : ∃ f1 ∈ filters, isUUIDPredicate f1 = false := by
      by_contra hno
      apply hcon
      intro f1 hf1
      by_contra hne
      exact hno ⟨f1, hf1, by simpa using hne⟩
    clear hcon
    induction filters generalizing st with
    | nil => simp at hsome
    | cons f1 filters ih =>
      rw [List.foldlM_cons] at hsplit
      cases hstep : splitFilter st f1 with
      | error e => rw [hstep] at hsplit; cases hsplit
      | ok st2 =>
        rw [hstep] at hsplit
        obtain ⟨f, hmem, hnot⟩ := hsome
        rcases List.mem_cons.1 hmem with rfl | hmem
        · rw [splitFilter_not st f hnot] at hstep
          cases hstep
        · exact ih st2 hsplit ⟨f, hmem, hnot⟩
  have hsafe : ∀ f1 ∈ filters, ∀ i ∈ predicateItems f1, (JSON.uuid? i).isSome = true := by
    by_contra hcon
    have hsome : ∃ f1 ∈ filters, ∃ i ∈ predicateItems f1, (JSON.uuid? i).isSome = false := by
      by_contra hno
      apply hcon
      intro f1 hf1 i hi
      by_contra hne
      exact hno ⟨f1, hf1, i, hi, by simpa using hne⟩
    clear hcon
    induction filters generalizing st with
    | nil => simp at hsome
    | cons f1 filters ih =>
      rw [List.foldlM_cons] at hsplit
      cases hstep : splitFilter st f1 with
      | error e => rw [hstep] at hsplit; cases hsplit
      | ok st2 =>
        rw [hstep] at hsplit
        obtain ⟨f, hmem, hitem⟩ := hsome
        rcases List.mem_cons.1 hmem with rfl | hmem
        · rw [splitFilter_panic st f (hall f (List.mem_cons_self _ _)) hitem] at hstep
          cases hstep
        · exact ih st2 hsplit (fun g hg => hall g (List.mem_cons_of_mem _ hg)) ⟨f, hmem, hitem⟩
  have hok := splitFilter_foldlM_ok filters st hall hsafe
  rw [hsplit] at hok
  exact Except.ok.inj hok

/-! ## The response collector -/

theorem responseItems_of_lookup (resp : http.Response ObjectBody)
    (fields : List (GoString × JSON)) (items : List JSON)
    (hbody : resp.Body = .ok fields)
    (hitems : fields.lookup (ascii "items") = some (JSON.array items)) :
    responseItems resp = items := by
  unfold responseItems
  rw [hbody]
  simp only [hitems]

theorem collectResponse_of_itemList (c : multiClusterQueryResponseCollector)
    (resp : http.Response ObjectBody) (h : isItemList resp) :
    ∃ kind, c.collectResponse (some resp) none =
      some ({ responses := c.responses ++ responseItems resp, errors := c.errors, kind := kind },
        (none, none)) := by
  obtain ⟨hstatus, fields, items, kind, hbody, hitems, hkind⟩ := h
  refine ⟨kind, ?_⟩
  rw [responseItems_of_lookup resp fields items hbody hitems]
  unfold multiClusterQueryResponseCollector.collectResponse
  simp only [hbody, hitems, hkind]
  rw [if_neg (not_not.2 hstatus)]

theorem collectResponse_foldlM (rs : List (http.Response ObjectBody))
    (c0 : multiClusterQueryResponseCollector) (h : ∀ r ∈ rs, isItemList r) :
    ∃ c, (rs.map (fun r => ((some r, none) :
          Option (http.Response ObjectBody) × Option Error))).foldlM
        (fun c r => (multiClusterQueryResponseCollector.collectResponse c r.1 r.2).map Prod.fst)
        c0 = some c ∧
      c.responses = c0.responses ++ rs.flatMap responseItems ∧ c.errors = c0.errors := by
  induction rs generalizing c0 with
  | nil => exact ⟨c0, rfl, by simp, rfl⟩
  | cons r rs ih =>
    obtain ⟨kind, hstep⟩ := collectResponse_of_itemList c0 r (h r (List.mem_cons_self _ _))
    obtain ⟨c, hfold, hresp, herr⟩ :=
      ih { responses := c0.responses ++ responseItems r, errors := c0.errors, kind := kind }
        (fun x hx => h x (List.mem_cons_of_mem _ hx))
    refine ⟨c, ?_, ?_, herr⟩
    · rw [List.map_cons, List.foldlM_cons]
      simp only [hstep, Option.map_some', bind, Option.bind]
      exact hfold
    · rw [hresp]
      simp [List.flatMap_cons, List.append_assoc]

/-- The uuids of the items of responses that come from different clusters, each
with uuids of its own bucket only and none twice: no uuid twice, and exactly the
requested uuids that the cluster they belong to returned. -/
theorem served_uuids (uuids : List GoString) (clusterId : GoString)
    (served : List (GoString × List GoString))
    (hkeys : (served.map Prod.fst).Nodup)
    (hnodup : ∀ kr ∈ served, kr.2.Nodup)
    (hbucket : ∀ kr ∈ served, ∀ u ∈ kr.2, u ∈ ((bucketUUIDs (clusterId, []) uuids).2).get kr.1) :
    (served.flatMap Prod.snd).Nodup ∧
      ∀ u, u ∈ served.flatMap Prod.snd ↔
        u ∈ uuids ∧ ∃ kr ∈ served, kr.1 = u.take 5 ∧ u ∈ kr.2 := by
  obtain ⟨-, -, hget⟩ := bucketUUIDs_spec clusterId uuids
  have hmem : ∀ kr ∈ served, ∀ u ∈ kr.2, u ∈ uuids ∧ u.take 5 = kr.1 := by
    intro kr hkr u hu
    have := hbucket kr hkr u hu
    rw [hget, List.mem_filter] at this
    exact ⟨this.1, by simpa using this.2⟩
  constructor
  · rw [List.nodup_flatMap]
    refine ⟨hnodup, ?_⟩
    have hpair : List.Pairwise (fun a b : GoString × List GoString => a.1 ≠ b.1) served :=
      List.pairwise_map.1 hkeys
    refine hpair.imp_of_mem ?_
    intro a b ha hb hab
    show List.Disjoint a.2 b.2
    intro u hua hub
    exact hab ((hmem a ha u hua).2.symm.trans (hmem b hb u hub).2)
  · intro u
    rw [List.mem_flatMap]
    constructor
    · rintro ⟨kr, hkr, hu⟩
      exact ⟨(hmem kr hkr u hu).1, kr, hkr, (hmem kr hkr u hu).2.symm, hu⟩
    · rintro ⟨-, kr, hkr, -, hu⟩
      exact ⟨kr, hkr, hu⟩

/-- C15 fails as stated: a sub-query answered with status 200 and a body that does
not decode contributes no items, and the reply is the error list with status 502. -/
theorem collectResponses_undecodable_body :
    (collectResponses
        [(some { StatusCode := 200, Status := ascii "200 OK",
                 Body := .error (Error.jsonDecode (ascii "unexpected end of JSON input")) },
          none)]).map multiClusterQueryResponseCollector.reply =
      some (multiClusterReply.errors
        [collectedError.decode (Error.jsonDecode (ascii "unexpected end of JSON input"))] 502) :=
  rfl

/-- C15, amended: when every sub-query of a federated query is answered with
status 200 and a body that decodes to an object with a list under `items` and a
string under `kind`, the reply has status 200 and its items are the items of the
sub-responses one after the other in the order of collection. If moreover each
cluster answers once, with objects whose uuids are in its own bucket and no uuid
twice, then no uuid is twice in the reply, and the uuids of the reply are the
requested uuids that the cluster of their prefix returned. -/
theorem collectResponses_concatenates (filters : List (List JSON))
    (clusterId clusterId1 : GoString) (queryClusters : url.Values)
    (served : List (GoString × http.Response ObjectBody)) (uuidOf : JSON → GoString)
    (hsplit : filters.foldlM splitFilter (clusterId, []) = .ok (clusterId1, queryClusters))
    (hserved : ∀ kr ∈ served, isItemList kr.2) :
    ∃ c, collectResponses (served.map (fun kr => (some kr.2, none))) = some c ∧
      c.reply = multiClusterReply.itemList 200 (served.flatMap (fun kr => responseItems kr.2)) c.kind ∧
      ((served.map Prod.fst).Nodup →
        (∀ kr ∈ served, ((responseItems kr.2).map uuidOf).Nodup ∧
          ∀ item ∈ responseItems kr.2, uuidOf item ∈ queryClusters.get kr.1) →
        ((served.flatMap (fun kr => responseItems kr.2)).map uuidOf).Nodup ∧
          ∀ u, u ∈ (served.flatMap (fun kr => responseItems kr.2)).map uuidOf ↔
            u ∈ requestedUUIDs filters ∧
              ∃ kr ∈ served, kr.1 = u.take 5 ∧ u ∈ (responseItems kr.2).map uuidOf) := by
  obtain ⟨c, hfold, hresp, herr⟩ := collectResponse_foldlM (served.map Prod.snd)
    { responses := [], errors := [], kind := [] }
    (by
      intro r hr
      obtain ⟨kr, hkr, rfl⟩ := List.mem_map.1 hr
      exact hserved kr hkr)
  refine ⟨c, ?_, ?_, ?_⟩
  · unfold collectResponses
    rw [← hfold, List.map_map]
    rfl
  · unfold multiClusterQueryResponseCollector.reply
    rw [herr, hresp, if_neg (by simp)]
    simp [List.flatMap_map]
  · intro hkeys hclusters
    have hq := splitFilter_foldlM_inv filters _ _ hsplit
    have hqc : queryClusters = (bucketUUIDs (clusterId, []) (requestedUUIDs filters)).2 := by
      rw [← hq]
    have hs := served_uuids (requestedUUIDs filters) clusterId
      (served.map (fun kr => (kr.1, (responseItems kr.2).map uuidOf)))
      (by simpa [List.map_map, Function.comp] using hkeys)
      (by
        intro kr hkr
        obtain ⟨kr0, hkr0, rfl⟩ := List.mem_map.1 hkr
        exact (hclusters kr0 hkr0).1)
      (by
        intro kr hkr u hu
        obtain ⟨kr0, hkr0, rfl⟩ := List.mem_map.1 hkr
        obtain ⟨item, hitem, rfl⟩ := List.mem_map.1 hu
        rw [← hqc]
        exact (hclusters kr0 hkr0).2 item hitem)
    have hflat : (served.map (fun kr => (kr.1, (responseItems kr.2).map uuidOf))).flatMap Prod.snd =
        (served.flatMap (fun kr => responseItems kr.2)).map uuidOf := by
      rw [List.flatMap_map, List.map_flatMap]
    rw [hflat] at hs
    refine ⟨hs.1, fun u => ?_⟩
    rw [hs.2 u]
    constructor
    · rintro ⟨hu, kr, hkr, hsame, hmem⟩
      obtain ⟨kr0, hkr0, rfl⟩ := List.mem_map.1 hkr
      exact ⟨hu, kr0, hkr0, hsame, hmem⟩
    · rintro ⟨hu, kr0, hkr0, hsame, hmem⟩
      exact ⟨hu, _, List.mem_map.2 ⟨kr0, hkr0, rfl⟩, hsame, hmem⟩

set_option maxRecDepth 100000 in
theorem collectResponses_concatenates_witness :
    ((exampleServed.flatMap (fun kr => responseItems kr.2)).map JSON.uuidField).Nodup ∧
      ∀ u, u ∈ (exampleServed.flatMap (fun kr => responseItems kr.2)).map JSON.uuidField ↔
        u ∈ requestedUUIDs exampleFilters ∧
          ∃ kr ∈ exampleServed, kr.1 = u.take 5 ∧ u ∈ (responseItems kr.2).map JSON.uuidField :=
  (collectResponses_concatenates exampleFilters [] (ascii "zmock")
    [(ascii "zzzzz", [ascii "zzzzz-7fd4e-aaaaaaaaaaaaaaa"]),
      (ascii "zmock", [ascii "zmock-7fd4e-bbbbbbbbbbbbbbb"])]
    exampleServed JSON.uuidField (by decide)
    (by
      intro kr hkr
      rcases List.mem_cons.1 hkr with rfl | hkr
      · exact ⟨rfl, _, _, _, rfl, rfl, rfl⟩
      · rcases List.mem_cons.1 hkr with rfl | hkr
        · exact ⟨rfl, _, _, _, rfl, rfl, rfl⟩
        · cases hkr)).elim
    (fun _ h => h.2.2 (by decide) (by decide))

/-! ### The calls of the collector one by one -/

/-- A call of `collectResponse` that does not panic returns `(nil, nil)`; on a
transport error, a body that does not decode or a status other than 200 it adds
one error and leaves `responses` as they are, and otherwise it adds the items of
the body and leaves `errors` as they are. -/
theorem collectResponse_spec (c c1 : multiClusterQueryResponseCollector)
    (resp : Option (http.Response ObjectBody)) (requestError : Option Error)
    (result : FilterResult ObjectBody)
    (h : c.collectResponse resp requestError = some (c1, result)) :
    result = (none, none) ∧
      ((requestError ≠ none ∨ ∃ r, resp = some r ∧ ((∃ err, r.Body = .error err) ∨ r.StatusCode ≠ 200)) →
        (∃ e, c1.errors = c.errors ++ [e]) ∧ c1.responses = c.responses) ∧
      (requestError = none → (∀ r, resp = some r → (∃ fields, r.Body = .ok fields) ∧ r.StatusCode = 200) →
        c1.errors = c.errors ∧ ∃ r, resp = some r ∧ c1.responses = c.responses ++ responseItems r) := by
  unfold multiClusterQueryResponseCollector.collectResponse at h
  cases requestError with
  | some e =>
    simp only [Option.some.injEq, Prod.mk.injEq] at h
    obtain ⟨rfl, rfl⟩ := h
    exact ⟨rfl, fun _ => ⟨⟨_, rfl⟩, rfl⟩, fun hn => by cases hn⟩
  | none =>
    cases resp with
    | none => cases h
    | some r =>
      simp only at h
      cases hbody : r.Body with
      | error err =>
        rw [hbody] at h
        simp only [Option.some.injEq, Prod.mk.injEq] at h
        obtain ⟨rfl, rfl⟩ := h
        refine ⟨rfl, fun _ => ⟨⟨_, rfl⟩, rfl⟩, fun _ hr => ?_⟩
        obtain ⟨⟨fields, hf⟩, -⟩ := hr r rfl
        rw [hbody] at hf
        cases hf
      | ok fields =>
        rw [hbody] at h
        simp only at h
        by_cases hstatus : r.StatusCode = 200
        · rw [if_neg (not_not.2 hstatus)] at h
          cases hitems : fields.lookup (ascii "items") with
          | none => rw [hitems] at h; cases h
          | some v =>
            rw [hitems] at h
            cases v with
            | array items =>
              simp only at h
              cases hkind : fields.lookup (ascii "kind") with
              | none => rw [hkind] at h; cases h
              | some k =>
                rw [hkind] at h
                cases k with
                | string kind =>
                  simp only [Option.some.injEq, Prod.mk.injEq] at h
                  obtain ⟨rfl, rfl⟩ := h
                  refine ⟨rfl, ?_, fun _ _ => ⟨rfl, r, rfl, ?_⟩⟩
                  · rintro (hne | ⟨r1, hr1, hbad⟩)
                    · exact absurd rfl hne
                    · cases hr1
                      rcases hbad with ⟨err, herr⟩ | hbad
                      · rw [hbody] at herr; cases herr
                      · exact absurd hstatus hbad
                  · rw [responseItems_of_lookup r fields items hbody hitems]
                | null => cases h
                | bool b => cases h
                | number n => cases h
                | array a => cases h
                | object o => cases h
            | null => cases h
            | bool b => cases h
            | number n => cases h
            | string s => cases h
            | object o => cases h
        · rw [if_pos hstatus] at h
          simp only [Option.some.injEq, Prod.mk.injEq] at h
          obtain ⟨rfl, rfl⟩ := h
          exact ⟨rfl, fun _ => ⟨⟨_, rfl⟩, rfl⟩, fun _ hr => absurd (hr r rfl).2 hstatus⟩

/-- The reply is the error list with status 502, one string an error collected and
no items, exactly when an error was collected, and the items with status 200
otherwise. -/
theorem reply_spec (c : multiClusterQueryResponseCollector) :
    (c.errors ≠ [] → c.reply = multiClusterReply.errors c.errors 502) ∧
      (c.errors = [] → c.reply = multiClusterReply.itemList 200 c.responses c.kind) := by
  unfold multiClusterQueryResponseCollector.reply
  constructor
  · intro hne
    rw [if_pos (List.length_pos.2 hne)]
  · intro hnil
    rw [hnil]
    rfl

/-- C16 at its failing input: for a sub-response with status 200 whose body is the
object `{}` (and for one with a list under `items` and no string under `kind`),
the call of `collectResponse` does not return `(nil, nil)` with the items added:
the unchecked type assertion panics. -/
theorem collectResponse_missing_items_panics :
    multiClusterQueryResponseCollector.collectResponse
        { responses := [], errors := [], kind := [] }
        (some { StatusCode := 200, Status := ascii "200 OK", Body := .ok [] }) none = none ∧
      multiClusterQueryResponseCollector.collectResponse
        { responses := [], errors := [], kind := [] }
        (some { StatusCode := 200, Status := ascii "200 OK",
                Body := .ok [(ascii "items", JSON.array [])] }) none = none :=
  ⟨rfl, rfl⟩


/-! ## The search of the federation: every interleaving -/

theorem beforeRewrite_latched (s : searchRemoteClusterForPDH) (sh : searchShared)
    (resp : Option (http.Response CollectionBody)) (requestError : Option Error)
    (h : sh.sentResponse = true) :
    s.beforeRewrite sh resp requestError = (sh, some (none, none)) := by
  unfold searchRemoteClusterForPDH.beforeRewrite
  rw [if_pos h]

theorem afterRewrite_latched (s : searchRemoteClusterForPDH) (sh : searchShared)
    (rewritten : FilterResult CollectionBody) (h : sh.sentResponse = true) :
    s.afterRewrite sh rewritten = (sh, (none, none)) := by
  unfold searchRemoteClusterForPDH.afterRewrite
  rw [if_pos h]

/-- The first critical section never returns a response, leaves the latch as it
is, and sets the status code to 502 exactly when it is entered with the latch
not set, no transport error and a status other than 200 and 404. -/
theorem beforeRewrite_spec (s : searchRemoteClusterForPDH) (sh : searchShared)
    (resp : Option (http.Response CollectionBody)) (requestError : Option Error) :
    (∀ r e, (s.beforeRewrite sh resp requestError).2 ≠ some (some r, e)) ∧
      (s.beforeRewrite sh resp requestError).1.sentResponse = sh.sentResponse ∧
      (sh.sentResponse = false →
        (s.beforeRewrite sh resp requestError).1.statusCode =
          if (requestError.isNone &&
              resp.any (fun resp => decide (resp.StatusCode ≠ 200) &&
                decide (resp.StatusCode ≠ 404))) = true then 502 else sh.statusCode) := by
  unfold searchRemoteClusterForPDH.beforeRewrite
  by_cases hl : sh.sentResponse = true
  · rw [if_pos hl]
    refine ⟨(fun r e h => by cases h), rfl, fun hf => ?_⟩
    rw [hl] at hf
    cases hf
  · rw [if_neg hl]
    cases requestError with
    | some err => exact ⟨(fun r e h => by cases h), rfl, fun _ => rfl⟩
    | none =>
      cases resp with
      | none => exact ⟨(fun r e h => by cases h), rfl, fun _ => rfl⟩
      | some r0 =>
        simp only []
        by_cases h200 : r0.StatusCode = 200
        · rw [if_neg (not_not.2 h200)]
          refine ⟨(fun r e h => by cases h), rfl, fun _ => ?_⟩
          simp [h200]
        · rw [if_pos h200]
          refine ⟨(fun r e h => by cases h), rfl, fun _ => ?_⟩
          by_cases h404 : r0.StatusCode = 404
          · simp [h404]
          · simp [h200, h404]

/-- The second critical section returns a response only when it is entered with
the latch not set and the rewriter succeeded, and then it sets the latch; it
never changes the status code. -/
theorem afterRewrite_spec (s : searchRemoteClusterForPDH) (sh : searchShared)
    (rewritten : FilterResult CollectionBody) :
    (∀ r e, (s.afterRewrite sh rewritten).2 = (some r, e) →
        sh.sentResponse = false ∧ (s.afterRewrite sh rewritten).1.sentResponse = true ∧
          rewritten = (some r, none) ∧ e = none) ∧
      (sh.sentResponse = true → (s.afterRewrite sh rewritten).1.sentResponse = true) ∧
      (s.afterRewrite sh rewritten).1.statusCode = sh.statusCode := by
  unfold searchRemoteClusterForPDH.afterRewrite
  by_cases hl : sh.sentResponse = true
  · rw [if_pos hl]
    exact ⟨(fun r e h => by cases h), fun h => h, rfl⟩
  · rw [if_neg hl]
    obtain ⟨r0, e0⟩ := rewritten
    cases e0 with
    | some err => exact ⟨(fun r e h => by cases h), fun h => absurd h hl, rfl⟩
    | none =>
      refine ⟨fun r e h => ?_, fun h => absurd h hl, rfl⟩
      simp only [Prod.mk.injEq] at h
      obtain ⟨h1, h2⟩ := h
      exact ⟨by simpa using hl, rfl, by rw [h1], h2.symm⟩

/-- One critical section of a call: the arguments of the call stay, a call never
goes back to `called`, a set latch stays set and makes the call return `(nil, nil)`
with nothing else changed, a response is only returned by the section that sets
the latch, and the status code only changes, to 502, when the call enters with
another status than 200 and 404. -/
theorem searchWorker_step_spec (re : GoString → Option keepclient.SignedLocatorMatch)
    (sh : searchShared) (w : searchWorker) :
    ((w.step re sh).2.search = w.search ∧ (w.step re sh).2.resp = w.resp ∧
        (w.step re sh).2.requestError = w.requestError) ∧
      (w.state ≠ callState.called → (w.step re sh).2.state ≠ callState.called) ∧
      (w.state = callState.called → (w.step re sh).2.state ≠ callState.called) ∧
      (sh.sentResponse = true → (w.step re sh).1 = sh ∧
        (w.state = callState.called ∨ w.state = callState.rewriting →
          (w.step re sh).2.state = callState.returned (none, none))) ∧
      (∀ r e, (w.step re sh).2.state = callState.returned (some r, e) →
        w.state = callState.returned (some r, e) ∨
          (sh.sentResponse = false ∧ (w.step re sh).1.sentResponse = true ∧
            w.rewritten re = (some r, none) ∧ e = none)) ∧
      ((w.step re sh).1.sentResponse = false → sh.sentResponse = false ∧
        (w.step re sh).1.statusCode =
          if w.state = callState.called ∧ w.otherStatus = true then 502 else sh.statusCode) := by
  obtain ⟨search, resp, requestError, state⟩ := w
  cases state with
  | called =>
    obtain ⟨hno, hlatch, hcode⟩ := beforeRewrite_spec search sh resp requestError
    unfold searchWorker.step
    dsimp only
    cases hb : search.beforeRewrite sh resp requestError with
    | mk sh1 result =>
      rw [hb] at hno hlatch hcode
      dsimp only at hno hlatch hcode
      cases result with
      | some result =>
        dsimp only
        refine ⟨⟨rfl, rfl, rfl⟩, fun h => absurd rfl h, (fun _ h => by cases h), fun hl => ?_,
          fun r e h => ?_, fun hf => ?_⟩
        · rw [beforeRewrite_latched search sh resp requestError hl] at hb
          simp only [Prod.mk.injEq, Option.some.injEq] at hb
          exact ⟨hb.1.symm, fun _ => by rw [hb.2]⟩
        · simp only [callState.returned.injEq] at h
          exact absurd (congrArg some h) (hno r e)
        · rw [hlatch] at hf
          refine ⟨hf, ?_⟩
          rw [hcode hf]
          simp [searchWorker.otherStatus]
      | none =>
        dsimp only
        refine ⟨⟨rfl, rfl, rfl⟩, fun h => absurd rfl h, (fun _ h => by cases h), fun hl => ?_,
          (fun r e h => by cases h), fun hf => ?_⟩
        · rw [beforeRewrite_latched search sh resp requestError hl] at hb
          cases hb
        · rw [hlatch] at hf
          refine ⟨hf, ?_⟩
          rw [hcode hf]
          simp [searchWorker.otherStatus]
  | rewriting =>
    obtain ⟨hret, hmono, hcode⟩ := afterRewrite_spec search sh
      (searchWorker.rewritten re
        { search := search, resp := resp, requestError := requestError,
          state := callState.rewriting })
    unfold searchWorker.step
    dsimp only
    refine ⟨⟨rfl, rfl, rfl⟩, (fun _ h => by cases h), (fun h => by cases h), fun hl => ?_,
      fun r e h => ?_, fun hf => ?_⟩
    · rw [afterRewrite_latched search sh _ hl]
      exact ⟨rfl, fun _ => rfl⟩
    · simp only [callState.returned.injEq] at h
      exact Or.inr (hret r e h)
    · refine ⟨?_, ?_⟩
      · by_contra hl
        have := hmono (by simpa using hl)
        rw [hf] at this
        cases this
      · rw [hcode]
        simp
  | returned result =>
    unfold searchWorker.step
    dsimp only
    refine ⟨⟨rfl, rfl, rfl⟩, (fun _ h => by cases h), (fun h => by cases h),
      fun _ => ⟨rfl, fun h => ?_⟩, fun r e h => Or.inl h, fun hf => ⟨hf, ?_⟩⟩
    · rcases h with h | h <;> cases h
    · simp

theorem searchRun_step_none (re : GoString → Option keepclient.SignedLocatorMatch)
    (run : searchRun) (i : Nat) (h : run.workers[i]? = none) : run.step re i = run := by
  unfold searchRun.step
  rw [List.get?_eq_getElem?, h]

theorem searchRun_step_some (re : GoString → Option keepclient.SignedLocatorMatch)
    (run : searchRun) (i : Nat) (w : searchWorker) (h : run.workers[i]? = some w) :
    (run.step re i).shared = (w.step re run.shared).1 ∧
      ∀ j, (run.step re i).workers[j]? =
        if i = j then some (w.step re run.shared).2 else run.workers[j]? := by
  unfold searchRun.step
  rw [List.get?_eq_getElem?, h]
  refine ⟨rfl, fun j => ?_⟩
  dsimp only
  rw [List.getElem?_set]
  by_cases hij : i = j
  · rw [if_pos hij, if_pos hij, if_pos (List.getElem?_eq_some_iff.1 h).1]
  · rw [if_neg hij, if_neg hij]

theorem step_keeps_call (re : GoString → Option keepclient.SignedLocatorMatch)
    (sh : searchShared) (w : searchWorker) :
    (w.step re sh).2.otherStatus = w.otherStatus ∧
      (w.step re sh).2.rewritten re = w.rewritten re := by
  obtain ⟨⟨h1, h2, h3⟩, -⟩ := searchWorker_step_spec re sh w
  unfold searchWorker.otherStatus searchWorker.rewritten
  rw [h1, h2, h3]
  exact ⟨rfl, rfl⟩

/-- The invariant holds when the search starts and after every critical section. -/
theorem Invariant_start (re : GoString → Option keepclient.SignedLocatorMatch)
    (calls : List (searchRemoteClusterForPDH × Option (http.Response CollectionBody) ×
      Option Error)) :
    (searchRun.start calls).Invariant re := by
  have hcalled : ∀ (i : Nat) (w : searchWorker), (searchRun.start calls).workers[i]? = some w →
      w.state = callState.called := by
    intro i w hw
    unfold searchRun.start at hw
    simp only [List.getElem?_map, Option.map_eq_some'] at hw
    obtain ⟨c, -, rfl⟩ := hw
    rfl
  refine ⟨fun i w r e hw hs => ?_, fun i j wi wj hi hj hwi hwj => ?_, fun _ => Or.inr ⟨rfl, ?_⟩⟩
  · rw [hcalled i w hw] at hs
    cases hs
  · obtain ⟨r, e, hr⟩ := hwi
    rw [hcalled i wi hi] at hr
    cases hr
  · intro i w hw hne
    exact absurd (hcalled i w hw) hne

theorem Invariant_step (re : GoString → Option keepclient.SignedLocatorMatch)
    (run : searchRun) (i : Nat) (hinv : run.Invariant re) : (run.step re i).Invariant re := by
  cases hw : run.workers[i]? with
  | none => rw [searchRun_step_none re run i hw]; exact hinv
  | some w =>
    obtain ⟨hshared, hworkers⟩ := searchRun_step_some re run i w hw
    obtain ⟨-, hpast, hleaves, hlatched, hwins, hcode⟩ := searchWorker_step_spec re run.shared w
    obtain ⟨hother, hrewritten⟩ := step_keeps_call re run.shared w
    obtain ⟨hI1, hI2, hI3⟩ := hinv
    -- a call that has returned a response after the step
    have hwinner : ∀ (j : Nat) (v : searchWorker) r e, (run.step re i).workers[j]? = some v →
        v.state = callState.returned (some r, e) →
        (run.workers[j]? = some v ∧ run.shared.sentResponse = true) ∨
          (j = i ∧ v = (w.step re run.shared).2 ∧
            ((w.state = callState.returned (some r, e)) ∨
              (run.shared.sentResponse = false ∧ (w.step re run.shared).1.sentResponse = true ∧
                w.rewritten re = (some r, none) ∧ e = none))) := by
      intro j v r e hv hs
      rw [hworkers j] at hv
      by_cases hij : i = j
      · rw [if_pos hij] at hv
        have hv1 : v = (w.step re run.shared).2 := (Option.some.inj hv).symm
        rw [hv1] at hs
        exact Or.inr ⟨hij.symm, hv1, hwins r e hs⟩
      · rw [if_neg hij] at hv
        exact Or.inl ⟨hv, (hI1 j v r e hv hs).1⟩
    refine ⟨fun j v r e hv hs => ?_, fun j k vj vk hj hk hvj hvk => ?_, fun hf => ?_⟩
    · rw [hshared]
      rcases hwinner j v r e hv hs with ⟨hold, hsent⟩ | ⟨rfl, rfl, hold | hnew⟩
      · rw [(hlatched hsent).1]
        exact hI1 j v r e hold hs
      · have := hI1 j w r e hw hold
        rw [(hlatched this.1).1, hrewritten]
        exact this
      · rw [hrewritten]
        exact ⟨hnew.2.1, hnew.2.2⟩
    · obtain ⟨rj, ej, hsj⟩ := hvj
      obtain ⟨rk, ek, hsk⟩ := hvk
      rcases hwinner j vj rj ej hj hsj with ⟨holdj, hsentj⟩ | ⟨rfl, rfl, holdj | hnewj⟩ <;>
        rcases hwinner k vk rk ek hk hsk with ⟨holdk, hsentk⟩ | ⟨rfl, rfl, holdk | hnewk⟩
      · exact hI2 j k vj vk holdj holdk ⟨rj, ej, hsj⟩ ⟨rk, ek, hsk⟩
      · exact hI2 j k vj w holdj hw ⟨rj, ej, hsj⟩ ⟨rk, ek, holdk⟩
      · rw [hsentj] at hnewk
        cases hnewk.1
      · exact hI2 j k w vk hw holdk ⟨rj, ej, holdj⟩ ⟨rk, ek, hsk⟩
      · rfl
      · rfl
      · rw [hsentk] at hnewj
        cases hnewj.1
      · rfl
      · rfl
    · rw [hshared] at hf ⊢
      obtain ⟨hf0, hstatus⟩ := hcode hf
      rw [hstatus]
      rcases hI3 hf0 with ⟨h502, j, v, hv, hvpast, hvother⟩ | ⟨h404, hnone⟩
      · left
        refine ⟨by rw [h502]; exact ite_self _, ?_⟩
        by_cases hij : i = j
        · subst hij
          have hvw : v = w := Option.some.inj (hv.symm.trans hw)
          subst hvw
          refine ⟨i, (v.step re run.shared).2, ?_, hpast hvpast, by rw [hother]; exact hvother⟩
          rw [hworkers i, if_pos rfl]
        · refine ⟨j, v, ?_, hvpast, hvother⟩
          rw [hworkers j, if_neg hij]
          exact hv
      · by_cases hcond : w.state = callState.called ∧ w.otherStatus = true
        · left
          refine ⟨if_pos hcond, i, (w.step re run.shared).2, ?_, hleaves hcond.1,
            by rw [hother]; exact hcond.2⟩
          rw [hworkers i, if_pos rfl]
        · right
          refine ⟨by rw [if_neg hcond]; exact h404, fun j v hv hvpast => ?_⟩
          rw [hworkers j] at hv
          by_cases hij : i = j
          · rw [if_pos hij] at hv
            have hv1 : v = (w.step re run.shared).2 := (Option.some.inj hv).symm
            rw [hv1, hother]
            by_cases hcalled : w.state = callState.called
            · by_contra hne
              exact hcond ⟨hcalled, by simpa using hne⟩
            · exact hnone i w hw hcalled
          · rw [if_neg hij] at hv
            exact hnone j v hv hvpast

theorem Invariant_exec (re : GoString → Option keepclient.SignedLocatorMatch)
    (run : searchRun) (schedule : List Nat) (hinv : run.Invariant re) :
    (run.exec re schedule).Invariant re := by
  induction schedule generalizing run with
  | nil => exact hinv
  | cons i schedule ih => exact ih (run.step re i) (Invariant_step re run i hinv)

theorem latch_step (re : GoString → Option keepclient.SignedLocatorMatch)
    (run : searchRun) (i : Nat) (h : run.shared.sentResponse = true) :
    (run.step re i).shared = run.shared := by
  cases hw : run.workers[i]? with
  | none => rw [searchRun_step_none re run i hw]
  | some w =>
    rw [(searchRun_step_some re run i w hw).1]
    exact ((searchWorker_step_spec re run.shared w).2.2.2.1 h).1

theorem latch_exec (re : GoString → Option keepclient.SignedLocatorMatch)
    (run : searchRun) (schedule : List Nat) (h : run.shared.sentResponse = true) :
    (run.exec re schedule).shared = run.shared := by
  induction schedule generalizing run with
  | nil => rfl
  | cons i schedule ih =>
    have hstep := latch_step re run i h
    have := ih (run.step re i) (by rw [hstep]; exact h)
    rw [← hstep]
    exact this

theorem exec_append (re : GoString → Option keepclient.SignedLocatorMatch)
    (run : searchRun) (s1 s2 : List Nat) :
    run.exec re (s1 ++ s2) = (run.exec re s1).exec re s2 := by
  unfold searchRun.exec
  rw [List.foldl_append]

theorem step_calls (re : GoString → Option keepclient.SignedLocatorMatch)
    (run : searchRun) (i : Nat) :
    (run.step re i).workers.map (fun w => (w.search, w.resp, w.requestError)) =
      run.workers.map (fun w => (w.search, w.resp, w.requestError)) := by
  cases hw : run.workers[i]? with
  | none => rw [searchRun_step_none re run i hw]
  | some w =>
    obtain ⟨-, hworkers⟩ := searchRun_step_some re run i w hw
    obtain ⟨⟨h1, h2, h3⟩, -⟩ := searchWorker_step_spec re run.shared w
    apply List.ext_getElem?
    intro j
    rw [List.getElem?_map, List.getElem?_map, hworkers j]
    by_cases hij : i = j
    · rw [if_pos hij, ← hij, hw]
      simp only [Option.map_some', h1, h2, h3]
    · rw [if_neg hij]

theorem exec_calls (re : GoString → Option keepclient.SignedLocatorMatch)
    (calls : List (searchRemoteClusterForPDH × Option (http.Response CollectionBody) ×
      Option Error)) (schedule : List Nat) :
    ((searchRun.start calls).exec re schedule).workers.map
        (fun w => (w.search, w.resp, w.requestError)) = calls := by
  have hgen : ∀ run : searchRun, (run.exec re schedule).workers.map
      (fun w => (w.search, w.resp, w.requestError)) =
      run.workers.map (fun w => (w.search, w.resp, w.requestError)) := by
    induction schedule with
    | nil => intro run; rfl
    | cons i schedule ih =>
      intro run
      exact (ih (run.step re i)).trans (step_calls re run i)
  rw [hgen]
  unfold searchRun.start
  rw [List.map_map]
  exact List.map_id calls

/-- C18: at every point of every interleaving of the critical sections of the
calls of `filterRemoteClusterResponse` (each call runs its section before the
rewriter and, if it gets there, its section after it, in any order across the
workers): once `sentResponse` is set it stays set, whatever sections follow; no
two calls have returned a response; a call that has returned a response returned
what the rewriter gave it, and the rewriter gave it no error; and a call that
enters a critical section with `sentResponse` set returns `(nil, nil)` and leaves
the shared variables as they are. -/
theorem filterRemoteClusterResponse_latch (re : GoString → Option keepclient.SignedLocatorMatch)
    (calls : List (searchRemoteClusterForPDH × Option (http.Response CollectionBody) ×
      Option Error)) (schedule : List Nat) :
    (∀ more, ((searchRun.start calls).exec re schedule).shared.sentResponse = true →
        ((searchRun.start calls).exec re (schedule ++ more)).shared.sentResponse = true) ∧
      (∀ (i j : Nat) (wi wj : searchWorker),
        ((searchRun.start calls).exec re schedule).workers[i]? = some wi →
        ((searchRun.start calls).exec re schedule).workers[j]? = some wj →
        wi.returnedResponse → wj.returnedResponse → i = j) ∧
      (∀ (i : Nat) (w : searchWorker) r e,
        ((searchRun.start calls).exec re schedule).workers[i]? = some w →
        w.state = callState.returned (some r, e) →
        w.rewritten re = (some r, none) ∧ e = none) ∧
      (∀ (i : Nat) (w : searchWorker),
        ((searchRun.start calls).exec re schedule).shared.sentResponse = true →
        ((searchRun.start calls).exec re schedule).workers[i]? = some w →
        w.state = callState.called ∨ w.state = callState.rewriting →
        (((searchRun.start calls).exec re schedule).step re i).shared =
            ((searchRun.start calls).exec re schedule).shared ∧
          ∃ w1, (((searchRun.start calls).exec re schedule).step re i).workers[i]? = some w1 ∧
            w1.state = callState.returned (none, none)) := by
  obtain ⟨hI1, hI2, -⟩ := Invariant_exec re _ schedule (Invariant_start re calls)
  refine ⟨fun more hset => ?_, hI2, fun i w r e hw hs => (hI1 i w r e hw hs).2,
    fun i w hset hw hstate => ?_⟩
  · rw [exec_append, latch_exec re _ more hset]
    exact hset
  · obtain ⟨hshared, hworkers⟩ := searchRun_step_some re _ i w hw
    obtain ⟨-, -, -, hlatched, -⟩ := searchWorker_step_spec re
      ((searchRun.start calls).exec re schedule).shared w
    refine ⟨by rw [hshared]; exact (hlatched hset).1, _, ?_, (hlatched hset).2 hstate⟩
    rw [hworkers i, if_pos rfl]

set_option maxRecDepth 100000 in
theorem filterRemoteClusterResponse_latch_witness :
    ((searchRun.start exampleCalls).exec keepclient.SignedLocatorRe [0, 1, 0]).shared.sentResponse =
        true ∧
      ((searchRun.start exampleCalls).exec keepclient.SignedLocatorRe [0, 1, 0]).workers[0]? =
        some { search := { pdh := ascii "5a7598c227e3703616c071e553ade2c0+43",
                           remoteID := ascii "zzzzz" },
               resp := some signedCollectionResponse, requestError := none,
               state := callState.returned (some rewrittenCollectionResponse, none) } ∧
      ∃ w1, (((searchRun.start exampleCalls).exec keepclient.SignedLocatorRe [0, 1, 0]).step
            keepclient.SignedLocatorRe 2).workers[2]? = some w1 ∧
        w1.state = callState.returned (none, none) :=
  ⟨by decide, by decide,
    ((filterRemoteClusterResponse_latch keepclient.SignedLocatorRe exampleCalls [0, 1, 0]).2.2.2 2
      { search := { pdh := ascii "5a7598c227e3703616c071e553ade2c0+43", remoteID := ascii "zfail" },
        resp := none, requestError := some (Error.other (ascii "dial tcp: connection refused")),
        state := callState.called }
      (by decide) (by decide) (Or.inl rfl)).2⟩

set_option maxRecDepth 100000 in
/-- C17 fails as stated: a search whose only remote cannot be reached, and one
whose only remote answers 200 with a body that does not decode, end with no
winner and the error list is sent with status 404, not 502. -/
theorem search_transport_error_404 :
    ((searchRun.start
        [({ pdh := ascii "5a7598c227e3703616c071e553ade2c0+43", remoteID := ascii "zfail" },
          none, some (Error.other (ascii "dial tcp: connection refused")))]).exec
        keepclient.SignedLocatorRe [0]).finish =
      some ([searchError.request (ascii "zfail")
          (Error.other (ascii "dial tcp: connection refused"))], 404) ∧
    ((searchRun.start
        [({ pdh := ascii "5a7598c227e3703616c071e553ade2c0+43", remoteID := ascii "zzzzz" },
          some { StatusCode := 200, Status := ascii "200 OK",
                 Body := .error (Error.jsonDecode (ascii "unexpected end of JSON input")) },
          none)]).exec
        keepclient.SignedLocatorRe [0, 0]).finish =
      some ([searchError.parsing (ascii "zzzzz")
          (Error.jsonDecode (ascii "unexpected end of JSON input"))], 404) := by
  constructor <;> decide

/-- C17, amended: when every call of the filter has returned and none has set
`sentResponse`, whatever the interleaving was, the error list is sent with
status 502 if some call was handed a response with a status other than 200 and
404, and with status 404 otherwise: transport errors and failures of the
rewriter are in the list and leave the status at 404. -/
theorem search_status_code (re : GoString → Option keepclient.SignedLocatorMatch)
    (calls : List (searchRemoteClusterForPDH × Option (http.Response CollectionBody) ×
      Option Error)) (schedule : List Nat)
    (hdrained : ∀ w ∈ ((searchRun.start calls).exec re schedule).workers,
      w.state ≠ callState.called ∧ w.state ≠ callState.rewriting)
    (hnowin : ((searchRun.start calls).exec re schedule).shared.sentResponse = false) :
    ((searchRun.start calls).exec re schedule).finish =
      some (((searchRun.start calls).exec re schedule).shared.errors,
        if calls.any isOtherStatus = true then 502 else 404) := by
  obtain ⟨-, -, hI3⟩ := Invariant_exec re _ schedule (Invariant_start re calls)
  have hcalls := exec_calls re calls schedule
  have hreturned : ∀ (i : Nat) (w : searchWorker),
      ((searchRun.start calls).exec re schedule).workers[i]? = some w →
      w.state ≠ callState.called := by
    intro i w hw
    exact (hdrained w (List.getElem?_mem hw)).1
  have hany : calls.any isOtherStatus = true ↔
      ∃ w ∈ ((searchRun.start calls).exec re schedule).workers, w.otherStatus = true := by
    have hmap : calls.any isOtherStatus =
        (((searchRun.start calls).exec re schedule).workers.map
          (fun w => (w.search, w.resp, w.requestError))).any isOtherStatus := by
      rw [hcalls]
    rw [hmap, List.any_eq_true]
    constructor
    · rintro ⟨c, hc, hcs⟩
      obtain ⟨w, hw, rfl⟩ := List.mem_map.1 hc
      exact ⟨w, hw, hcs⟩
    · rintro ⟨w, hw, hos⟩
      exact ⟨_, List.mem_map.2 ⟨w, hw, rfl⟩, hos⟩
  unfold searchRun.finish
  rw [if_neg (by rw [hnowin]; exact Bool.false_ne_true)]
  rcases hI3 hnowin with ⟨h502, i, w, hw, -, hother⟩ | ⟨h404, hnone⟩
  · rw [if_pos (hany.2 ⟨w, List.getElem?_mem hw, hother⟩), h502]
  · rw [if_neg, h404]
    intro h
    obtain ⟨w, hmem, hother⟩ := hany.1 h
    obtain ⟨i, hi⟩ := List.getElem?_of_mem hmem
    rw [hnone i w hi (hreturned i w hi)] at hother
    cases hother

set_option maxRecDepth 100000 in
theorem search_status_code_witness :
    ((searchRun.start (exampleCalls.drop 1)).exec keepclient.SignedLocatorRe [0, 1]).finish =
      some ([searchError.response (ascii "zmock") (ascii "404 Not Found"),
          searchError.request (ascii "zfail") (Error.other (ascii "dial tcp: connection refused"))],
        404) :=
  search_status_code keepclient.SignedLocatorRe (exampleCalls.drop 1) [0, 1]
    (by decide) (by decide)


/-! ## Manifests without signatures -/

theorem flatMap_sep_cons (sep : Byte) (a : GoString) (rest : List GoString) :
    (a :: rest).flatMap (fun t => sep :: t) = sep :: [sep].intercalate (a :: rest) := by
  rw [intercalate_sep, List.flatMap_cons, List.cons_append]

theorem intercalate_terminated (sep : Byte) (lines : List GoString) :
    [sep].intercalate (lines ++ [[]]) = lines.flatMap (fun l => l ++ [sep]) := by
  induction lines with
  | nil => rfl
  | cons l lines ih =>
    rw [List.cons_append, intercalate_sep, List.flatMap_cons, ← ih]
    cases lines with
    | nil => simp [List.intercalate]
    | cons m lines =>
      rw [List.cons_append, flatMap_sep_cons]
      simp

/-- A line laid out with every token as it is, is the line and a newline. -/
theorem layoutManifest_id (f : GoString → GoString) (lines : List GoString)
    (hf : ∀ line ∈ lines, ∀ token ∈ strings.Split line (byte ' '), f token = token) :
    layoutManifest f lines = lines.flatMap (fun l => l ++ [byte '\n']) := by
  induction lines with
  | nil => rfl
  | cons line lines ih =>
    rw [layoutManifest_cons, ih (fun l hl => hf l (List.mem_cons_of_mem _ hl)), List.flatMap_cons]
    congr 1
    have hline := hf line (List.mem_cons_self _ _)
    have hjoin : [byte ' '].intercalate (strings.Split line (byte ' ')) = line :=
      List.intercalate_splitOn line (byte ' ')
    unfold layoutManifest
    rw [List.flatMap_cons, List.flatMap_nil, List.append_nil]
    cases hs : strings.Split line (byte ' ') with
    | nil =>
      rw [hs] at hjoin
      rw [← hjoin]
      rfl
    | cons first rest =>
      rw [hs] at hjoin hline
      have hrest : rest.map f = rest := by
        conv_rhs => rw [← List.map_id rest]
        exact List.map_congr_left (fun t ht => hline t (List.mem_cons_of_mem _ ht))
      dsimp only
      rw [hrest, hjoin]
      rfl

theorem Split_terminated (init : GoString) (sep : Byte) :
    strings.Split (init ++ [sep]) sep = strings.Split init sep ++ [[]] := by
  have hjoin : [sep].intercalate (strings.Split init sep) = init :=
    List.intercalate_splitOn init sep
  cases hs : strings.Split init sep with
  | nil =>
    exact absurd hs (List.splitOnP_ne_nil (· == sep) init)
  | cons a rest =>
    have hparts : ∀ l ∈ a :: rest ++ [[]], sep ∉ l := by
      intro l hl
      rcases List.mem_append.1 hl with hl | hl
      · exact Split_no_sep init sep l (by rw [hs]; exact hl)
      · rw [List.mem_singleton.1 hl]
        exact List.not_mem_nil _
    have htext : init ++ [sep] = [sep].intercalate (a :: rest ++ [[]]) := by
      rw [← hjoin, hs, List.cons_append, intercalate_sep, intercalate_sep]
      simp
    rw [htext]
    exact List.splitOn_intercalate (a :: rest ++ [[]]) sep hparts (by simp)

theorem dropCR_of_no_cr (line : GoString) (h : line.getLast? ≠ some (byte '\r')) :
    bufio.dropCR line = line := by
  unfold bufio.dropCR
  rw [if_neg h]

/-- The lines the scanner visits in a text whose lines all end with a newline and
none with a carriage return before it: the text is these lines, each with its
newline. -/
theorem scanLines_terminated (text : GoString)
    (hterm : text = [] ∨ text.getLast? = some (byte '\n'))
    (hcr : ∀ line ∈ strings.Split text (byte '\n'), line.getLast? ≠ some (byte '\r')) :
    bufio.scanLines text ++ [[]] = strings.Split text (byte '\n') ∧
      (bufio.scanLines text).flatMap (fun l => l ++ [byte '\n']) = text := by
  have hfits : byte '\n' ∈ text ∨ text.length < 1048576 := by
    rcases hterm with rfl | hlast
    · right; decide
    · left; exact List.mem_of_mem_getLast? hlast
  have hlastPart : (strings.Split text (byte '\n')).getLast? = some [] := by
    rcases hterm with rfl | hlast
    · rfl
    · obtain ⟨init, rfl⟩ : ∃ init, text = init ++ [byte '\n'] := by
        have hne : text ≠ [] := by
          rintro rfl
          cases hlast
        refine ⟨text.dropLast, ?_⟩
        have := List.dropLast_append_getLast? (byte '\n') (by rw [hlast]; exact Option.mem_some_self _)
        exact this.symm
      rw [Split_terminated]
      simp
  have hlines : bufio.scanLines text = (strings.Split text (byte '\n')).dropLast := by
    rw [scanLines_of_fits text hfits, if_pos hlastPart]
    have hmap : ∀ l ∈ (strings.Split text (byte '\n')).dropLast, bufio.dropCR l = l :=
      fun l hl => dropCR_of_no_cr l (hcr l (List.mem_of_mem_dropLast hl))
    conv_rhs => rw [← List.map_id (strings.Split text (byte '\n')).dropLast]
    exact List.map_congr_left hmap
  have hsplit : bufio.scanLines text ++ [[]] = strings.Split text (byte '\n') := by
    rw [hlines]
    have := List.dropLast_append_getLast? [] (by rw [hlastPart]; exact Option.mem_some_self _)
    exact this
  refine ⟨hsplit, ?_⟩
  rw [← intercalate_terminated, hsplit]
  exact List.intercalate_splitOn text (byte '\n')

set_option maxRecDepth 100000 in
/-- C26 fails as stated: the manifest `. d41d8cd98f00b204e9800998ecf8427e+0 0:0:f`
ended by a carriage return and a newline has its one line terminated by a newline
and no token that matches the signed-locator pattern, and `rewriteSignatures`
succeeds on it; the manifest it returns has lost the carriage return, and the
byte count that was hashed is 43, one less than the 44 bytes of the manifest. -/
theorem rewriteSignatures_drops_carriage_return :
    rewriteSignatures keepclient.SignedLocatorRe { clusterID := ascii "zzzzz", expectHash := [] }
        (some { StatusCode := 200, Status := ascii "200 OK",
                Body := .ok
                  { ManifestText := ascii ". d41d8cd98f00b204e9800998ecf8427e+0 0:0:f\r\n",
                    PortableDataHash := ascii "5a7598c227e3703616c071e553ade2c0+43" } })
        none =
      (some { StatusCode := 200, Status := ascii "200 OK",
              Body := .ok
                { ManifestText := ascii ". d41d8cd98f00b204e9800998ecf8427e+0 0:0:f\n",
                  PortableDataHash := ascii "5a7598c227e3703616c071e553ade2c0+43" } },
        none) ∧
    (ascii ". d41d8cd98f00b204e9800998ecf8427e+0 0:0:f\r\n").getLast? = some (byte '\n') ∧
    (∀ line ∈ strings.Split (ascii ". d41d8cd98f00b204e9800998ecf8427e+0 0:0:f\r\n") (byte '\n'),
      ∀ token ∈ strings.Split line (byte ' '), keepclient.SignedLocatorRe token = none) ∧
    (ascii ". d41d8cd98f00b204e9800998ecf8427e+0 0:0:f\r\n").length = 44 := by
  refine ⟨by decide, by decide, by decide, by decide⟩

/-- C26, amended: for an HTTP 200 response whose manifest has every line terminated
by a newline, no carriage return right before a newline and no token that matches
the signed-locator pattern, if `rewriteSignatures` succeeds then the record it
returns is the record it was given, its manifest byte for byte, and the
`portable_data_hash` is the md5 of the manifest followed by `+` and the length of
the manifest: the bytes hashed are those of the manifest and their count is its
length. -/
theorem rewriteSignatures_identity_unsigned
    (re : GoString → Option keepclient.SignedLocatorMatch) (rw : rewriteSignaturesClusterId)
    (resp resp' : http.Response CollectionBody) (col : arvados.Collection)
    (hstatus : resp.StatusCode = 200) (hbody : resp.Body = .ok col)
    (hterm : col.ManifestText = [] ∨ col.ManifestText.getLast? = some (byte '\n'))
    (hcr : ∀ line ∈ strings.Split col.ManifestText (byte '\n'),
      line.getLast? ≠ some (byte '\r'))
    (hunsigned : ∀ line ∈ strings.Split col.ManifestText (byte '\n'),
      ∀ token ∈ strings.Split line (byte ' '), re token = none)
    (hok : rewriteSignatures re rw (some resp) none = (some resp', none)) :
    resp'.Body = .ok col ∧
      col.PortableDataHash =
        hexEncode (md5Sum col.ManifestText) ++ ascii "+" ++ formatInt col.ManifestText.length := by
  obtain ⟨col1, hbody1, hnew, hpdh, -⟩ := rewriteSignatures_ok_spec re rw resp resp' hstatus hok
  rw [hbody] at hbody1
  cases hbody1
  obtain ⟨hsplit, htext⟩ := scanLines_terminated col.ManifestText hterm hcr
  have hlines : ∀ line ∈ bufio.scanLines col.ManifestText,
      line ∈ strings.Split col.ManifestText (byte '\n') := by
    intro line hline
    rw [← hsplit]
    exact List.mem_append_left _ hline
  have hremote : layoutManifest (remoteLocator re rw.clusterID)
      (bufio.scanLines col.ManifestText) = col.ManifestText := by
    rw [layoutManifest_id _ _ (fun line hline token htoken => by
      unfold remoteLocator
      rw [hunsigned line (hlines line hline) token htoken]), htext]
  have hstripped : layoutManifest (strippedLocator re) (bufio.scanLines col.ManifestText) =
      col.ManifestText := by
    rw [layoutManifest_id _ _ (fun line hline token htoken => by
      unfold strippedLocator
      rw [hunsigned line (hlines line hline) token htoken]), htext]
  rw [hremote] at hnew
  rw [hstripped] at hpdh
  exact ⟨hnew, hpdh⟩

set_option maxRecDepth 100000 in
theorem rewriteSignatures_identity_unsigned_witness :
    ({ StatusCode := 200, Status := ascii "200 OK",
       Body := .ok
         { ManifestText := ascii ". d41d8cd98f00b204e9800998ecf8427e+0 0:0:f\n",
           PortableDataHash := ascii "5a7598c227e3703616c071e553ade2c0+43" } } :
        http.Response CollectionBody).Body =
        .ok { ManifestText := ascii ". d41d8cd98f00b204e9800998ecf8427e+0 0:0:f\n",
              PortableDataHash := ascii "5a7598c227e3703616c071e553ade2c0+43" } ∧
      ascii "5a7598c227e3703616c071e553ade2c0+43" =
        hexEncode (md5Sum (ascii ". d41d8cd98f00b204e9800998ecf8427e+0 0:0:f\n")) ++ ascii "+" ++
          formatInt (ascii ". d41d8cd98f00b204e9800998ecf8427e+0 0:0:f\n").length :=
  rewriteSignatures_identity_unsigned keepclient.SignedLocatorRe
    { clusterID := ascii "zzzzz", expectHash := [] }
    { StatusCode := 200, Status := ascii "200 OK",
      Body := .ok
        { ManifestText := ascii ". d41d8cd98f00b204e9800998ecf8427e+0 0:0:f\n",
          PortableDataHash := ascii "5a7598c227e3703616c071e553ade2c0+43" } }
    { StatusCode := 200, Status := ascii "200 OK",
      Body := .ok
        { ManifestText := ascii ". d41d8cd98f00b204e9800998ecf8427e+0 0:0:f\n",
          PortableDataHash := ascii "5a7598c227e3703616c071e553ade2c0+43" } }
    { ManifestText := ascii ". d41d8cd98f00b204e9800998ecf8427e+0 0:0:f\n",
      PortableDataHash := ascii "5a7598c227e3703616c071e553ade2c0+43" }
    rfl rfl (Or.inr (by decide)) (by decide) (by decide) (by decide)


/-! ## The kind of the reply -/

theorem collectResponse_kind (c : multiClusterQueryResponseCollector)
    (resp : http.Response ObjectBody) (h : isItemList resp) :
    c.collectResponse (some resp) none =
      some ({ responses := c.responses ++ responseItems resp, errors := c.errors,
              kind := responseKind resp }, (none, none)) := by
  obtain ⟨hstatus, fields, items, kind, hbody, hitems, hkind⟩ := h
  have hk : responseKind resp = kind := by
    unfold responseKind
    rw [hbody]
    simp only [hkind]
  rw [responseItems_of_lookup resp fields items hbody hitems, hk]
  unfold multiClusterQueryResponseCollector.collectResponse
  simp only [hbody, hitems, hkind]
  rw [if_neg (not_not.2 hstatus)]

/-- C21 fails as stated: of two sub-responses collected one after the other, the
first of kind `arvados#workflowList` and the second of kind
`arvados#containerList`, the reply carries the kind of the second. -/
theorem reply_kind_not_first :
    (collectResponses
        [(some { StatusCode := 200, Status := ascii "200 OK",
                 Body := .ok [(ascii "kind", JSON.string (ascii "arvados#workflowList")),
                              (ascii "items", JSON.array [])] }, none),
          (some { StatusCode := 200, Status := ascii "200 OK",
                  Body := .ok [(ascii "kind", JSON.string (ascii "arvados#containerList")),
                               (ascii "items", JSON.array [])] }, none)]).map
        multiClusterQueryResponseCollector.reply =
      some (multiClusterReply.itemList 200 [] (ascii "arvados#containerList")) :=
  rfl

/-- C21, amended: when every sub-query of a federated query is answered with
status 200 and a body that decodes to an object with a list under `items` and a
string under `kind`, the reply has status 200 and its kind is the kind of the
sub-response that was collected last. -/
theorem reply_kind_of_last (responses : List (http.Response ObjectBody))
    (last : http.Response ObjectBody)
    (hresponses : ∀ r ∈ responses ++ [last], isItemList r) :
    ∃ c, collectResponses ((responses ++ [last]).map (fun r => (some r, none))) = some c ∧
      c.kind = responseKind last ∧
      c.reply = multiClusterReply.itemList 200 c.responses (responseKind last) := by
  obtain ⟨c0, hfold, -, herr⟩ := collectResponse_foldlM responses
    { responses := [], errors := [], kind := [] }
    (fun r hr => hresponses r (List.mem_append_left _ hr))
  have hlast := collectResponse_kind c0 last (hresponses last (by simp))
  refine ⟨{ responses := c0.responses ++ responseItems last, errors := c0.errors,
            kind := responseKind last }, ?_, rfl, ?_⟩
  · unfold collectResponses
    rw [List.map_append, List.foldlM_append, hfold]
    simp only [List.map_cons, List.map_nil, List.foldlM_cons, List.foldlM_nil, hlast, bind,
      Option.bind, Option.map_some', pure]
  · unfold multiClusterQueryResponseCollector.reply
    rw [herr]
    rfl

theorem reply_kind_of_last_witness :
    ∃ c, collectResponses (([workflowList (ascii "zmock-7fd4e-bbbbbbbbbbbbbbb")] ++
          [workflowList (ascii "zzzzz-7fd4e-aaaaaaaaaaaaaaa")]).map (fun r => (some r, none))) =
        some c ∧
      c.kind = responseKind (workflowList (ascii "zzzzz-7fd4e-aaaaaaaaaaaaaaa")) ∧
      c.reply = multiClusterReply.itemList 200 c.responses
        (responseKind (workflowList (ascii "zzzzz-7fd4e-aaaaaaaaaaaaaaa"))) :=
  reply_kind_of_last [workflowList (ascii "zmock-7fd4e-bbbbbbbbbbbbbbb")]
    (workflowList (ascii "zzzzz-7fd4e-aaaaaaaaaaaaaaa"))
    (by
      intro r hr
      rcases List.mem_cons.1 hr with rfl | hr
      · exact ⟨rfl, _, _, _, rfl, rfl, rfl⟩
      · rcases List.mem_cons.1 hr with rfl | hr
        · exact ⟨rfl, _, _, _, rfl, rfl, rfl⟩
        · cases hr)

/-! ## Run-time failures of the partitioning step -/

set_option maxRecDepth 100000 in
/-- C25 at its failing inputs: the partitioning step does not complete on a
predicate `["uuid", "in", [1]]`, whose item is not a string (the type assertion
`i.(string)` panics), nor on `["uuid", "=", "abc"]` and `["uuid", "in", ["abc"]]`,
whose uuid is shorter than five bytes (the slice `u[0:5]` is out of range); the
first is the `filters` text `[["uuid","in",[1]]]` of a request. -/
theorem splitFilter_panics :
    splitFilter ([], [])
        [JSON.string (ascii "uuid"), JSON.string (ascii "in"), JSON.array [JSON.number (ascii "1")]] =
      .error (MultiClusterResult.handled Outcome.panic) ∧
    splitFilter ([], []) [JSON.string (ascii "uuid"), JSON.string (ascii "="), JSON.string (ascii "abc")] =
      .error (MultiClusterResult.handled Outcome.panic) ∧
    splitFilter ([], [])
        [JSON.string (ascii "uuid"), JSON.string (ascii "in"), JSON.array [JSON.string (ascii "abc")]] =
      .error (MultiClusterResult.handled Outcome.panic) ∧
    exampleQueries.ServeHTTP
        (getRequest (ascii "/arvados/v1/workflows") (ascii "filters=[[\"uuid\",\"in\",[1]]]") []) =
      (Outcome.panic,
        getRequest (ascii "/arvados/v1/workflows") (ascii "filters=[[\"uuid\",\"in\",[1]]]") []) := by
  refine ⟨by decide, by decide, by decide, by decide⟩

/-! ## A query for uuids of one cluster -/

/-- The router on a request whose parameters parse and for which the engine is
attempted: it ends as the engine ends when that reports handled, and routes by
the cluster ID the engine leaves when it does not. -/
theorem ServeHTTP_attempted (h : genericFederatedRequestHandler) (req req1 : http.Request)
    (params : url.Values) (result : MultiClusterResult)
    (hparams : requestParams req = .ok params)
    (hattempted : multiClusterAttempted h.matcher req params)
    (hresult : h.handleMultiClusterQuery req params [] = (result, req1)) :
    (∀ outcome, result = MultiClusterResult.handled outcome → h.ServeHTTP req = (outcome, req1)) ∧
      (∀ clusterId, result = MultiClusterResult.notHandled clusterId →
        h.ServeHTTP req =
          if clusterId = [] ∨ clusterId = h.handler.Cluster.ClusterID then (Outcome.next, req1)
          else h.handler.remoteClusterRequest clusterId req1 none) := by
  have hserve : ∀ r : Outcome × http.Request,
      (∀ outcome, result = MultiClusterResult.handled outcome → r = (outcome, req1)) →
      (∀ clusterId, result = MultiClusterResult.notHandled clusterId →
        r = if clusterId = [] ∨ clusterId = h.handler.Cluster.ClusterID then (Outcome.next, req1)
          else h.handler.remoteClusterRequest clusterId req1 none) →
      h.ServeHTTP req = r := by
    intro r hhandled hnot
    unfold requestParams at hparams
    unfold genericFederatedRequestHandler.ServeHTTP
    simp only
    cases hq : url.ParseQuery req.RawQuery with
    | mk query qerr =>
      rw [hq] at hparams
      cases qerr with
      | some err => simp at hparams
      | none =>
        simp only at hparams ⊢
        have hmerged : (if req.Method = ascii "POST" ∧
              req.ContentType = ascii "application/x-www-form-urlencoded" then
            loadParamsFromForm req query
          else (none, query)) = (none, params) := by
          split at hparams
          · rename_i hpost
            rw [if_pos hpost]
            unfold loadParamsFromForm
            cases hb : url.ParseQuery req.Body with
            | mk form ferr =>
              rw [hb] at hparams
              cases ferr with
              | some err => simp at hparams
              | none =>
                simp only [Except.ok.injEq] at hparams
                simp only [hparams]
          · rename_i hpost
            rw [if_neg hpost]
            simp only [Except.ok.injEq] at hparams
            rw [hparams]
        rw [hmerged]
        simp only
        rw [cluster_id_param, effective_method_param]
        have hcond : effectiveMethod req params = ascii "GET" ∧
            chosenClusterID h.matcher req params = [] ∧
            (params.get (ascii "filters")).length = 1 := hattempted
        rw [if_pos hcond, hcond.2.1, hresult]
        cases result with
        | handled outcome => exact (hhandled outcome rfl).symm
        | notHandled clusterId => exact (hnot clusterId rfl).symm
  constructor
  · intro outcome ho
    apply hserve
    · intro o h1
      rw [ho] at h1
      cases h1
      rfl
    · intro c h1
      rw [ho] at h1
      cases h1
  · intro clusterId hc
    apply hserve
    · intro o h1
      rw [hc] at h1
      cases h1
    · intro c h1
      rw [hc] at h1
      cases h1
      rfl

theorem bucketUUIDs_fst (st : GoString × url.Values) (uuids : List GoString) (P : GoString)
    (hne : uuids ≠ []) (hP : ∀ u ∈ uuids, u.take 5 = P) : (bucketUUIDs st uuids).1 = P := by
  induction uuids generalizing st with
  | nil => exact absurd rfl hne
  | cons u uuids ih =>
    unfold bucketUUIDs
    rw [List.foldl_cons]
    cases uuids with
    | nil => exact hP u (List.mem_cons_self _ _)
    | cons v uuids =>
      exact ih _ (by simp) (fun w hw => hP w (List.mem_cons_of_mem _ hw))


/-! ## The buckets and the sub-queries of a query that fans out -/

/-- A split that succeeds saw only `uuid` predicates with `=` or `in`, and only
items that are strings of five bytes or more. -/
theorem splitFilter_foldlM_safe (filters : List (List JSON)) (st st1 : GoString × url.Values)
    (hsplit : filters.foldlM splitFilter st = .ok st1) :
    (∀ f1 ∈ filters, isUUIDPredicate f1 = true) ∧
      ∀ f1 ∈ filters, ∀ i ∈ predicateItems f1, (JSON.uuid? i).isSome = true := by
  induction filters generalizing st with
  | nil => exact ⟨(fun f hf => by cases hf), (fun f hf => by cases hf)⟩
  | cons f1 filters ih =>
    rw [List.foldlM_cons] at hsplit
    cases hstep : splitFilter st f1 with
    | error e => rw [hstep] at hsplit; cases hsplit
    | ok st2 =>
      rw [hstep] at hsplit
      obtain ⟨hall, hsafe⟩ := ih st2 hsplit
      have hpred : isUUIDPredicate f1 = true := by
        by_contra hne
        rw [splitFilter_not st f1 (by simpa using hne)] at hstep
        cases hstep
      have hitems : ∀ i ∈ predicateItems f1, (JSON.uuid? i).isSome = true := by
        by_contra hcon
        have hsome : ∃ i ∈ predicateItems f1, (JSON.uuid? i).isSome = false := by
          by_contra hno
          apply hcon
          intro i hi
          by_contra hne
          exact hno ⟨i, hi, by simpa using hne⟩
        rw [splitFilter_panic st f1 hpred hsome] at hstep
        cases hstep
      constructor
      · intro f hf
        rcases List.mem_cons.1 hf with rfl | hf
        · exact hpred
        · exact hall f hf
      · intro f hf
        rcases List.mem_cons.1 hf with rfl | hf
        · exact hitems
        · exact hsafe f hf

/-- A split that fails ends the call with a panic or with `false`. -/
theorem splitFilter_foldlM_error (filters : List (List JSON)) (st : GoString × url.Values)
    (ending : MultiClusterResult) (hsplit : filters.foldlM splitFilter st = .error ending) :
    ending = MultiClusterResult.handled Outcome.panic ∨
      ∃ clusterId, ending = MultiClusterResult.notHandled clusterId := by
  induction filters generalizing st with
  | nil => cases hsplit
  | cons f1 filters ih =>
    rw [List.foldlM_cons] at hsplit
    cases hstep : splitFilter st f1 with
    | ok st2 =>
      rw [hstep] at hsplit
      exact ih st2 hsplit
    | error e =>
      rw [hstep] at hsplit
      have he : e = ending := by
        simp only [bind, Except.bind] at hsplit
        exact Except.error.inj hsplit
      subst he
      by_cases hpred : isUUIDPredicate f1 = true
      · by_cases hsafe : ∀ i ∈ predicateItems f1, (JSON.uuid? i).isSome = true
        · rw [splitFilter_ok st f1 hpred hsafe] at hstep
          cases hstep
        · have hsome : ∃ i ∈ predicateItems f1, (JSON.uuid? i).isSome = false := by
            by_contra hno
            apply hsafe
            intro i hi
            by_contra hne
            exact hno ⟨i, hi, by simpa using hne⟩
          rw [splitFilter_panic st f1 hpred hsome] at hstep
          exact Or.inl (Except.error.inj hstep).symm
      · rw [splitFilter_not st f1 (by simpa using hpred)] at hstep
        exact Or.inr ⟨st.1, (Except.error.inj hstep).symm⟩

/-- What a call that ends in the fan-out went through: the split succeeded with
the buckets of the fan-out, and the request got its `Content-Type`. -/
theorem handleMultiClusterQuery_fanout (h : genericFederatedRequestHandler)
    (req req1 : http.Request) (params : url.Values) (clusterId : GoString)
    (filters : List (List JSON)) (queryClusters : url.Values)
    (hparse : h.Unmarshal ((params.get (ascii "filters")).getD 0 []) = .ok filters)
    (hfanout : h.handleMultiClusterQuery req params clusterId =
      (MultiClusterResult.handled (Outcome.multiClusterQuery queryClusters params), req1)) :
    (∃ clusterId1, filters.foldlM splitFilter (clusterId, []) = .ok (clusterId1, queryClusters)) ∧
      req1 = { req with ContentType := ascii "application/x-www-form-urlencoded" } := by
  unfold genericFederatedRequestHandler.handleMultiClusterQuery at hfanout
  rw [hparse] at hfanout
  dsimp only at hfanout
  cases hsplit : filters.foldlM splitFilter (clusterId, []) with
  | error ending =>
    rw [hsplit] at hfanout
    dsimp only at hfanout
    rcases splitFilter_foldlM_error filters _ ending hsplit with rfl | ⟨c, rfl⟩
    · simp at hfanout
    · simp at hfanout
  | ok st =>
    obtain ⟨clusterId1, qc⟩ := st
    rw [hsplit] at hfanout
    dsimp only at hfanout
    split_ifs at hfanout <;> simp at hfanout
    obtain ⟨hq, hreq⟩ := hfanout
    subst hq
    exact ⟨⟨clusterId1, rfl⟩, hreq.symm⟩

theorem items_of_safe (items : List JSON) (hsafe : ∀ i ∈ items, (JSON.uuid? i).isSome = true) :
    items = (items.filterMap JSON.uuid?).map JSON.string := by
  induction items with
  | nil => rfl
  | cons i items ih =>
    have hi := hsafe i (List.mem_cons_self _ _)
    have hrest := ih (fun j hj => hsafe j (List.mem_cons_of_mem _ hj))
    cases i with
    | string u =>
      by_cases hlen : 5 ≤ u.length
      · simp only [List.filterMap_cons, JSON.uuid?, hlen, if_true, List.map_cons]
        rw [← hrest]
      · simp [JSON.uuid?, hlen] at hi
    | null => simp [JSON.uuid?] at hi
    | bool b => simp [JSON.uuid?] at hi
    | number n => simp [JSON.uuid?] at hi
    | array a => simp [JSON.uuid?] at hi
    | object o => simp [JSON.uuid?] at hi

theorem lookup_of_mem (v : url.Values) (hnodup : (v.map Prod.fst).Nodup) (k : GoString)
    (vals : List GoString) (hmem : (k, vals) ∈ v) : v.get k = vals := by
  induction v with
  | nil => cases hmem
  | cons kv v ih =>
    obtain ⟨k0, vs⟩ := kv
    rw [List.map_cons, List.nodup_cons] at hnodup
    rcases List.mem_cons.1 hmem with heq | hmem
    · cases heq
      unfold url.Values.get
      rw [lookup_cons_self k vals v]
      rfl
    · have hne : k ≠ k0 :=
        fun heq => hnodup.1 (List.mem_map.2 ⟨(k, vals), hmem, heq⟩)
      have hrest := ih hnodup.2 hmem
      unfold url.Values.get at hrest ⊢
      rw [lookup_cons_ne k k0 vs v hne]
      exact hrest

/-- The lists of the elements of each key, for keys that are all different and
cover the list, are the list in another order. -/
theorem flatMap_filter_perm (uuids : List GoString) (keys : List GoString)
    (hnodup : keys.Nodup) (hall : ∀ u ∈ uuids, u.take 5 ∈ keys) :
    (keys.flatMap (fun k => uuids.filter (fun u => u.take 5 = k))).Perm uuids := by
  induction keys generalizing uuids with
  | nil =>
    cases uuids with
    | nil => exact List.Perm.refl _
    | cons u uuids => exact absurd (hall u (List.mem_cons_self _ _)) (List.not_mem_nil _)
  | cons k keys ih =>
    rw [List.nodup_cons] at hnodup
    rw [List.flatMap_cons]
    have hrest : keys.flatMap (fun k1 => uuids.filter (fun u => u.take 5 = k1)) =
        keys.flatMap (fun k1 => (uuids.filter (fun u => !decide (u.take 5 = k))).filter
          (fun u => u.take 5 = k1)) := by
      apply List.flatMap_congr
      intro k1 hk1
      rw [List.filter_filter]
      apply List.filter_congr
      intro u _
      have hne : k1 ≠ k := fun heq => hnodup.1 (heq ▸ hk1)
      by_cases hu : u.take 5 = k1
      · simp [hu, hne]
      · simp [hu]
    rw [hrest]
    have hperm := ih (uuids.filter (fun u => !decide (u.take 5 = k))) hnodup.2 (by
      intro u hu
      rw [List.mem_filter] at hu
      rcases List.mem_cons.1 (hall u hu.1) with heq | hmem
      · simp [heq] at hu
      · exact hmem)
    exact (List.Perm.append_left _ hperm).trans
      (List.filter_append_perm (fun u => decide (u.take 5 = k)) uuids)

set_option maxRecDepth 100000 in
theorem remoteParams_eq (params : url.Values) (content : GoString) :
    remoteParams params content =
      if params.has (ascii "select") = true then
        [(ascii "_method", [ascii "GET"]), (ascii "count", [ascii "none"]),
          (ascii "select", params.get (ascii "select")),
          (ascii "filters", [ascii "[[\"uuid\", \"in\", " ++ content ++ ascii "]]"])]
      else
        [(ascii "_method", [ascii "GET"]), (ascii "count", [ascii "none"]),
          (ascii "filters", [ascii "[[\"uuid\", \"in\", " ++ content ++ ascii "]]"])] := by
  unfold remoteParams
  by_cases hs : params.has (ascii "select") = true
  · rw [if_pos hs]
    dsimp only
    rw [if_pos hs]
    rfl
  · rw [if_neg hs]
    dsimp only
    rw [if_neg hs]
    rfl

set_option maxRecDepth 100000 in
/-- The parameters a sub-query carries in its body: `_method=GET`, `count=none`, the
one `filters` predicate over the text of the bucket, the values of `select` of
the inbound request, and nothing else. -/
theorem remoteReq_body (req : http.Request) (params : url.Values) (content : GoString) :
    (url.ParseQuery (remoteReq req params content).Body).2 = none ∧
      (url.ParseQuery (remoteReq req params content).Body).1.get (ascii "_method") =
        [ascii "GET"] ∧
      (url.ParseQuery (remoteReq req params content).Body).1.get (ascii "count") =
        [ascii "none"] ∧
      (url.ParseQuery (remoteReq req params content).Body).1.get (ascii "filters") =
        [ascii "[[\"uuid\", \"in\", " ++ content ++ ascii "]]"] ∧
      (url.ParseQuery (remoteReq req params content).Body).1.get (ascii "select") =
        params.get (ascii "select") ∧
      (∀ key, (url.ParseQuery (remoteReq req params content).Body).1.has key = true →
        key = ascii "_method" ∨ key = ascii "count" ∨ key = ascii "filters" ∨
          (key = ascii "select" ∧ params.has (ascii "select") = true)) := by
  have hbody : (remoteReq req params content).Body = (remoteParams params content).Encode := rfl
  rw [hbody, remoteParams_eq]
  by_cases hs : params.has (ascii "select") = true
  · rw [if_pos hs]
    obtain ⟨herr, hget, hhas⟩ := ParseQuery_Encode
      [(ascii "_method", [ascii "GET"]), (ascii "count", [ascii "none"]),
        (ascii "select", params.get (ascii "select")),
        (ascii "filters", [ascii "[[\"uuid\", \"in\", " ++ content ++ ascii "]]"])]
      (by decide :
        ([ascii "_method", ascii "count", ascii "select", ascii "filters"] : List GoString).Nodup)
    refine ⟨herr, ?_, ?_, ?_, ?_, ?_⟩
    · rw [hget]; rfl
    · rw [hget]; rfl
    · rw [hget]; rfl
    · rw [hget]; rfl
    · intro key hkey
      have := hhas key hkey
      simp only [List.map_cons, List.map_nil, List.mem_cons, List.mem_singleton,
        List.not_mem_nil, or_false] at this
      rcases this with h1 | h1 | h1 | h1
      · exact Or.inl h1
      · exact Or.inr (Or.inl h1)
      · exact Or.inr (Or.inr (Or.inr ⟨h1, hs⟩))
      · exact Or.inr (Or.inr (Or.inl h1))
  · rw [if_neg hs]
    obtain ⟨herr, hget, hhas⟩ := ParseQuery_Encode
      [(ascii "_method", [ascii "GET"]), (ascii "count", [ascii "none"]),
        (ascii "filters", [ascii "[[\"uuid\", \"in\", " ++ content ++ ascii "]]"])]
      (by decide : ([ascii "_method", ascii "count", ascii "filters"] : List GoString).Nodup)
    have hnone : params.get (ascii "select") = [] := by
      unfold url.Values.has at hs
      unfold url.Values.get
      cases hl : List.lookup (ascii "select") params with
      | none => rfl
      | some vs => rw [hl] at hs; exact absurd rfl hs
    refine ⟨herr, ?_, ?_, ?_, ?_, ?_⟩
    · rw [hget]; rfl
    · rw [hget]; rfl
    · rw [hget]; rfl
    · rw [hget, hnone]; rfl
    · intro key hkey
      have := hhas key hkey
      simp only [List.map_cons, List.map_nil, List.mem_cons, List.mem_singleton,
        List.not_mem_nil, or_false] at this
      rcases this with h1 | h1 | h1
      · exact Or.inl h1
      · exact Or.inr (Or.inl h1)
      · exact Or.inr (Or.inr (Or.inl h1))

set_option maxRecDepth 100000 in
/-- C24 at its failing input: the query for a workflow of `zzzzz` and one of `zz404`,
which is not a configured remote, fans out over the two buckets; the worker of
`zz404` ends in `remoteClusterRequest` with the call
`httpserver.Error(w, "no proxy available for cluster zz404", 404)` on the writer
of the client, and after the workers the reply is written to the same writer:
two status codes, 404 and then 200 with the items of `zzzzz`; the same two when
the worker of `zz404` finds the shared headers as the worker of `zzzzz` left
them. -/
theorem queryCluster_writes_to_client :
    exampleQueries.ServeHTTP
        (getRequest (ascii "/arvados/v1/workflows")
          (ascii "count=none&filters=[[\"uuid\",\"in\",[\"zzzzz-7fd4e-aaaaaaaaaaaaaaa\",\"zz404-7fd4e-bbbbbbbbbbbbbbb\"]]]")
          (ascii "Bearer 3kg6k6lzmp9kj5cpkcoxie963cmvjahbt2fod9zru30k1jqdmi")) =
      (Outcome.multiClusterQuery
          [(ascii "zzzzz", [ascii "zzzzz-7fd4e-aaaaaaaaaaaaaaa"]),
            (ascii "zz404", [ascii "zz404-7fd4e-bbbbbbbbbbbbbbb"])]
          [(ascii "count", [ascii "none"]),
            (ascii "filters",
              [ascii "[[\"uuid\",\"in\",[\"zzzzz-7fd4e-aaaaaaaaaaaaaaa\",\"zz404-7fd4e-bbbbbbbbbbbbbbb\"]]]"])],
        { getRequest (ascii "/arvados/v1/workflows")
            (ascii "count=none&filters=[[\"uuid\",\"in\",[\"zzzzz-7fd4e-aaaaaaaaaaaaaaa\",\"zz404-7fd4e-bbbbbbbbbbbbbbb\"]]]")
            (ascii "Bearer 3kg6k6lzmp9kj5cpkcoxie963cmvjahbt2fod9zru30k1jqdmi") with
          ContentType := ascii "application/x-www-form-urlencoded" }) ∧
    (exampleQueries.queryCluster exampleMarshal
        { getRequest (ascii "/arvados/v1/workflows")
            (ascii "count=none&filters=[[\"uuid\",\"in\",[\"zzzzz-7fd4e-aaaaaaaaaaaaaaa\",\"zz404-7fd4e-bbbbbbbbbbbbbbb\"]]]")
            (ascii "Bearer 3kg6k6lzmp9kj5cpkcoxie963cmvjahbt2fod9zru30k1jqdmi") with
          ContentType := ascii "application/x-www-form-urlencoded" }
        [(ascii "count", [ascii "none"]),
          (ascii "filters",
            [ascii "[[\"uuid\",\"in\",[\"zzzzz-7fd4e-aaaaaaaaaaaaaaa\",\"zz404-7fd4e-bbbbbbbbbbbbbbb\"]]]"])]
        (ascii "zz404") [ascii "zz404-7fd4e-bbbbbbbbbbbbbbb"]).map Prod.fst =
      .ok (Outcome.error (ascii "no proxy available for cluster zz404") 404) ∧
    (collectResponses [(some (workflowList (ascii "zzzzz-7fd4e-aaaaaaaaaaaaaaa")), none)]).map
        (clientStatusCodes
          ([(ascii "zzzzz", [ascii "zzzzz-7fd4e-aaaaaaaaaaaaaaa"]),
              (ascii "zz404", [ascii "zz404-7fd4e-bbbbbbbbbbbbbbb"])].map
            (fun kv => exampleQueries.queryCluster exampleMarshal
              { getRequest (ascii "/arvados/v1/workflows")
                  (ascii "count=none&filters=[[\"uuid\",\"in\",[\"zzzzz-7fd4e-aaaaaaaaaaaaaaa\",\"zz404-7fd4e-bbbbbbbbbbbbbbb\"]]]")
                  (ascii "Bearer 3kg6k6lzmp9kj5cpkcoxie963cmvjahbt2fod9zru30k1jqdmi") with
                ContentType := ascii "application/x-www-form-urlencoded" }
              [(ascii "count", [ascii "none"]),
                (ascii "filters",
                  [ascii "[[\"uuid\",\"in\",[\"zzzzz-7fd4e-aaaaaaaaaaaaaaa\",\"zz404-7fd4e-bbbbbbbbbbbbbbb\"]]]"])]
              kv.1 kv.2))) =
      some [404, 200] ∧
    (collectResponses [(some (workflowList (ascii "zzzzz-7fd4e-aaaaaaaaaaaaaaa")), none)]).map
        (clientStatusCodes
          (exampleQueries.queryClusters exampleMarshal
            { getRequest (ascii "/arvados/v1/workflows")
                (ascii "count=none&filters=[[\"uuid\",\"in\",[\"zzzzz-7fd4e-aaaaaaaaaaaaaaa\",\"zz404-7fd4e-bbbbbbbbbbbbbbb\"]]]")
                (ascii "Bearer 3kg6k6lzmp9kj5cpkcoxie963cmvjahbt2fod9zru30k1jqdmi") with
              ContentType := ascii "application/x-www-form-urlencoded" }
            [(ascii "count", [ascii "none"]),
              (ascii "filters",
                [ascii "[[\"uuid\",\"in\",[\"zzzzz-7fd4e-aaaaaaaaaaaaaaa\",\"zz404-7fd4e-bbbbbbbbbbbbbbb\"]]]"])]
            [(ascii "zzzzz", [ascii "zzzzz-7fd4e-aaaaaaaaaaaaaaa"]),
              (ascii "zz404", [ascii "zz404-7fd4e-bbbbbbbbbbbbbbb"])])) =
      some [404, 200] := by
  refine ⟨by decide, by decide, by decide, by decide⟩

/-- The worker of a bucket whose cluster is neither the local one nor a configured
remote writes the status 404 to the writer of the client itself. -/
theorem queryCluster_unknown_remote (h : genericFederatedRequestHandler)
    (Marshal : List GoString → Except Error GoString) (req : http.Request) (params : url.Values)
    (k : GoString) (v : List GoString) (content : GoString)
    (hmarshal : Marshal v = .ok content) (hlocal : k ≠ h.handler.Cluster.ClusterID)
    (hunknown : h.handler.Cluster.RemoteClusters.lookup k = none) :
    workerStatusCode (h.queryCluster Marshal req params k v) = some 404 := by
  unfold genericFederatedRequestHandler.queryCluster
  rw [hmarshal]
  dsimp only
  rw [if_neg hlocal]
  unfold Handler.remoteClusterRequest
  rw [hunknown]
  rfl


/-! ## What `remoteClusterRequest` does with a request, case by case -/

/-- The three ways `remoteClusterRequest` ends: 404 for a cluster that is not a
configured remote, 400 with the error of `saltAuthToken`, and otherwise the
request as `saltAuthToken` leaves it proxied to the host of the remote. -/
theorem remoteClusterRequest_cases (h : Handler) (remoteID : GoString) (req : http.Request)
    (filter : Option ResponseFilter) :
    (h.Cluster.RemoteClusters.lookup remoteID = none →
        h.remoteClusterRequest remoteID req filter =
          (Outcome.error (ascii "no proxy available for cluster " ++ remoteID) 404, req)) ∧
      (∀ remote req1, h.Cluster.RemoteClusters.lookup remoteID = some remote →
        h.saltAuthToken req remoteID = (none, req1) →
        h.remoteClusterRequest remoteID req filter =
          (Outcome.proxy
              { Scheme := if remote.Scheme = [] then ascii "https" else remote.Scheme,
                Host := remote.Host, Path := req1.Path, RawPath := req1.RawPath,
                RawQuery := req1.RawQuery }
              remote.Insecure filter, req1)) ∧
      (∀ remote err req1, h.Cluster.RemoteClusters.lookup remoteID = some remote →
        h.saltAuthToken req remoteID = (some err, req1) →
        h.remoteClusterRequest remoteID req filter = (Outcome.errorOf err 400, req1)) := by
  refine ⟨fun hnone => ?_, fun remote req1 hsome hsalt => ?_, fun remote err req1 hsome hsalt => ?_⟩
  · unfold Handler.remoteClusterRequest
    rw [hnone]
  · unfold Handler.remoteClusterRequest
    rw [hsome]
    dsimp only
    rw [hsalt]
  · unfold Handler.remoteClusterRequest
    rw [hsome]
    dsimp only
    rw [hsalt]

/-! ## The uuid in the path -/

theorem drop_one_take (X : GoString) (k : Nat) :
    X.drop 1 = (X.drop 1).take 5 ++ ((X.drop 6).take k ++
      ((X.drop (k + 6)).take 15 ++ X.drop (k + 21))) := by
  have h1 : X.drop 6 = (X.drop 1).drop 5 := by rw [List.drop_drop]
  have h2 : X.drop (k + 6) = (X.drop 6).drop k := by rw [List.drop_drop, Nat.add_comm]
  have h3 : X.drop (k + 21) = (X.drop (k + 6)).drop 15 := by
    rw [List.drop_drop]
  rw [h3, List.take_append_drop, h2, List.take_append_drop, h1, List.take_append_drop]

theorem uuidPath_eq (resource typecode cluster tail rest : GoString) :
    uuidPath resource typecode cluster tail rest =
      (ascii "/arvados/v1/" ++ resource) ++
        (byte '/' :: (cluster ++ ((byte '-' :: typecode ++ [byte '-']) ++ (tail ++ rest)))) := by
  unfold uuidPath
  simp only [List.append_assoc]

theorem lowerAlnum_no_newline (s : GoString) (h : s.all isLowerAlnum = true) :
    byte '\n' ∉ s :=
  not_mem_of_all isLowerAlnum s _ h (by decide)

/-- The pattern of a route on a path with a uuid of its type code right after
the prefix: the third element of the match is the cluster of the uuid. -/
theorem pathPattern_uuid (resource typecode cluster tail rest : GoString)
    (hc : cluster.length = 5) (hca : cluster.all isLowerAlnum = true)
    (ht : tail.length = 15) (hta : tail.all isLowerAlnum = true)
    (hty : byte '\n' ∉ typecode) (hrest : byte '\n' ∉ rest) :
    (pathPattern resource typecode (uuidPath resource typecode cluster tail rest)).map
      (fun m => m.getD 2 []) = some cluster := by
  have hd : (byte '-' :: typecode ++ [byte '-']).length = typecode.length + 2 := by simp
  have hX1 : (byte '/' :: (cluster ++ ((byte '-' :: typecode ++ [byte '-']) ++ (tail ++ rest)))).drop 1
      = cluster ++ ((byte '-' :: typecode ++ [byte '-']) ++ (tail ++ rest)) := rfl
  have hX6 : (byte '/' :: (cluster ++ ((byte '-' :: typecode ++ [byte '-']) ++ (tail ++ rest)))).drop 6
      = (byte '-' :: typecode ++ [byte '-']) ++ (tail ++ rest) := by
    show (cluster ++ _).drop 5 = _
    exact List.drop_left' hc
  have hX8 : (byte '/' :: (cluster ++ ((byte '-' :: typecode ++ [byte '-']) ++ (tail ++ rest)))).drop
      (typecode.length + 8) = tail ++ rest := by
    have : typecode.length + 8 = 6 + (typecode.length + 2) := by omega
    rw [this, ← List.drop_drop, hX6]
    exact List.drop_left' hd
  have hnl : byte '\n' ∉
      (byte '/' :: (cluster ++ ((byte '-' :: typecode ++ [byte '-']) ++ (tail ++ rest)))) := by
    have h1 := lowerAlnum_no_newline cluster hca
    have h2 := lowerAlnum_no_newline tail hta
    have h3 : byte '\n' ≠ byte '/' := by decide
    have h4 : byte '\n' ≠ byte '-' := by decide
    simp only [List.mem_cons, List.mem_append, List.mem_singleton, List.not_mem_nil, or_false]
    tauto
  rw [uuidPath_eq]
  unfold pathPattern
  dsimp only
  rw [if_pos (List.isPrefixOf_iff_prefix.2 (List.prefix_append _ _)), List.drop_left,
    if_neg hnl, hX1, hX6, hX8, List.take_left' hc, List.take_left' hd, List.take_left' ht]
  rw [if_pos ⟨rfl, hc, hca, rfl, ht, hta⟩]
  rfl

/-- The pattern of a route gives a cluster only for a path with a uuid of its type
code right after the prefix, and then the cluster of that uuid. -/
theorem pathPattern_cluster (resource typecode path : GoString) (m : List GoString)
    (hm : pathPattern resource typecode path = some m) (hne : m.getD 2 [] ≠ []) :
    ∃ cluster tail rest, path = uuidPath resource typecode cluster tail rest ∧
      cluster.length = 5 ∧ cluster.all isLowerAlnum = true ∧
      tail.length = 15 ∧ tail.all isLowerAlnum = true ∧ m.getD 2 [] = cluster := by
  unfold pathPattern at hm
  dsimp only at hm
  split_ifs at hm with hpre hnl hshape
  · obtain ⟨hhead, hc, hca, hdash, ht, hta⟩ := hshape
    have hpath : path = (ascii "/arvados/v1/" ++ resource) ++
        path.drop (ascii "/arvados/v1/" ++ resource).length := by
      obtain ⟨t, rfl⟩ := List.isPrefixOf_iff_prefix.1 hpre
      rw [List.drop_left]
    have hX : path.drop (ascii "/arvados/v1/" ++ resource).length =
        byte '/' :: (path.drop (ascii "/arvados/v1/" ++ resource).length).drop 1 := by
      cases hx : path.drop (ascii "/arvados/v1/" ++ resource).length with
      | nil => rw [hx] at hhead; cases hhead
      | cons a l =>
        rw [hx] at hhead
        simp only [List.head?_cons, Option.some.injEq] at hhead
        rw [hhead]
        rfl
    have hsplit := drop_one_take (path.drop (ascii "/arvados/v1/" ++ resource).length)
      (typecode.length + 2)
    have e1 : typecode.length + 2 + 6 = typecode.length + 8 := by omega
    have e2 : typecode.length + 2 + 21 = typecode.length + 23 := by omega
    rw [e1, e2, hdash] at hsplit
    refine ⟨((path.drop (ascii "/arvados/v1/" ++ resource).length).drop 1).take 5,
      ((path.drop (ascii "/arvados/v1/" ++ resource).length).drop (typecode.length + 8)).take 15,
      (path.drop (ascii "/arvados/v1/" ++ resource).length).drop (typecode.length + 23),
      ?_, hc, hca, ht, hta, ?_⟩
    · rw [uuidPath_eq]
      conv_lhs => rw [hpath, hX, hsplit]
    · cases hm
      rfl
  · cases hm
    exact absurd rfl hne

/-! ## What `saltAuthToken` leaves alone -/

theorem loadCredentials_of_content_type (h : Handler) (req : http.Request)
    (hct : req.ContentType ≠ ascii "application/x-www-form-encoded") :
    h.loadCredentials req = .ok (h.LoadTokensFromHTTPRequest req, req) := by
  unfold Handler.loadCredentials
  dsimp only
  rw [if_neg (fun hc => hct hc.2)]

theorem loadCredentials_fields (h : Handler) (req req1 : http.Request) (tokens : List GoString)
    (hcreds : h.loadCredentials req = .ok (tokens, req1)) :
    req1.Method = req.Method ∧ req1.ContentType = req.ContentType ∧ req1.Via = req.Via := by
  unfold Handler.loadCredentials at hcreds
  simp only at hcreds
  split at hcreds
  · split at hcreds
    · cases hcreds
    · simp only [Except.ok.injEq, Prod.mk.injEq] at hcreds
      obtain ⟨-, rfl⟩ := hcreds
      exact ⟨rfl, rfl, rfl⟩
  · simp only [Except.ok.injEq, Prod.mk.injEq] at hcreds
    obtain ⟨-, rfl⟩ := hcreds
    exact ⟨rfl, rfl, rfl⟩

/-- The method, the path and the headers other than `Authorization` are the same
after `saltAuthToken`. -/
theorem saltAuthToken_keeps (h : Handler) (req : http.Request) (remote : GoString) :
    (h.saltAuthToken req remote).2.Method = req.Method ∧
      (h.saltAuthToken req remote).2.Path = req.Path ∧
      (h.saltAuthToken req remote).2.RawPath = req.RawPath ∧
      (h.saltAuthToken req remote).2.ContentType = req.ContentType ∧
      (h.saltAuthToken req remote).2.Via = req.Via := by
  unfold Handler.saltAuthToken
  cases hcreds : h.loadCredentials req with
  | error err => exact ⟨rfl, rfl, rfl, rfl, rfl⟩
  | ok creds =>
    obtain ⟨tokens, req1⟩ := creds
    obtain ⟨-, -, hpath, hraw⟩ := loadCredentials_keeps h req req1 tokens hcreds
    obtain ⟨hmethod, hct, hvia⟩ := loadCredentials_fields h req req1 tokens hcreds
    dsimp only
    cases tokens with
    | nil => exact ⟨hmethod, hpath, hraw, hct, hvia⟩
    | cons token0 rest =>
      dsimp only
      cases hs : h.saltFirstToken req1 token0 remote with
      | error err => exact ⟨hmethod, hpath, hraw, hct, hvia⟩
      | ok token =>
        dsimp only
        cases hp : url.ParseQuery req1.RawQuery with
        | mk values perr =>
          cases perr with
          | some err => exact ⟨hmethod, hpath, hraw, hct, hvia⟩
          | none =>
            dsimp only
            split_ifs
            · exact ⟨hmethod, hpath, hraw, hct, hvia⟩
            · exact ⟨hmethod, hpath, hraw, hct, hvia⟩

/-- On a request without a query string and whose body is not searched for tokens,
`saltAuthToken` changes the `Authorization` header at most. -/
theorem saltAuthToken_header_only (h : Handler) (req : http.Request) (remote : GoString)
    (hct : req.ContentType ≠ ascii "application/x-www-form-encoded") (hquery : req.RawQuery = []) :
    (h.saltAuthToken req remote).2 =
      { req with Authorization := (h.saltAuthToken req remote).2.Authorization } := by
  unfold Handler.saltAuthToken
  rw [loadCredentials_of_content_type h req hct]
  dsimp only
  cases h.LoadTokensFromHTTPRequest req with
  | nil => rfl
  | cons token0 rest =>
    dsimp only
    cases hs : h.saltFirstToken req token0 remote with
    | error err => rfl
    | ok token =>
      dsimp only
      rw [hquery]
      have hp : url.ParseQuery [] = ([], none) := by decide
      rw [hp]
      rfl

/-! ## The workers of a query that fans out, and the header map they share -/

/-- The worker of a bucket, for the shared headers as the worker finds them: it
leaves `remoteReq` with at most another `Authorization`, and ends in
`localClusterRequest` for the local cluster, in 404 for a cluster that is not a
configured remote, and for a configured remote in `proxy.Do` to its host or in
400 when salting fails. -/
theorem queryCluster_sent (h : genericFederatedRequestHandler)
    (Marshal : List GoString → Except Error GoString) (cur : http.Request) (params : url.Values)
    (k : GoString) (v : List GoString) (content : GoString)
    (hct : cur.ContentType ≠ ascii "application/x-www-form-encoded")
    (hmarshal : Marshal v = .ok content) :
    ∃ outcome auth,
      h.queryCluster Marshal cur params k v =
        .ok (outcome, { remoteReq cur params content with Authorization := auth }) ∧
      (k = h.handler.Cluster.ClusterID →
        outcome = Outcome.localClusterRequest (some ResponseFilter.collectResponse)) ∧
      (k ≠ h.handler.Cluster.ClusterID → h.handler.Cluster.RemoteClusters.lookup k = none →
        outcome = Outcome.error (ascii "no proxy available for cluster " ++ k) 404) ∧
      (k ≠ h.handler.Cluster.ClusterID →
        ∀ remote, h.handler.Cluster.RemoteClusters.lookup k = some remote →
          outcome = Outcome.proxy
              { Scheme := if remote.Scheme = [] then ascii "https" else remote.Scheme,
                Host := remote.Host, Path := cur.Path, RawPath := [], RawQuery := [] }
              remote.Insecure (some ResponseFilter.collectResponse) ∨
            ∃ err, outcome = Outcome.errorOf err 400) := by
  unfold genericFederatedRequestHandler.queryCluster
  rw [hmarshal]
  dsimp only
  by_cases hlocal : k = h.handler.Cluster.ClusterID
  · rw [if_pos hlocal]
    exact ⟨Outcome.localClusterRequest (some ResponseFilter.collectResponse), cur.Authorization,
      rfl, fun _ => rfl, fun hne => absurd hlocal hne, fun hne => absurd hlocal hne⟩
  · rw [if_neg hlocal]
    obtain ⟨hnone, hproxy, herror⟩ := remoteClusterRequest_cases h.handler k
      (remoteReq cur params content) (some ResponseFilter.collectResponse)
    cases hl : h.handler.Cluster.RemoteClusters.lookup k with
    | none =>
      rw [hnone hl]
      refine ⟨Outcome.error (ascii "no proxy available for cluster " ++ k) 404, cur.Authorization,
        rfl, fun hk => absurd hk hlocal, fun _ _ => rfl, ?_⟩
      · intro _ remote hsome
        cases hsome
    | some remote =>
      have hhdr := saltAuthToken_header_only h.handler (remoteReq cur params content) k hct rfl
      cases hs : h.handler.saltAuthToken (remoteReq cur params content) k with
      | mk err req2 =>
        rw [hs] at hhdr
        dsimp only at hhdr
        cases err with
        | none =>
          rw [hproxy remote req2 hl hs]
          refine ⟨Outcome.proxy
              { Scheme := if remote.Scheme = [] then ascii "https" else remote.Scheme,
                Host := remote.Host, Path := req2.Path, RawPath := req2.RawPath,
                RawQuery := req2.RawQuery }
              remote.Insecure (some ResponseFilter.collectResponse),
            req2.Authorization, ?_, fun hk => absurd hk hlocal, ?_, ?_⟩
          · rw [← hhdr]
          · intro _ hnone1
            cases hnone1
          · intro _ remote1 hsome
            cases hsome
            left
            rw [hhdr]
            rfl
        | some err =>
          rw [herror remote err req2 hl hs]
          refine ⟨Outcome.errorOf err 400, req2.Authorization, ?_, fun hk => absurd hk hlocal,
            ?_, ?_⟩
          · rw [← hhdr]
          · intro _ hnone1
            cases hnone1
          · intro _ remote1 _
            exact Or.inr ⟨err, rfl⟩

/-- The shared headers after a worker differ from those before it in the
`Authorization` at most. -/
theorem sharedHeader_queryCluster (h : genericFederatedRequestHandler)
    (Marshal : List GoString → Except Error GoString) (req1 : http.Request) (params : url.Values)
    (k : GoString) (v : List GoString) (auth0 : GoString)
    (hct : req1.ContentType ≠ ascii "application/x-www-form-encoded") :
    ∃ auth, sharedHeader { req1 with Authorization := auth0 }
        (h.queryCluster Marshal { req1 with Authorization := auth0 } params k v) =
      { req1 with Authorization := auth } := by
  cases hm : Marshal v with
  | error err =>
    refine ⟨auth0, ?_⟩
    unfold genericFederatedRequestHandler.queryCluster
    rw [hm]
    rfl
  | ok content =>
    obtain ⟨outcome, auth, hworker, -⟩ := queryCluster_sent h Marshal
      { req1 with Authorization := auth0 } params k v content hct hm
    refine ⟨auth, ?_⟩
    rw [hworker]
    rfl

/-- Every worker of the fan-out, in whatever order the workers run, is the worker
of its bucket for some content of the shared `Authorization` header. -/
theorem queryClusters_workers (h : genericFederatedRequestHandler)
    (Marshal : List GoString → Except Error GoString) (req1 : http.Request) (params : url.Values)
    (hct : req1.ContentType ≠ ascii "application/x-www-form-encoded")
    (order : List (GoString × List GoString)) (auth0 : GoString) :
    List.Forall₂
      (fun kv worker => ∃ auth, worker =
        h.queryCluster Marshal { req1 with Authorization := auth } params kv.1 kv.2)
      order (h.queryClusters Marshal { req1 with Authorization := auth0 } params order) := by
  induction order generalizing auth0 with
  | nil => exact List.Forall₂.nil
  | cons kv order ih =>
    obtain ⟨k, v⟩ := kv
    unfold genericFederatedRequestHandler.queryClusters
    obtain ⟨auth, hauth⟩ := sharedHeader_queryCluster h Marshal req1 params k v auth0 hct
    rw [hauth]
    exact List.Forall₂.cons ⟨auth0, rfl⟩ (ih auth)

/-- C22: when the engine fans out, every element of every `in` list and every `=`
value is a requested uuid; the buckets have different keys; each bucket is not
empty and holds the requested uuids that start with its key, in request order
and as often as they were requested; every requested uuid has its bucket; the
buckets together are the requested uuids in another order. The workers share
the header map of the inbound request, so in whatever order they run each is
the worker of its bucket for some content of the `Authorization` header. For
every such content the worker of a bucket leaves a sub-query with the method
POST, the path of the inbound request, no query string, the form content type,
and a body that parses to `_method=GET`, `count=none`, the predicate
`[["uuid", "in", <the bucket as json.Marshal writes it>]]` under `filters`, the
values of `select` of the caller, and no other key (`select` itself only if the
caller had one); the sub-query goes to `localClusterRequest` for the local
cluster and to `proxy.Do` for the host of a configured remote, unless salting
fails, which is answered 400; a cluster that is neither is answered 404. -/
theorem multiClusterQuery_buckets (h : genericFederatedRequestHandler)
    (Marshal : List GoString → Except Error GoString)
    (req req1 : http.Request) (params : url.Values) (clusterId : GoString)
    (filters : List (List JSON)) (queryClusters : url.Values)
    (hparse : h.Unmarshal ((params.get (ascii "filters")).getD 0 []) = .ok filters)
    (hfanout : h.handleMultiClusterQuery req params clusterId =
      (MultiClusterResult.handled (Outcome.multiClusterQuery queryClusters params), req1)) :
    filters.flatMap predicateItems = (requestedUUIDs filters).map JSON.string ∧
      (queryClusters.map Prod.fst).Nodup ∧
      (∀ k v, (k, v) ∈ queryClusters →
        v ≠ [] ∧ v = (requestedUUIDs filters).filter (fun u => u.take 5 = k)) ∧
      (∀ u ∈ requestedUUIDs filters, u.take 5 ∈ queryClusters.map Prod.fst) ∧
      (queryClusters.flatMap Prod.snd).Perm (requestedUUIDs filters) ∧
      (∀ order, order.Perm queryClusters →
        List.Forall₂
          (fun kv worker => ∃ auth, worker =
            h.queryCluster Marshal { req1 with Authorization := auth } params kv.1 kv.2)
          order (h.queryClusters Marshal req1 params order)) ∧
      (∀ auth k v content, (k, v) ∈ queryClusters → Marshal v = .ok content →
        ∃ outcome sent,
          h.queryCluster Marshal { req1 with Authorization := auth } params k v =
            .ok (outcome, sent) ∧
          (k = h.handler.Cluster.ClusterID →
            outcome = Outcome.localClusterRequest (some ResponseFilter.collectResponse)) ∧
          (k ≠ h.handler.Cluster.ClusterID →
            h.handler.Cluster.RemoteClusters.lookup k = none →
            outcome = Outcome.error (ascii "no proxy available for cluster " ++ k) 404) ∧
          (k ≠ h.handler.Cluster.ClusterID →
            ∀ remote, h.handler.Cluster.RemoteClusters.lookup k = some remote →
              outcome = Outcome.proxy
                  { Scheme := if remote.Scheme = [] then ascii "https" else remote.Scheme,
                    Host := remote.Host, Path := req.Path, RawPath := [], RawQuery := [] }
                  remote.Insecure (some ResponseFilter.collectResponse) ∨
                ∃ err, outcome = Outcome.errorOf err 400) ∧
          sent.Method = ascii "POST" ∧
          sent.Path = req.Path ∧
          sent.RawQuery = [] ∧
          sent.ContentType = ascii "application/x-www-form-urlencoded" ∧
          (url.ParseQuery sent.Body).2 = none ∧
          (url.ParseQuery sent.Body).1.get (ascii "_method") = [ascii "GET"] ∧
          (url.ParseQuery sent.Body).1.get (ascii "count") = [ascii "none"] ∧
          (url.ParseQuery sent.Body).1.get (ascii "filters") =
            [ascii "[[\"uuid\", \"in\", " ++ content ++ ascii "]]"] ∧
          (url.ParseQuery sent.Body).1.get (ascii "select") = params.get (ascii "select") ∧
          (∀ key, (url.ParseQuery sent.Body).1.has key = true →
            key = ascii "_method" ∨ key = ascii "count" ∨ key = ascii "filters" ∨
              (key = ascii "select" ∧ params.has (ascii "select") = true))) := by
  obtain ⟨⟨clusterId1, hsplit⟩, hreq⟩ :=
    handleMultiClusterQuery_fanout h req req1 params clusterId filters queryClusters hparse hfanout
  obtain ⟨-, hsafe⟩ := splitFilter_foldlM_safe filters _ _ hsplit
  have hq := splitFilter_foldlM_inv filters _ _ hsplit
  have hqc : queryClusters = (bucketUUIDs (clusterId, []) (requestedUUIDs filters)).2 := by
    rw [← hq]
  obtain ⟨hnodup, hkeys, hget⟩ := bucketUUIDs_spec clusterId (requestedUUIDs filters)
  rw [← hqc] at hnodup hkeys hget
  have hbucket : ∀ k v, (k, v) ∈ queryClusters →
      v = (requestedUUIDs filters).filter (fun u => u.take 5 = k) := by
    intro k v hkv
    rw [← hget k, lookup_of_mem queryClusters hnodup k v hkv]
  have hct : req1.ContentType ≠ ascii "application/x-www-form-encoded" := by
    rw [hreq]
    exact (by decide : ascii "application/x-www-form-urlencoded" ≠
      ascii "application/x-www-form-encoded")
  refine ⟨?_, hnodup, fun k v hkv => ⟨?_, hbucket k v hkv⟩, fun u hu => ?_, ?_,
    fun order _ => queryClusters_workers h Marshal req1 params hct order req1.Authorization,
    fun auth k v content hkv hcontent => ?_⟩
  · unfold requestedUUIDs
    rw [List.map_flatMap]
    apply List.flatMap_congr
    intro f1 hf1
    exact items_of_safe _ (hsafe f1 hf1)
  · have hk : k ∈ queryClusters.map Prod.fst := List.mem_map.2 ⟨(k, v), hkv, rfl⟩
    obtain ⟨u, hu, hku⟩ := List.mem_map.1 ((hkeys k).1 hk)
    rw [hbucket k v hkv]
    exact List.ne_nil_of_mem (List.mem_filter.2 ⟨hu, by simpa using hku⟩)
  · exact (hkeys _).2 (List.mem_map.2 ⟨u, hu, rfl⟩)
  · have hflat : queryClusters.flatMap Prod.snd =
        (queryClusters.map Prod.fst).flatMap
          (fun k => (requestedUUIDs filters).filter (fun u => u.take 5 = k)) := by
      rw [List.flatMap_map]
      apply List.flatMap_congr
      intro kv hkv
      exact hbucket kv.1 kv.2 hkv
    rw [hflat]
    exact flatMap_filter_perm _ _ hnodup
      (fun u hu => (hkeys _).2 (List.mem_map.2 ⟨u, hu, rfl⟩))
  · obtain ⟨outcome, auth1, hworker, hlocal, hunknown, hremote⟩ := queryCluster_sent h Marshal
      { req1 with Authorization := auth } params k v content hct hcontent
    have hpath : req1.Path = req.Path := by rw [hreq]
    have hctype : req1.ContentType = ascii "application/x-www-form-urlencoded" := by rw [hreq]
    refine ⟨outcome,
      { remoteReq { req1 with Authorization := auth } params content with Authorization := auth1 },
      hworker, hlocal, hunknown, ?_, rfl, hpath, rfl, hctype,
      remoteReq_body { req1 with Authorization := auth } params content⟩
    intro hne remote hsome
    have := hremote hne remote hsome
    rw [show ({ req1 with Authorization := auth } : http.Request).Path = req.Path from hpath]
      at this
    exact this

set_option maxRecDepth 100000 in
theorem multiClusterQuery_buckets_witness :
    ([(ascii "zzzzz", [ascii "zzzzz-7fd4e-aaaaaaaaaaaaaaa"]),
          (ascii "zmock", [ascii "zmock-7fd4e-bbbbbbbbbbbbbbb"])].flatMap Prod.snd).Perm
        (requestedUUIDs exampleFilters) ∧
      List.Forall₂
        (fun kv worker => ∃ auth, worker =
          exampleQueries.queryCluster exampleMarshal
            { getRequest (ascii "/arvados/v1/workflows") []
                (ascii "Bearer 3kg6k6lzmp9kj5cpkcoxie963cmvjahbt2fod9zru30k1jqdmi") with
              ContentType := ascii "application/x-www-form-urlencoded", Authorization := auth }
            [(ascii "filters",
                [ascii "[[\"uuid\",\"in\",[\"zzzzz-7fd4e-aaaaaaaaaaaaaaa\",\"zmock-7fd4e-bbbbbbbbbbbbbbb\"]]]"]),
              (ascii "count", [ascii "none"])]
            kv.1 kv.2)
        [(ascii "zmock", [ascii "zmock-7fd4e-bbbbbbbbbbbbbbb"]),
          (ascii "zzzzz", [ascii "zzzzz-7fd4e-aaaaaaaaaaaaaaa"])]
        (exampleQueries.queryClusters exampleMarshal
          { getRequest (ascii "/arvados/v1/workflows") []
              (ascii "Bearer 3kg6k6lzmp9kj5cpkcoxie963cmvjahbt2fod9zru30k1jqdmi") with
            ContentType := ascii "application/x-www-form-urlencoded" }
          [(ascii "filters",
              [ascii "[[\"uuid\",\"in\",[\"zzzzz-7fd4e-aaaaaaaaaaaaaaa\",\"zmock-7fd4e-bbbbbbbbbbbbbbb\"]]]"]),
            (ascii "count", [ascii "none"])]
          [(ascii "zmock", [ascii "zmock-7fd4e-bbbbbbbbbbbbbbb"]),
            (ascii "zzzzz", [ascii "zzzzz-7fd4e-aaaaaaaaaaaaaaa"])]) :=
  (fun hbuckets => ⟨hbuckets.2.2.2.2.1,
      hbuckets.2.2.2.2.2.1
        [(ascii "zmock", [ascii "zmock-7fd4e-bbbbbbbbbbbbbbb"]),
          (ascii "zzzzz", [ascii "zzzzz-7fd4e-aaaaaaaaaaaaaaa"])]
        (List.Perm.swap _ _ [])⟩)
    (multiClusterQuery_buckets exampleQueries exampleMarshal
      (getRequest (ascii "/arvados/v1/workflows") []
        (ascii "Bearer 3kg6k6lzmp9kj5cpkcoxie963cmvjahbt2fod9zru30k1jqdmi"))
      { getRequest (ascii "/arvados/v1/workflows") []
          (ascii "Bearer 3kg6k6lzmp9kj5cpkcoxie963cmvjahbt2fod9zru30k1jqdmi") with
        ContentType := ascii "application/x-www-form-urlencoded" }
      [(ascii "filters",
          [ascii "[[\"uuid\",\"in\",[\"zzzzz-7fd4e-aaaaaaaaaaaaaaa\",\"zmock-7fd4e-bbbbbbbbbbbbbbb\"]]]"]),
        (ascii "count", [ascii "none"])]
      [] exampleFilters
      [(ascii "zzzzz", [ascii "zzzzz-7fd4e-aaaaaaaaaaaaaaa"]),
        (ascii "zmock", [ascii "zmock-7fd4e-bbbbbbbbbbbbbbb"])]
      rfl (by decide))

set_option maxRecDepth 100000 in
set_option maxHeartbeats 4000000 in
/-- The shared header map at work: the query for a workflow of `zzzzz` and one of
`zmock`, both configured remotes, with a token of the local store. The worker
that runs first salts the token for its cluster and is proxied; it leaves the
salted token in the shared `Authorization` header, so the worker that runs
second finds a token salted for another cluster and answers 400 on the writer
of the client, and the reply after the workers is a second status code. -/
theorem queryClusters_shared_header :
    (exampleQueries.queryClusters exampleMarshal
        { getRequest (ascii "/arvados/v1/workflows") []
            (ascii "Bearer 3kg6k6lzmp9kj5cpkcoxie963cmvjahbt2fod9zru30k1jqdmi") with
          ContentType := ascii "application/x-www-form-urlencoded" }
        [(ascii "filters",
            [ascii "[[\"uuid\",\"in\",[\"zzzzz-7fd4e-aaaaaaaaaaaaaaa\",\"zmock-7fd4e-bbbbbbbbbbbbbbb\"]]]"]),
          (ascii "count", [ascii "none"])]
        [(ascii "zzzzz", [ascii "zzzzz-7fd4e-aaaaaaaaaaaaaaa"]),
          (ascii "zmock", [ascii "zmock-7fd4e-bbbbbbbbbbbbbbb"])]).map
          (fun worker => worker.map (fun r => (r.1, r.2.Authorization))) =
      [.ok (Outcome.proxy
            { Scheme := ascii "http", Host := ascii "zzzzz.example",
              Path := ascii "/arvados/v1/workflows", RawPath := [], RawQuery := [] }
            false (some ResponseFilter.collectResponse),
          ascii "Bearer v2/zhome-gj3su-077z32aux8dg2s1/282d7d172b6cfdce364c5ed12ddf7417b2d00065"),
        .ok (Outcome.errorOf (Error.salt auth.Error.ErrSalted) 400,
          ascii "Bearer v2/zhome-gj3su-077z32aux8dg2s1/282d7d172b6cfdce364c5ed12ddf7417b2d00065")] ∧
    (collectResponses [(some (workflowList (ascii "zzzzz-7fd4e-aaaaaaaaaaaaaaa")), none)]).map
        (clientStatusCodes
          (exampleQueries.queryClusters exampleMarshal
            { getRequest (ascii "/arvados/v1/workflows") []
                (ascii "Bearer 3kg6k6lzmp9kj5cpkcoxie963cmvjahbt2fod9zru30k1jqdmi") with
              ContentType := ascii "application/x-www-form-urlencoded" }
            [(ascii "filters",
                [ascii "[[\"uuid\",\"in\",[\"zzzzz-7fd4e-aaaaaaaaaaaaaaa\",\"zmock-7fd4e-bbbbbbbbbbbbbbb\"]]]"]),
              (ascii "count", [ascii "none"])]
            [(ascii "zzzzz", [ascii "zzzzz-7fd4e-aaaaaaaaaaaaaaa"]),
              (ascii "zmock", [ascii "zmock-7fd4e-bbbbbbbbbbbbbbb"])])) =
      some [400, 200] := by
  refine ⟨by decide, by decide⟩

/-! ## The router, case by case -/

/-- A request whose query string, or form body on a form-urlencoded POST, does not
parse is answered 400 with the error of the parser. -/
theorem ServeHTTP_bad_params (h : genericFederatedRequestHandler) (req : http.Request)
    (err : Error) (hparams : requestParams req = .error err) :
    h.ServeHTTP req = (Outcome.errorOf err 400, req) := by
  unfold requestParams at hparams
  unfold genericFederatedRequestHandler.ServeHTTP
  simp only
  cases hq : url.ParseQuery req.RawQuery with
  | mk query qerr =>
    rw [hq] at hparams
    cases qerr with
    | some err1 =>
      simp only [Except.error.injEq] at hparams
      rw [hparams]
    | none =>
      simp only at hparams ⊢
      split at hparams
      · rename_i hpost
        rw [if_pos hpost]
        unfold loadParamsFromForm
        cases hb : url.ParseQuery req.Body with
        | mk form ferr =>
          rw [hb] at hparams
          cases ferr with
          | some err1 =>
            simp only [Except.error.injEq] at hparams
            rw [hparams]
          | none => simp at hparams
      · simp at hparams

/-- The router on a request whose parameters parse and for which the engine is not
attempted: it routes by the chosen cluster ID. -/
theorem ServeHTTP_not_attempted (h : genericFederatedRequestHandler)
    (req : http.Request) (params : url.Values)
    (hparams : requestParams req = .ok params)
    (hnot : ¬ multiClusterAttempted h.matcher req params) :
    h.ServeHTTP req =
      if chosenClusterID h.matcher req params = [] ∨
          chosenClusterID h.matcher req params = h.handler.Cluster.ClusterID then
        (Outcome.next, req)
      else h.handler.remoteClusterRequest (chosenClusterID h.matcher req params) req none := by
  unfold requestParams at hparams
  unfold genericFederatedRequestHandler.ServeHTTP
  simp only
  cases hq : url.ParseQuery req.RawQuery with
  | mk query qerr =>
    rw [hq] at hparams
    cases qerr with
    | some err => simp at hparams
    | none =>
      simp only at hparams ⊢
      have hmerged : (if req.Method = ascii "POST" ∧
            req.ContentType = ascii "application/x-www-form-urlencoded" then
          loadParamsFromForm req query
        else (none, query)) = (none, params) := by
        split at hparams
        · rename_i hpost
          rw [if_pos hpost]
          unfold loadParamsFromForm
          cases hb : url.ParseQuery req.Body with
          | mk form ferr =>
            rw [hb] at hparams
            cases ferr with
            | some err => simp at hparams
            | none =>
              simp only [Except.ok.injEq] at hparams
              simp only [hparams]
        · rename_i hpost
          rw [if_neg hpost]
          simp only [Except.ok.injEq] at hparams
          rw [hparams]
      rw [hmerged]
      simp only
      rw [cluster_id_param, effective_method_param]
      have hcond : ¬ (effectiveMethod req params = ascii "GET" ∧
          chosenClusterID h.matcher req params = [] ∧
          (params.get (ascii "filters")).length = 1) := hnot
      rw [if_neg hcond]

/-- What the router does with a request it routes to a cluster that is neither
empty nor the local one: 404 for a cluster that is not a configured remote, and
for a configured remote `proxy.Do` to its host with the path of the request and
the query string `saltAuthToken` leaves, or 400 when salting fails. -/
theorem remoteClusterRequest_routes (h : Handler) (remoteID : GoString) (req : http.Request)
    (filter : Option ResponseFilter) :
    (h.Cluster.RemoteClusters.lookup remoteID = none →
        h.remoteClusterRequest remoteID req filter =
          (Outcome.error (ascii "no proxy available for cluster " ++ remoteID) 404, req)) ∧
      (∀ remote, h.Cluster.RemoteClusters.lookup remoteID = some remote →
        (∀ req1, h.saltAuthToken req remoteID = (none, req1) →
          h.remoteClusterRequest remoteID req filter =
            (Outcome.proxy
                { Scheme := if remote.Scheme = [] then ascii "https" else remote.Scheme,
                  Host := remote.Host, Path := req.Path, RawPath := req.RawPath,
                  RawQuery := req1.RawQuery }
                remote.Insecure filter, req1)) ∧
        (∀ err req1, h.saltAuthToken req remoteID = (some err, req1) →
          h.remoteClusterRequest remoteID req filter = (Outcome.errorOf err 400, req1))) := by
  obtain ⟨hnone, hproxy, herror⟩ := remoteClusterRequest_cases h remoteID req filter
  refine ⟨hnone, fun remote hsome => ⟨fun req1 hsalt => ?_, fun err req1 hsalt =>
    herror remote err req1 hsome hsalt⟩⟩
  obtain ⟨-, hpath, hraw, -, -⟩ := saltAuthToken_keeps h req remoteID
  rw [hsalt] at hpath hraw
  dsimp only at hpath hraw
  rw [hproxy remote req1 hsome hsalt, hpath, hraw]

/-- The cluster ID the router chooses, for the matcher of a route: the one
`cluster_id` parameter; without exactly one, the cluster of a uuid of the type
code of the route right after the prefix of the route in the path, and empty for
every other path. -/
theorem chosenClusterID_spec (resource typecode : GoString) (req : http.Request)
    (params : url.Values) (htypecode : byte '\n' ∉ typecode) :
    (∀ c, params.get (ascii "cluster_id") = [c] →
        chosenClusterID (pathPattern resource typecode) req params = c) ∧
      ((params.get (ascii "cluster_id")).length ≠ 1 →
        (∀ cluster tail rest, req.Path = uuidPath resource typecode cluster tail rest →
          cluster.length = 5 → cluster.all isLowerAlnum = true → tail.length = 15 →
          tail.all isLowerAlnum = true → byte '\n' ∉ rest →
          chosenClusterID (pathPattern resource typecode) req params = cluster) ∧
        (chosenClusterID (pathPattern resource typecode) req params ≠ [] →
          ∃ cluster tail rest, req.Path = uuidPath resource typecode cluster tail rest ∧
            cluster.length = 5 ∧ cluster.all isLowerAlnum = true ∧ tail.length = 15 ∧
            tail.all isLowerAlnum = true ∧
            chosenClusterID (pathPattern resource typecode) req params = cluster)) := by
  have hpath : (params.get (ascii "cluster_id")).length ≠ 1 →
      chosenClusterID (pathPattern resource typecode) req params =
        ((pathPattern resource typecode req.Path).map (fun m => m.getD 2 [])).getD [] := by
    intro hlen
    unfold chosenClusterID
    cases hc : params.get (ascii "cluster_id") with
    | nil =>
      dsimp only
      cases pathPattern resource typecode req.Path <;> rfl
    | cons a l =>
      cases l with
      | nil => rw [hc] at hlen; exact absurd rfl hlen
      | cons b l =>
        dsimp only
        cases pathPattern resource typecode req.Path <;> rfl
  refine ⟨fun c hc => ?_, fun hlen => ⟨?_, ?_⟩⟩
  · unfold chosenClusterID
    rw [hc]
  · intro cluster tail rest hp hc hca ht hta hrest
    rw [hpath hlen, hp, pathPattern_uuid resource typecode cluster tail rest hc hca ht hta
      htypecode hrest]
    rfl
  · intro hne
    rw [hpath hlen] at hne ⊢
    cases hm : pathPattern resource typecode req.Path with
    | none =>
      rw [hm] at hne
      exact absurd rfl hne
    | some m =>
      rw [hm] at hne
      exact pathPattern_cluster resource typecode req.Path m hm hne

set_option maxRecDepth 100000 in
/-- C7 fails in four ways, on requests for which the engine is not attempted.
`GET /arvados/v1/workflows?%zz` names no cluster, yet is answered 400 and does
not go to the next handler; so is a form-urlencoded POST to the same path with
the body `%zz`. `GET /arvados/v1/workflows/zz404-7fd4e-cu0ln0wcb3qo4ru` chooses
the cluster `zz404`, which is neither empty nor local nor a configured remote,
and is answered 404 instead of being proxied.
`GET /arvados/v1/workflows/zzzzz-7fd4e-cu0ln0wcb3qo4ru` with the token `abc`
chooses the configured remote `zzzzz`, and is answered 400 because the token
cannot be salted. -/
theorem ServeHTTP_answers_without_routing :
    (exampleWorkflows.ServeHTTP (getRequest (ascii "/arvados/v1/workflows") (ascii "%zz") []) =
        (Outcome.errorOf (Error.parseQuery (ascii "%zz")) 400,
          getRequest (ascii "/arvados/v1/workflows") (ascii "%zz") []) ∧
      wfRe (ascii "/arvados/v1/workflows") = some [ascii "/arvados/v1/workflows", [], [], []] ∧
      (url.ParseQuery (ascii "%zz")).1 = []) ∧
    exampleWorkflows.ServeHTTP
        { getRequest (ascii "/arvados/v1/workflows") [] [] with
          Method := ascii "POST", ContentType := ascii "application/x-www-form-urlencoded",
          Body := ascii "%zz" } =
      (Outcome.errorOf (Error.parseQuery (ascii "%zz")) 400,
        { getRequest (ascii "/arvados/v1/workflows") [] [] with
          Method := ascii "POST", ContentType := ascii "application/x-www-form-urlencoded",
          Body := ascii "%zz" }) ∧
    (requestParams
          (getRequest (ascii "/arvados/v1/workflows/zz404-7fd4e-cu0ln0wcb3qo4ru") []
            (ascii "Bearer 3kg6k6lzmp9kj5cpkcoxie963cmvjahbt2fod9zru30k1jqdmi")) = .ok [] ∧
      ¬ multiClusterAttempted exampleWorkflows.matcher
          (getRequest (ascii "/arvados/v1/workflows/zz404-7fd4e-cu0ln0wcb3qo4ru") []
            (ascii "Bearer 3kg6k6lzmp9kj5cpkcoxie963cmvjahbt2fod9zru30k1jqdmi")) [] ∧
      chosenClusterID exampleWorkflows.matcher
          (getRequest (ascii "/arvados/v1/workflows/zz404-7fd4e-cu0ln0wcb3qo4ru") []
            (ascii "Bearer 3kg6k6lzmp9kj5cpkcoxie963cmvjahbt2fod9zru30k1jqdmi")) [] =
        ascii "zz404" ∧
      exampleWorkflows.handler.Cluster.ClusterID = ascii "zhome" ∧
      exampleWorkflows.ServeHTTP
          (getRequest (ascii "/arvados/v1/workflows/zz404-7fd4e-cu0ln0wcb3qo4ru") []
            (ascii "Bearer 3kg6k6lzmp9kj5cpkcoxie963cmvjahbt2fod9zru30k1jqdmi")) =
        (Outcome.error (ascii "no proxy available for cluster zz404") 404,
          getRequest (ascii "/arvados/v1/workflows/zz404-7fd4e-cu0ln0wcb3qo4ru") []
            (ascii "Bearer 3kg6k6lzmp9kj5cpkcoxie963cmvjahbt2fod9zru30k1jqdmi"))) ∧
    (requestParams
          (getRequest (ascii "/arvados/v1/workflows/zzzzz-7fd4e-cu0ln0wcb3qo4ru") []
            (ascii "Bearer abc")) = .ok [] ∧
      ¬ multiClusterAttempted exampleWorkflows.matcher
          (getRequest (ascii "/arvados/v1/workflows/zzzzz-7fd4e-cu0ln0wcb3qo4ru") []
            (ascii "Bearer abc")) [] ∧
      chosenClusterID exampleWorkflows.matcher
          (getRequest (ascii "/arvados/v1/workflows/zzzzz-7fd4e-cu0ln0wcb3qo4ru") []
            (ascii "Bearer abc")) [] =
        ascii "zzzzz" ∧
      (exampleWorkflows.handler.Cluster.RemoteClusters.lookup (ascii "zzzzz")).isSome = true ∧
      exampleWorkflows.ServeHTTP
          (getRequest (ascii "/arvados/v1/workflows/zzzzz-7fd4e-cu0ln0wcb3qo4ru") []
            (ascii "Bearer abc")) =
        (Outcome.errorOf (Error.salt auth.Error.ErrTokenFormat) 400,
          getRequest (ascii "/arvados/v1/workflows/zzzzz-7fd4e-cu0ln0wcb3qo4ru") []
            (ascii "Bearer abc"))) := by
  refine ⟨by decide, by decide,
    ⟨by decide, (by unfold multiClusterAttempted; decide), by decide, by decide, by decide⟩,
    ⟨by decide, (by unfold multiClusterAttempted; decide), by decide, by decide, by decide⟩⟩

/-- C7, as the code has it. A request whose query string, or form body on a
form-urlencoded POST, does not parse is answered 400. For a request whose
parameters parse, on a route of `pathPattern` (workflows, containers and
container_requests are three), the chosen cluster ID is the one `cluster_id`
parameter; without exactly one it is the five-byte cluster of the uuid of the
route's type code matched in the path, and empty for a path without one. When
the multi-cluster query engine is not attempted, the request goes unchanged to
the next handler exactly when that ID is empty or the local cluster ID;
otherwise it is handed to `remoteClusterRequest` for that ID, which answers 404
when the ID is not a configured remote, answers 400 when salting the credential
fails, and else proxies the request to the host of that remote, under the path
of the request. -/
theorem ServeHTTP_routes_by_cluster_id (h : genericFederatedRequestHandler)
    (resource typecode : GoString) (req : http.Request)
    (hmatcher : h.matcher = pathPattern resource typecode)
    (htypecode : byte '\n' ∉ typecode) :
    (∀ err, requestParams req = .error err → h.ServeHTTP req = (Outcome.errorOf err 400, req)) ∧
    (∀ params, requestParams req = .ok params →
      ((∀ c, params.get (ascii "cluster_id") = [c] →
          chosenClusterID h.matcher req params = c) ∧
        ((params.get (ascii "cluster_id")).length ≠ 1 →
          (∀ cluster tail rest, req.Path = uuidPath resource typecode cluster tail rest →
            cluster.length = 5 → cluster.all isLowerAlnum = true → tail.length = 15 →
            tail.all isLowerAlnum = true → byte '\n' ∉ rest →
            chosenClusterID h.matcher req params = cluster) ∧
          (chosenClusterID h.matcher req params ≠ [] →
            ∃ cluster tail rest, req.Path = uuidPath resource typecode cluster tail rest ∧
              cluster.length = 5 ∧ cluster.all isLowerAlnum = true ∧ tail.length = 15 ∧
              tail.all isLowerAlnum = true ∧
              chosenClusterID h.matcher req params = cluster))) ∧
      (¬ multiClusterAttempted h.matcher req params →
        ((h.ServeHTTP req).1 = Outcome.next ↔
          (chosenClusterID h.matcher req params = [] ∨
            chosenClusterID h.matcher req params = h.handler.Cluster.ClusterID)) ∧
        (chosenClusterID h.matcher req params = [] ∨
            chosenClusterID h.matcher req params = h.handler.Cluster.ClusterID →
          h.ServeHTTP req = (Outcome.next, req)) ∧
        (¬ (chosenClusterID h.matcher req params = [] ∨
            chosenClusterID h.matcher req params = h.handler.Cluster.ClusterID) →
          h.ServeHTTP req =
              h.handler.remoteClusterRequest (chosenClusterID h.matcher req params) req none ∧
            (h.handler.Cluster.RemoteClusters.lookup (chosenClusterID h.matcher req params) =
                none →
              h.ServeHTTP req =
                (Outcome.error (ascii "no proxy available for cluster " ++
                  chosenClusterID h.matcher req params) 404, req)) ∧
            (∀ remote,
              h.handler.Cluster.RemoteClusters.lookup (chosenClusterID h.matcher req params) =
                some remote →
              (∀ req1,
                h.handler.saltAuthToken req (chosenClusterID h.matcher req params) =
                  (none, req1) →
                h.ServeHTTP req =
                  (Outcome.proxy
                      { Scheme := if remote.Scheme = [] then ascii "https" else remote.Scheme,
                        Host := remote.Host, Path := req.Path, RawPath := req.RawPath,
                        RawQuery := req1.RawQuery }
                      remote.Insecure none, req1)) ∧
              (∀ err req1,
                h.handler.saltAuthToken req (chosenClusterID h.matcher req params) =
                  (some err, req1) →
                h.ServeHTTP req = (Outcome.errorOf err 400, req1)))))) := by
  refine ⟨fun err herr => ServeHTTP_bad_params h req err herr, fun params hparams => ⟨?_, ?_⟩⟩
  · rw [hmatcher]
    exact chosenClusterID_spec resource typecode req params htypecode
  · intro hnot
    have hserve := ServeHTTP_not_attempted h req params hparams hnot
    refine ⟨⟨fun hnext => ?_, fun hc => by rw [hserve, if_pos hc]⟩,
      fun hc => by rw [hserve, if_pos hc], fun hc => ?_⟩
    · by_contra hc
      rw [hserve, if_neg hc] at hnext
      exact remoteClusterRequest_ne_next _ _ _ _ hnext
    · have hremote : h.ServeHTTP req =
          h.handler.remoteClusterRequest (chosenClusterID h.matcher req params) req none := by
        rw [hserve, if_neg hc]
      obtain ⟨hnone, hsome⟩ := remoteClusterRequest_routes h.handler
        (chosenClusterID h.matcher req params) req none
      refine ⟨hremote, fun hl => by rw [hremote, hnone hl], fun remote hl =>
        ⟨fun req1 hsalt => ?_, fun err req1 hsalt => ?_⟩⟩
      · rw [hremote, (hsome remote hl).1 req1 hsalt]
      · rw [hremote, (hsome remote hl).2 err req1 hsalt]

set_option maxRecDepth 100000 in
theorem ServeHTTP_routes_by_cluster_id_witness :
    chosenClusterID exampleWorkflows.matcher
        (getRequest (ascii "/arvados/v1/workflows/zzzzz-7fd4e-cu0ln0wcb3qo4ru") []
          (ascii "Bearer 3kg6k6lzmp9kj5cpkcoxie963cmvjahbt2fod9zru30k1jqdmi")) [] =
      ascii "zzzzz" ∧
    exampleWorkflows.ServeHTTP
        (getRequest (ascii "/arvados/v1/workflows/zzzzz-7fd4e-cu0ln0wcb3qo4ru") []
          (ascii "Bearer 3kg6k6lzmp9kj5cpkcoxie963cmvjahbt2fod9zru30k1jqdmi")) =
      (Outcome.proxy
          { Scheme := ascii "http", Host := ascii "zzzzz.example",
            Path := ascii "/arvados/v1/workflows/zzzzz-7fd4e-cu0ln0wcb3qo4ru", RawPath := [],
            RawQuery := [] }
          false none,
        getRequest (ascii "/arvados/v1/workflows/zzzzz-7fd4e-cu0ln0wcb3qo4ru") []
          (ascii "Bearer v2/zhome-gj3su-077z32aux8dg2s1/282d7d172b6cfdce364c5ed12ddf7417b2d00065")) :=
  (fun hroutes =>
    ⟨((hroutes.2 [] (by decide)).1.2 (by decide)).1 (ascii "zzzzz") (ascii "cu0ln0wcb3qo4ru") []
        (by decide) (by decide) (by decide) (by decide) (by decide) (by decide),
      ((((hroutes.2 [] (by decide)).2 (by unfold multiClusterAttempted; decide)).2.2
        (by decide)).2.2
        { Host := ascii "zzzzz.example", Proxy := true, Scheme := ascii "http",
          Insecure := false }
        (by decide)).1
        (getRequest (ascii "/arvados/v1/workflows/zzzzz-7fd4e-cu0ln0wcb3qo4ru") []
          (ascii "Bearer v2/zhome-gj3su-077z32aux8dg2s1/282d7d172b6cfdce364c5ed12ddf7417b2d00065"))
        (by decide)⟩)
    (ServeHTTP_routes_by_cluster_id exampleWorkflows (ascii "workflows") (ascii "7fd4e")
      (getRequest (ascii "/arvados/v1/workflows/zzzzz-7fd4e-cu0ln0wcb3qo4ru") []
        (ascii "Bearer 3kg6k6lzmp9kj5cpkcoxie963cmvjahbt2fod9zru30k1jqdmi"))
      rfl (by decide))

/-! ## A query for uuids of one cluster -/

set_option maxRecDepth 100000 in
/-- C23 fails for a prefix that is not a configured remote and for a credential
that cannot be salted. The query
`GET /arvados/v1/workflows?filters=[["uuid","=","zz404-7fd4e-bbbbbbbbbbbbbbb"]]`
names one uuid, of `zz404`: the engine reports not handled with `zz404`, which is
not the local cluster, and the router answers 404 with no remote contacted. The
same query for a uuid of the configured remote `zzzzz` with the token `abc` is
answered 400. -/
theorem ServeHTTP_single_cluster_not_proxied :
    (exampleQueries.handleMultiClusterQuery
          (getRequest (ascii "/arvados/v1/workflows")
            (ascii "filters=[[\"uuid\",\"=\",\"zz404-7fd4e-bbbbbbbbbbbbbbb\"]]")
            (ascii "Bearer 3kg6k6lzmp9kj5cpkcoxie963cmvjahbt2fod9zru30k1jqdmi"))
          [(ascii "filters", [ascii "[[\"uuid\",\"=\",\"zz404-7fd4e-bbbbbbbbbbbbbbb\"]]"])] [] =
        (MultiClusterResult.notHandled (ascii "zz404"),
          getRequest (ascii "/arvados/v1/workflows")
            (ascii "filters=[[\"uuid\",\"=\",\"zz404-7fd4e-bbbbbbbbbbbbbbb\"]]")
            (ascii "Bearer 3kg6k6lzmp9kj5cpkcoxie963cmvjahbt2fod9zru30k1jqdmi")) ∧
      requestParams
          (getRequest (ascii "/arvados/v1/workflows")
            (ascii "filters=[[\"uuid\",\"=\",\"zz404-7fd4e-bbbbbbbbbbbbbbb\"]]")
            (ascii "Bearer 3kg6k6lzmp9kj5cpkcoxie963cmvjahbt2fod9zru30k1jqdmi")) =
        .ok [(ascii "filters", [ascii "[[\"uuid\",\"=\",\"zz404-7fd4e-bbbbbbbbbbbbbbb\"]]"])] ∧
      exampleQueries.handler.Cluster.ClusterID = ascii "zhome" ∧
      exampleQueries.ServeHTTP
          (getRequest (ascii "/arvados/v1/workflows")
            (ascii "filters=[[\"uuid\",\"=\",\"zz404-7fd4e-bbbbbbbbbbbbbbb\"]]")
            (ascii "Bearer 3kg6k6lzmp9kj5cpkcoxie963cmvjahbt2fod9zru30k1jqdmi")) =
        (Outcome.error (ascii "no proxy available for cluster zz404") 404,
          getRequest (ascii "/arvados/v1/workflows")
            (ascii "filters=[[\"uuid\",\"=\",\"zz404-7fd4e-bbbbbbbbbbbbbbb\"]]")
            (ascii "Bearer 3kg6k6lzmp9kj5cpkcoxie963cmvjahbt2fod9zru30k1jqdmi"))) ∧
    (exampleQueries.handleMultiClusterQuery
          (getRequest (ascii "/arvados/v1/workflows")
            (ascii "filters=[[\"uuid\",\"=\",\"zzzzz-7fd4e-aaaaaaaaaaaaaaa\"]]") (ascii "Bearer abc"))
          [(ascii "filters", [ascii "[[\"uuid\",\"=\",\"zzzzz-7fd4e-aaaaaaaaaaaaaaa\"]]"])] [] =
        (MultiClusterResult.notHandled (ascii "zzzzz"),
          getRequest (ascii "/arvados/v1/workflows")
            (ascii "filters=[[\"uuid\",\"=\",\"zzzzz-7fd4e-aaaaaaaaaaaaaaa\"]]")
            (ascii "Bearer abc")) ∧
      (exampleQueries.handler.Cluster.RemoteClusters.lookup (ascii "zzzzz")).isSome = true ∧
      exampleQueries.ServeHTTP
          (getRequest (ascii "/arvados/v1/workflows")
            (ascii "filters=[[\"uuid\",\"=\",\"zzzzz-7fd4e-aaaaaaaaaaaaaaa\"]]")
            (ascii "Bearer abc")) =
        (Outcome.errorOf (Error.salt auth.Error.ErrTokenFormat) 400,
          getRequest (ascii "/arvados/v1/workflows")
            (ascii "filters=[[\"uuid\",\"=\",\"zzzzz-7fd4e-aaaaaaaaaaaaaaa\"]]")
            (ascii "Bearer abc"))) := by
  refine ⟨⟨by decide, by decide, by decide, by decide⟩, ⟨by decide, by decide, by decide⟩⟩

/-- C23, as the code has it: a request with effective method GET, no uuid in its
path, no `cluster_id` parameter and one `filters` parameter whose predicates are
all `uuid` predicates with `=` or `in`, naming at least one uuid and only uuids
(strings of five bytes or more) with the same first five bytes `P`: the engine
returns `false` with `P` as cluster ID and the request untouched. The router
sends this request to the next handler when `P` is the local cluster ID and
hands it to `remoteClusterRequest` for `P` otherwise, which answers 404 when `P`
is not a configured remote, answers 400 when salting the credential fails, and
else proxies the request to the host of remote `P`, under the path of the
request. -/
theorem ServeHTTP_single_cluster_filter (h : genericFederatedRequestHandler)
    (req : http.Request) (params : url.Values) (text : GoString) (filters : List (List JSON))
    (P : GoString)
    (hparams : requestParams req = .ok params)
    (hmethod : effectiveMethod req params = ascii "GET")
    (hpath : ∀ m, h.matcher req.Path = some m → m.getD 2 [] = [])
    (hcluster : params.get (ascii "cluster_id") = [])
    (hfilters : params.get (ascii "filters") = [text])
    (hparse : h.Unmarshal text = .ok filters)
    (hpred : ∀ f1 ∈ filters, isUUIDPredicate f1 = true)
    (hitems : ∀ f1 ∈ filters, ∀ i ∈ predicateItems f1,
      ∃ u, i = JSON.string u ∧ 5 ≤ u.length ∧ u.take 5 = P)
    (hnamed : ∃ f1 ∈ filters, predicateItems f1 ≠ []) :
    h.handleMultiClusterQuery req params [] = (MultiClusterResult.notHandled P, req) ∧
      (P = h.handler.Cluster.ClusterID → h.ServeHTTP req = (Outcome.next, req)) ∧
      (P ≠ h.handler.Cluster.ClusterID →
        h.ServeHTTP req = h.handler.remoteClusterRequest P req none ∧
          (h.handler.Cluster.RemoteClusters.lookup P = none →
            h.ServeHTTP req =
              (Outcome.error (ascii "no proxy available for cluster " ++ P) 404, req)) ∧
          (∀ remote, h.handler.Cluster.RemoteClusters.lookup P = some remote →
            (∀ req1, h.handler.saltAuthToken req P = (none, req1) →
              h.ServeHTTP req =
                (Outcome.proxy
                    { Scheme := if remote.Scheme = [] then ascii "https" else remote.Scheme,
                      Host := remote.Host, Path := req.Path, RawPath := req.RawPath,
                      RawQuery := req1.RawQuery }
                    remote.Insecure none, req1)) ∧
            (∀ err req1, h.handler.saltAuthToken req P = (some err, req1) →
              h.ServeHTTP req = (Outcome.errorOf err 400, req1)))) := by
  have hsafe : ∀ f1 ∈ filters, ∀ i ∈ predicateItems f1, (JSON.uuid? i).isSome = true := by
    intro f1 hf1 i hi
    obtain ⟨u, rfl, hlen, -⟩ := hitems f1 hf1 i hi
    simp [JSON.uuid?, hlen]
  have hsame : ∀ u ∈ requestedUUIDs filters, u.take 5 = P := by
    intro u hu
    unfold requestedUUIDs at hu
    obtain ⟨f1, hf1, hu⟩ := List.mem_flatMap.1 hu
    obtain ⟨i, hi, hiu⟩ := List.mem_filterMap.1 hu
    obtain ⟨v, rfl, hlen, hv⟩ := hitems f1 hf1 i hi
    simp only [JSON.uuid?, hlen, if_true, Option.some.injEq] at hiu
    rw [← hiu]
    exact hv
  have hne : requestedUUIDs filters ≠ [] := by
    obtain ⟨f1, hf1, hitem⟩ := hnamed
    obtain ⟨i, hi⟩ := List.exists_mem_of_ne_nil _ hitem
    obtain ⟨u, rfl, hlen, -⟩ := hitems f1 hf1 i hi
    have hmem : u ∈ requestedUUIDs filters := by
      unfold requestedUUIDs
      exact List.mem_flatMap.2 ⟨f1, hf1, List.mem_filterMap.2 ⟨_, hi, by simp [JSON.uuid?, hlen]⟩⟩
    exact List.ne_nil_of_mem hmem
  have hengine : h.handleMultiClusterQuery req params [] =
      (MultiClusterResult.notHandled P, req) := by
    unfold genericFederatedRequestHandler.handleMultiClusterQuery
    rw [hfilters]
    have htext : ([text] : List GoString).getD 0 [] = text := rfl
    rw [htext, hparse]
    dsimp only
    rw [splitFilter_foldlM_ok filters _ hpred hsafe]
    dsimp only
    have hlen : ¬ 1 < ((bucketUUIDs (([] : GoString), []) (requestedUUIDs filters)).2).length := by
      rw [bucketUUIDs_length]
      rintro ⟨u, hu, v, hv, huv⟩
      exact huv ((hsame u hu).trans (hsame v hv).symm)
    rw [if_pos (by omega), bucketUUIDs_fst _ _ P hne hsame]
  have hPne : P ≠ [] := by
    obtain ⟨u, hu⟩ := List.exists_mem_of_ne_nil _ hne
    have hu5 := hsame u hu
    obtain ⟨f1, hf1, hu1⟩ := List.mem_flatMap.1 (by unfold requestedUUIDs at hu; exact hu)
    obtain ⟨i, hi, hiu⟩ := List.mem_filterMap.1 hu1
    obtain ⟨v, rfl, hlen, hv⟩ := hitems f1 hf1 i hi
    intro hnil
    rw [hnil] at hv
    have hzero := congrArg List.length hv
    rw [List.length_take, List.length_nil] at hzero
    omega
  have hchosen : chosenClusterID h.matcher req params = [] := by
    unfold chosenClusterID
    rw [hcluster]
    dsimp only
    cases hm : h.matcher req.Path with
    | none => rfl
    | some m => exact hpath m hm
  have hattempted : multiClusterAttempted h.matcher req params :=
    ⟨hmethod, hchosen, by rw [hfilters]; rfl⟩
  have hroute := (ServeHTTP_attempted h req req params _ hparams hattempted hengine).2 P rfl
  refine ⟨hengine, fun hlocal => ?_, fun hnotlocal => ?_⟩
  · rw [hroute, if_pos (Or.inr hlocal)]
  · have hremote : h.ServeHTTP req = h.handler.remoteClusterRequest P req none := by
      rw [hroute, if_neg]
      rintro (h1 | h1)
      · exact hPne h1
      · exact hnotlocal h1
    obtain ⟨hnone, hsome⟩ := remoteClusterRequest_routes h.handler P req none
    refine ⟨hremote, fun hl => by rw [hremote, hnone hl], fun remote hl =>
      ⟨fun req1 hsalt => ?_, fun err req1 hsalt => ?_⟩⟩
    · rw [hremote, (hsome remote hl).1 req1 hsalt]
    · rw [hremote, (hsome remote hl).2 err req1 hsalt]

set_option maxRecDepth 100000 in
theorem ServeHTTP_single_cluster_filter_witness :
    exampleQueries.ServeHTTP
        (getRequest (ascii "/arvados/v1/workflows")
          (ascii "filters=[[\"uuid\",\"=\",\"zzzzz-7fd4e-aaaaaaaaaaaaaaa\"]]")
          (ascii "Bearer 3kg6k6lzmp9kj5cpkcoxie963cmvjahbt2fod9zru30k1jqdmi")) =
      (Outcome.proxy
          { Scheme := ascii "http", Host := ascii "zzzzz.example",
            Path := ascii "/arvados/v1/workflows", RawPath := [],
            RawQuery := ascii "filters=[[\"uuid\",\"=\",\"zzzzz-7fd4e-aaaaaaaaaaaaaaa\"]]" }
          false none,
        getRequest (ascii "/arvados/v1/workflows")
          (ascii "filters=[[\"uuid\",\"=\",\"zzzzz-7fd4e-aaaaaaaaaaaaaaa\"]]")
          (ascii "Bearer v2/zhome-gj3su-077z32aux8dg2s1/282d7d172b6cfdce364c5ed12ddf7417b2d00065")) :=
  (((ServeHTTP_single_cluster_filter exampleQueries
    (getRequest (ascii "/arvados/v1/workflows")
      (ascii "filters=[[\"uuid\",\"=\",\"zzzzz-7fd4e-aaaaaaaaaaaaaaa\"]]")
      (ascii "Bearer 3kg6k6lzmp9kj5cpkcoxie963cmvjahbt2fod9zru30k1jqdmi"))
    [(ascii "filters", [ascii "[[\"uuid\",\"=\",\"zzzzz-7fd4e-aaaaaaaaaaaaaaa\"]]"])]
    (ascii "[[\"uuid\",\"=\",\"zzzzz-7fd4e-aaaaaaaaaaaaaaa\"]]")
    [[JSON.string (ascii "uuid"), JSON.string (ascii "="),
      JSON.string (ascii "zzzzz-7fd4e-aaaaaaaaaaaaaaa")]]
    (ascii "zzzzz")
    (by decide) (by decide)
    (by
      intro m hm
      have hre : exampleQueries.matcher (ascii "/arvados/v1/workflows") =
          some [ascii "/arvados/v1/workflows", [], [], []] := by decide
      rw [show (getRequest (ascii "/arvados/v1/workflows")
          (ascii "filters=[[\"uuid\",\"=\",\"zzzzz-7fd4e-aaaaaaaaaaaaaaa\"]]")
          (ascii "Bearer 3kg6k6lzmp9kj5cpkcoxie963cmvjahbt2fod9zru30k1jqdmi")).Path =
          ascii "/arvados/v1/workflows" from rfl, hre] at hm
      cases hm
      rfl)
    (by decide) (by decide) rfl (by decide)
    (by
      intro f1 hf1 i hi
      rcases List.mem_singleton.1 hf1 with rfl
      rcases List.mem_singleton.1 hi with rfl
      exact ⟨_, rfl, by decide, by decide⟩)
    ⟨_, List.mem_cons_self _ _, List.cons_ne_nil _ _⟩).2.2 (by decide)).2.2
    { Host := ascii "zzzzz.example", Proxy := true, Scheme := ascii "http", Insecure := false }
    (by decide)).1
    (getRequest (ascii "/arvados/v1/workflows")
      (ascii "filters=[[\"uuid\",\"=\",\"zzzzz-7fd4e-aaaaaaaaaaaaaaa\"]]")
      (ascii "Bearer v2/zhome-gj3su-077z32aux8dg2s1/282d7d172b6cfdce364c5ed12ddf7417b2d00065"))
    (by decide)
